import Mathlib

/-!
# Starship game: a shallow embedding of the simulation core

The definitions below transcribe `include/starship/*.hxx` and `src/game.cxx`.

Modelling conventions.

* `float` is modelled by an arbitrary linearly ordered field `α` with exact
  arithmetic (`ℚ` for evaluation on concrete inputs); infinities and NaN are
  outside the model.  Rounding is modelled for the shoot cooldown, where it
  decides the test `shootCooldown <= 0` at ordinary frame deltas:
  `shootDelay` is the value of the literal `0.3f`, and
  `shootCooldown -= deltaTime` rounds its result through `Libm.fl`.
  Everywhere else the arithmetic is exact.
* `int` (`score`, `level`, `health`) is modelled by `Int`; signed overflow is
  undefined behaviour in C++ and is outside the model.
* The `<cmath>` functions the code calls (`std::sqrt`, `std::sin`, `std::cos`,
  `std::atan2`) are taken as a parameter `Libm α`, which also carries the
  rest of the platform: the rounding to `float`, and the storage of
  `std::vector`.
* The member generator `rng` (`std::mt19937`) is modelled by the stream of
  canonical variates in `[0, 1)` it is going to produce; a
  `std::uniform_real_distribution<float>(a, b)` maps one variate `u` to
  `u * (b - a) + a`.  The process-global `rand()` is modelled in the same
  way by the stream `crand` of the values `rand() / RAND_MAX`, carried along
  with the game state.
* `std::vector` is modelled by `List`; `emplace_back` appends at the end.  Its
  capacity is not part of the game state: whether an `emplace_back` finds
  the vector full, and so moves the elements to new storage and releases the
  old one, is answered by `Libm.full`.  The reference `asteroid` that
  `checkCollisions` keeps using in the second iteration of the split loop
  then designates released storage; reading through it is undefined
  behaviour, modelled as a read that returns what `Libm.freed` holds.
-/

namespace starship

/-! ## Vector2D.hxx -/

/-- The struct `Vector2D`. -/
structure Vector2D (α : Type) where
  x : α
  y : α

/-- The platform the code runs on: the `<cmath>` functions it calls, the
rounding of a real number to `float`, and the storage of `std::vector`.
`full n` tells whether the vector of asteroids, holding `n` elements, has
`size() == capacity()`, so that the next `emplace_back` moves the elements to
new storage and releases the old one.  `freed n` gives what the members
`position` and `velocity` of an element read as, from their values before,
once that `emplace_back` has released the storage of the element.  The
capacity depends on the history of the vector, which the game state does not
record; within one call of `checkCollisions` every split finds the vector
at a different size, so that a function of the size can stand for any
history. -/
structure Libm (α : Type) where
  sqrt : α → α
  sin : α → α
  cos : α → α
  atan2 : α → α → α
  fl : α → α
  full : Nat → Bool
  freed : Nat → Vector2D α × Vector2D α → Vector2D α × Vector2D α

section Defs

variable {α : Type} [LinearOrderedField α]

/-- Embeds `Vector2D::operator+`. -/
def Vector2D.add (a b : Vector2D α) : Vector2D α := ⟨a.x + b.x, a.y + b.y⟩

/-- Embeds `Vector2D::operator-`. -/
def Vector2D.sub (a b : Vector2D α) : Vector2D α := ⟨a.x - b.x, a.y - b.y⟩

/-- Embeds `Vector2D::operator*` (scalar multiplication). -/
def Vector2D.smul (a : Vector2D α) (scalar : α) : Vector2D α := ⟨a.x * scalar, a.y * scalar⟩

/-- Embeds `Vector2D::length`. -/
def Vector2D.length (L : Libm α) (a : Vector2D α) : α := L.sqrt (a.x * a.x + a.y * a.y)

/-- Embeds `Vector2D::normalized`. -/
def Vector2D.normalized (L : Libm α) (a : Vector2D α) : Vector2D α :=
  let len := a.length L
  if len > 0 then ⟨a.x / len, a.y / len⟩ else ⟨0, 0⟩

/-- Embeds `Vector2D::distance`. -/
def Vector2D.distance (L : Libm α) (a b : Vector2D α) : α := (b.sub a).length L

/-! ## entity.hxx -/

/-- The data members of class `Entity`. -/
structure Entity (α : Type) where
  position : Vector2D α
  velocity : Vector2D α
  radius : α
  active : Bool

/-- The constructor `Entity(pos, radius)`. -/
def Entity.new (pos : Vector2D α) (radius : α) : Entity α :=
  { position := pos, velocity := ⟨0, 0⟩, radius := radius, active := true }

/-- Embeds `Entity::update`. -/
def Entity.update (e : Entity α) (deltaTime : α) : Entity α :=
  { e with position := e.position.add (e.velocity.smul deltaTime) }

/-- Embeds `Entity::collidesWith`. -/
def Entity.collidesWith (L : Libm α) (e other : Entity α) : Bool :=
  let dist := Vector2D.distance L e.position other.position
  decide (dist < e.radius + other.radius)

/-- Embeds `Entity::wrapScreen`. -/
def Entity.wrapScreen (e : Entity α) (width height : α) : Entity α :=
  let x1 := if e.position.x < 0 then e.position.x + width else e.position.x
  let x2 := if x1 > width then x1 - width else x1
  let y1 := if e.position.y < 0 then e.position.y + height else e.position.y
  let y2 := if y1 > height then y1 - height else y1
  { e with position := ⟨x2, y2⟩ }

/-! ## asteroid.hxx -/

/-- The enum `Asteroid::Size`. -/
inductive Size where
  | LARGE
  | MEDIUM
  | SMALL
  deriving DecidableEq, Repr

/-- The class `Asteroid`. -/
structure Asteroid (α : Type) extends Entity α where
  size : Size
  rotationSpeed : α

/-- Embeds `Asteroid::getRadiusForSize`. -/
def Asteroid.getRadiusForSize : Size → α
  | .LARGE => 20
  | .MEDIUM => 12
  | .SMALL => 6

/-- The constructor `Asteroid(pos, vel, s)`. -/
def Asteroid.new (pos vel : Vector2D α) (s : Size) : Asteroid α :=
  { toEntity := { Entity.new pos (Asteroid.getRadiusForSize s) with velocity := vel },
    size := s, rotationSpeed := 45 }

/-- Embeds `Asteroid::getPoints`. -/
def Asteroid.getPoints (a : Asteroid α) : Int :=
  match a.size with
  | .LARGE => 20
  | .MEDIUM => 50
  | .SMALL => 100

/-- Embeds `Asteroid::canSplit`. -/
def Asteroid.canSplit (a : Asteroid α) : Bool := a.size != Size.SMALL

/-- Embeds `Asteroid::getNextSize`. -/
def Asteroid.getNextSize (a : Asteroid α) : Size :=
  if a.size = Size.LARGE then Size.MEDIUM
  else if a.size = Size.MEDIUM then Size.SMALL
  else Size.SMALL

/-- Embeds `Asteroid::update`. -/
def Asteroid.update (a : Asteroid α) (deltaTime : α) : Asteroid α :=
  { a with toEntity := a.toEntity.update deltaTime }

/-- Embeds `Entity::setActive` on an asteroid. -/
def Asteroid.setActive (a : Asteroid α) (state : Bool) : Asteroid α :=
  { a with active := state }

/-! ## projectile.hxx -/

/-- The class `Projectile`. -/
structure Projectile (α : Type) extends Entity α where
  lifetime : α
  maxLifetime : α

/-- The constructor `Projectile(pos, vel)`. -/
def Projectile.new (pos vel : Vector2D α) : Projectile α :=
  { toEntity := { Entity.new pos 0.3 with velocity := vel },
    lifetime := 0, maxLifetime := 2 }

/-- Embeds `Projectile::update`. -/
def Projectile.update (p : Projectile α) (deltaTime : α) : Projectile α :=
  let e := p.toEntity.update deltaTime
  let lifetime := p.lifetime + deltaTime
  if lifetime > p.maxLifetime then
    { p with toEntity := { e with active := false }, lifetime := lifetime }
  else
    { p with toEntity := e, lifetime := lifetime }

/-- Embeds `Entity::setActive` on a projectile. -/
def Projectile.setActive (p : Projectile α) (state : Bool) : Projectile α :=
  { p with active := state }

/-! ## starship.hxx -/

/-- The class `Starship`. -/
structure Starship (α : Type) extends Entity α where
  rotation : α
  thrustPower : α
  health : Int

/-- The constructor `Starship(pos)`. -/
def Starship.new (pos : Vector2D α) : Starship α :=
  { toEntity := Entity.new pos 1, rotation := 0, thrustPower := 50, health := 3 }

/-- Embeds `Starship::rotateLeft`. -/
def Starship.rotateLeft (s : Starship α) (deltaTime : α) : Starship α :=
  { s with rotation := s.rotation - 3 * deltaTime }

/-- Embeds `Starship::rotateRight`. -/
def Starship.rotateRight (s : Starship α) (deltaTime : α) : Starship α :=
  { s with rotation := s.rotation + 3 * deltaTime }

/-- Embeds `Starship::moveLeft`. -/
def Starship.moveLeft (s : Starship α) (speed : α) : Starship α :=
  { s with velocity := ⟨-speed, s.velocity.y⟩ }

/-- Embeds `Starship::moveRight`. -/
def Starship.moveRight (s : Starship α) (speed : α) : Starship α :=
  { s with velocity := ⟨speed, s.velocity.y⟩ }

/-- Embeds `Starship::stopMoving`. -/
def Starship.stopMoving (s : Starship α) : Starship α :=
  { s with velocity := ⟨0, s.velocity.y⟩ }

/-- Embeds `Starship::thrust`. -/
def Starship.thrust (L : Libm α) (s : Starship α) (deltaTime : α) : Starship α :=
  let thrustDir : Vector2D α := ⟨L.cos s.rotation, L.sin s.rotation⟩
  let velocity := s.velocity.add ((thrustDir.smul s.thrustPower).smul deltaTime)
  let maxSpeed : α := 40
  if velocity.length L > maxSpeed then
    { s with velocity := (velocity.normalized L).smul maxSpeed }
  else
    { s with velocity := velocity }

/-- Embeds `Starship::applyDrag`. -/
def Starship.applyDrag (s : Starship α) (deltaTime : α) : Starship α :=
  { s with velocity := s.velocity.smul (1 - 0.5 * deltaTime) }

/-- Embeds `Starship::applyBoundaries`. -/
def Starship.applyBoundaries (s : Starship α) (width height : α) : Starship α :=
  let x1 := if s.position.x < s.radius then s.radius else s.position.x
  let x2 := if x1 > width - s.radius then width - s.radius else x1
  { s with position := ⟨x2, height - 30⟩, velocity := ⟨s.velocity.x, 0⟩ }

/-- Embeds `Starship::takeDamage`. -/
def Starship.takeDamage (s : Starship α) : Starship α :=
  let health := s.health - 1
  if health ≤ 0 then { s with health := health, active := false }
  else { s with health := health }

/-- Embeds `Starship::respawn`. -/
def Starship.respawn (s : Starship α) (pos : Vector2D α) : Starship α :=
  { s with position := pos, velocity := ⟨0, 0⟩, rotation := 0, active := true }

/-- Embeds `Entity::update`, inherited by `Starship`. -/
def Starship.update (s : Starship α) (deltaTime : α) : Starship α :=
  { s with toEntity := s.toEntity.update deltaTime }

/-! ## game.hxx, game.cxx -/

/-- The class `Game`.  `rng` is the stream of canonical variates the member
generator is going to produce, `crand` the stream of the values
`rand() / RAND_MAX` of the process-global generator; `shootDelay` and
`spawnInterval` are `const` members with a default initialiser. -/
structure Game (α : Type) where
  player : Starship α
  asteroids : List (Asteroid α)
  projectiles : List (Projectile α)
  score : Int
  level : Int
  width : α
  height : α
  rng : Nat → α
  crand : Nat → α
  shootCooldown : α
  spawnTimer : α
  gameOver : Bool

/-- The member constant `shootDelay = 0.3f`: the value of the literal, which is
the `float` nearest to 3/10, `5033165 / 2^24`. -/
def Game.shootDelay : α := 5033165 / 16777216

/-- The member constant `spawnInterval = 2.0f`. -/
def Game.spawnInterval : α := 2

/-- One sample of `std::uniform_real_distribution<float>(a, b)` from the
canonical variate `u`. -/
def uniformReal (a b u : α) : α := u * (b - a) + a

/-- Embeds `Game::spawnAsteroid`. -/
def Game.spawnAsteroid (g : Game α) (pos vel : Vector2D α) (size : Size) : Game α :=
  { g with asteroids := g.asteroids ++ [Asteroid.new pos vel size] }

/-- The body of the loop of `Game::spawnAsteroids`: one asteroid from the top. -/
def Game.spawnAsteroidsBody (L : Libm α) (g : Game α) : Game α :=
  let pos : Vector2D α := ⟨uniformReal 0 g.width (g.rng 0), -20⟩
  let speed := uniformReal 10 30 (g.rng 1)
  let horizontalAngle := g.crand 0 * 0.4 - 0.2
  let vel : Vector2D α := ⟨L.sin horizontalAngle * speed, speed⟩
  let g1 : Game α := { g with rng := fun n => g.rng (n + 2), crand := fun n => g.crand (n + 1) }
  g1.spawnAsteroid pos vel Size.LARGE

/-- The loop of `Game::spawnAsteroids`, with `n` iterations left. -/
def Game.spawnAsteroidsLoop (L : Libm α) : Nat → Game α → Game α
  | 0, g => g
  | n + 1, g => Game.spawnAsteroidsLoop L n (g.spawnAsteroidsBody L)

/-- Embeds `Game::spawnAsteroids`: `for (int i = 0; i < count; i++)` runs
`count` times when `count` is positive and not at all otherwise. -/
def Game.spawnAsteroids (L : Libm α) (g : Game α) (count : Int) : Game α :=
  Game.spawnAsteroidsLoop L count.toNat g

/-- The constructor `Game::Game(width, height)`; the generator seeded from
`std::random_device` is the argument `rng`. -/
def Game.new (L : Libm α) (width height : α) (rng crand : Nat → α) : Game α :=
  Game.spawnAsteroids L
    { player := Starship.new ⟨width / 2, height / 2⟩, asteroids := [], projectiles := [],
      score := 0, level := 1, width := width, height := height, rng := rng, crand := crand,
      shootCooldown := 0, spawnTimer := 0, gameOver := false } 8

/-- Embeds `Game::shootProjectile`. -/
def Game.shootProjectile (g : Game α) : Game α :=
  if !g.player.active then g
  else
    let pos := g.player.position
    let vel : Vector2D α := ⟨0, -300⟩
    { g with projectiles := g.projectiles ++ [Projectile.new pos vel] }

/-- The scan `for (auto& asteroid : asteroids)` shared by the two passes of
`Game::checkCollisions`: inactive asteroids are skipped, and the scan stops
(`break`) at the first active asteroid that `e` collides with.  Returns that
asteroid as it was found and the asteroids with it deactivated, or `none`
when the scan reaches the end of the vector. -/
def hitScan (L : Libm α) (e : Entity α) :
    List (Asteroid α) → Option (Asteroid α × List (Asteroid α))
  | [] => none
  | a :: rest =>
    if !a.active then
      (hitScan L e rest).map fun r => (r.1, a :: r.2)
    else if e.collidesWith L a.toEntity then
      some (a, a.setActive false :: rest)
    else
      (hitScan L e rest).map fun r => (r.1, a :: r.2)

/-- One iteration of the loop `for (int i = 0; i < 2; i++)` of
`Game::checkCollisions` that spawns a fragment of `asteroid`. -/
def Game.splitBody (L : Libm α) (g : Game α) (asteroid : Asteroid α) (nextSize : Size) :
    Game α :=
  let vel := asteroid.velocity
  let angle := L.atan2 vel.y vel.x + uniformReal (-0.5) 0.5 (g.rng 0)
  let speed := vel.length L * 1.2
  let newVel : Vector2D α := ⟨L.cos angle * speed, L.sin angle * speed⟩
  let g1 : Game α := { g with rng := fun n => g.rng (n + 1) }
  g1.spawnAsteroid asteroid.position newVel nextSize

/-- What the reference `asteroid` of the scan in `Game::checkCollisions` shows
in the second iteration of the split loop, `n` being the number of asteroids
before the first `emplace_back`.  When the vector was full, that call moved
the elements and released the storage the reference designates: the members
the iteration reads, `velocity` and `position`, are what the released
storage holds.  Otherwise the reference still designates the element. -/
def Game.rereadAsteroid (L : Libm α) (n : Nat) (asteroid : Asteroid α) : Asteroid α :=
  if L.full n then
    { asteroid with
      position := (L.freed n (asteroid.position, asteroid.velocity)).1
      velocity := (L.freed n (asteroid.position, asteroid.velocity)).2 }
  else asteroid

/-- The body of `if (projectile.collidesWith(asteroid))` in the first pass of
`Game::checkCollisions`, after both entities were deactivated: the score
and the split.  `nextSize` is read once, before the loop; the two iterations
read `asteroid` through the reference, the second one after the first
`emplace_back`. -/
def Game.onProjectileHit (L : Libm α) (g : Game α) (asteroid : Asteroid α) : Game α :=
  let g1 : Game α := { g with score := g.score + asteroid.getPoints }
  if asteroid.canSplit then
    let nextSize := asteroid.getNextSize
    let g2 := g1.splitBody L asteroid nextSize
    g2.splitBody L (Game.rereadAsteroid L g1.asteroids.length asteroid) nextSize
  else g1

/-- One iteration of the loop `for (auto& projectile : projectiles)` of
`Game::checkCollisions`; returns the projectile as the iteration leaves it,
and the game. -/
def Game.projectileStep (L : Libm α) (projectile : Projectile α) (g : Game α) :
    Projectile α × Game α :=
  if !projectile.active then (projectile, g)
  else
    match hitScan L projectile.toEntity g.asteroids with
    | none => (projectile, g)
    | some (asteroid, asteroids) =>
      let g1 : Game α := { g with asteroids := asteroids }
      (projectile.setActive false, g1.onProjectileHit L (asteroid.setActive false))

/-- The loop `for (auto& projectile : projectiles)` of `Game::checkCollisions`
over the projectiles not yet visited; returns them as the loop leaves them,
and the game. -/
def Game.projectilePass (L : Libm α) :
    List (Projectile α) → Game α → List (Projectile α) × Game α
  | [], g => ([], g)
  | projectile :: rest, g =>
    let s := Game.projectileStep L projectile g
    let r := Game.projectilePass L rest s.2
    (s.1 :: r.1, r.2)

/-- The first pass of `Game::checkCollisions`: projectiles against asteroids. -/
def Game.projectilePhase (L : Libm α) (g : Game α) : Game α :=
  let r := Game.projectilePass L g.projectiles g
  { r.2 with projectiles := r.1 }

/-- The second pass of `Game::checkCollisions`: player against asteroids. -/
def Game.playerPass (L : Libm α) (g : Game α) : Game α :=
  if g.player.active then
    match hitScan L g.player.toEntity g.asteroids with
    | none => g
    | some (_, asteroids) =>
      let player := g.player.takeDamage
      let player :=
        if player.health > 0 then player.respawn ⟨g.width / 2, g.height / 2⟩ else player
      { g with player := player, asteroids := asteroids }
  else g

/-- Embeds `Game::checkCollisions`. -/
def Game.checkCollisions (L : Libm α) (g : Game α) : Game α :=
  (g.projectilePhase L).playerPass L

/-- Embeds `Game::removeInactiveEntities`. -/
def Game.removeInactiveEntities (g : Game α) : Game α :=
  { g with asteroids := g.asteroids.filter fun a => a.active,
           projectiles := g.projectiles.filter fun p => p.active }

/-- The loop of `Game::update` over the asteroids: move, then deactivate
below the bottom margin. -/
def Game.updateAsteroid (height : α) (asteroid : Asteroid α) (deltaTime : α) : Asteroid α :=
  let a := asteroid.update deltaTime
  if a.position.y > height + 50 then a.setActive false else a

/-- The loop of `Game::update` over the projectiles: update, then deactivate
above the top margin. -/
def Game.updateProjectile (projectile : Projectile α) (deltaTime : α) : Projectile α :=
  let p := projectile.update deltaTime
  if p.position.y < -10 then p.setActive false else p

/-- The part of `Game::update` before `checkCollisions`: cooldown, player,
asteroids, projectiles.  The cooldown is a `float`: `shootCooldown -= deltaTime`
stores the rounded difference. -/
def Game.moveEntities (L : Libm α) (g : Game α) (deltaTime : α) : Game α :=
  let shootCooldown :=
    if g.shootCooldown > 0 then L.fl (g.shootCooldown - deltaTime) else g.shootCooldown
  let player :=
    if g.player.active then
      ((g.player.update deltaTime).applyDrag deltaTime).applyBoundaries g.width g.height
    else g.player
  { g with
    shootCooldown := shootCooldown
    player := player
    asteroids := g.asteroids.map fun a => Game.updateAsteroid g.height a deltaTime
    projectiles := g.projectiles.map fun p => Game.updateProjectile p deltaTime }

/-- The timed spawn of `Game::update`. -/
def Game.timedSpawn (L : Libm α) (g : Game α) (deltaTime : α) : Game α :=
  let g1 : Game α := { g with spawnTimer := g.spawnTimer + deltaTime }
  if g1.spawnTimer ≥ Game.spawnInterval then
    let g2 : Game α := { g1 with spawnTimer := 0 }
    let spawnCount : Int := 1 + Int.tdiv g2.level 3
    g2.spawnAsteroids L spawnCount
  else g1

/-- The level advance of `Game::update`. -/
def Game.levelAdvance (L : Libm α) (g : Game α) : Game α :=
  if g.asteroids.isEmpty && g.player.active then
    let g1 : Game α := { g with level := g.level + 1 }
    g1.spawnAsteroids L (6 + g1.level * 2)
  else g

/-- The game-over check of `Game::update`. -/
def Game.checkGameOver (g : Game α) : Game α :=
  if !g.player.active && decide (g.player.health ≤ 0) then { g with gameOver := true } else g

/-- Embeds `Game::update`. -/
def Game.update (L : Libm α) (g : Game α) (deltaTime : α) : Game α :=
  if g.gameOver then g
  else
    let g1 := g.moveEntities L deltaTime
    let g2 := g1.checkCollisions L
    let g3 := g2.removeInactiveEntities
    let g4 := g3.timedSpawn L deltaTime
    let g5 := g4.levelAdvance L
    g5.checkGameOver

/-- Embeds `Game::reset`. -/
def Game.reset (L : Libm α) (g : Game α) : Game α :=
  Game.spawnAsteroids L
    { g with
      player := Starship.new ⟨g.width / 2, g.height / 2⟩
      asteroids := []
      projectiles := []
      score := 0
      level := 1
      shootCooldown := 0
      spawnTimer := 0
      gameOver := false } 8

/-- Embeds `Game::handleInput`. -/
def Game.handleInput (L : Libm α) (g : Game α) (input : Char) (deltaTime : α) : Game α :=
  if g.gameOver then
    if input = 'r' ∨ input = 'R' then g.reset L else g
  else if input = 'a' ∨ input = 'A' then
    { g with player := g.player.moveLeft 150 }
  else if input = 'd' ∨ input = 'D' then
    { g with player := g.player.moveRight 150 }
  else if input = 'w' ∨ input = 'W' then
    { g with player := g.player.thrust L deltaTime }
  else if input = ' ' then
    if g.shootCooldown ≤ 0 then
      { g.shootProjectile with shootCooldown := Game.shootDelay }
    else g
  else g

/-- The asteroid `a` is the first active asteroid of `pre ++ a :: post` that `e`
overlaps. -/
def FirstHit (L : Libm α) (e : Entity α) (pre : List (Asteroid α)) (a : Asteroid α) : Prop :=
  (∀ b ∈ pre, b.active = false ∨ e.collidesWith L b.toEntity = false) ∧
    a.active = true ∧ e.collidesWith L a.toEntity = true

/-- The calls a client makes on a `Game`: the public methods that change it. -/
inductive Input (α : Type) where
  | update (deltaTime : α)
  | handleInput (input : Char) (deltaTime : α)
  | reset

/-- The game after one call. -/
def Game.step (L : Libm α) (g : Game α) : Input α → Game α
  | .update deltaTime => g.update L deltaTime
  | .handleInput input deltaTime => g.handleInput L input deltaTime
  | .reset => g.reset L

/-- The call runs `Game::reset` on `g`: a direct call, or the reset key while
the game is over. -/
def Game.resetsOn (g : Game α) : Input α → Bool
  | .update _ => false
  | .handleInput input _ => g.gameOver && (input == 'r' || input == 'R')
  | .reset => true

/-- The states reached from `g0` by calls none of which runs `Game::reset`. -/
inductive ReachableNoReset (L : Libm α) (g0 : Game α) : Game α → Prop where
  | start : ReachableNoReset L g0 g0
  | call (g : Game α) (i : Input α) :
      ReachableNoReset L g0 g → g.resetsOn i = false → ReachableNoReset L g0 (g.step L i)

/-- The states reached from a fresh session by `update`, `handleInput` and
`reset`. -/
inductive Reachable (L : Libm α) : Game α → Prop where
  | fresh (width height : α) (rng crand : Nat → α) :
      Reachable L (Game.new L width height rng crand)
  | call (g : Game α) (i : Input α) : Reachable L g → Reachable L (g.step L i)

/-- Every asteroid and every projectile held in the collections is active. -/
def Game.AllActive (g : Game α) : Prop :=
  (∀ a ∈ g.asteroids, a.active = true) ∧ (∀ p ∈ g.projectiles, p.active = true)

/-- The stream consists of canonical variates, in `[0, 1)`. -/
def InUnit (r : Nat → α) : Prop := ∀ n, 0 ≤ r n ∧ r n < 1

/-- The state of the session as far as the ship's life is concerned: either the
game is on and the ship is active with positive health, or the game is over
and the health is 0. -/
def Game.Alive (g : Game α) : Prop :=
  (g.gameOver = false ∧ g.player.active = true ∧ 0 < g.player.health) ∨
    (g.gameOver = true ∧ g.player.active = false ∧ g.player.health = 0)

/-- The asteroid that `projectile` destroys in its iteration of the projectile
loop of `Game::checkCollisions`, if any: the one at which the scan stops. -/
def Game.projectileTarget (L : Libm α) (projectile : Projectile α) (g : Game α) :
    Option (Asteroid α) :=
  if !projectile.active then none
  else (hitScan L projectile.toEntity g.asteroids).map Prod.fst

/-- The asteroids destroyed by the projectiles in the projectile loop of
`Game::checkCollisions`, in the order in which they are destroyed. -/
def Game.destroyedByProjectiles (L : Libm α) :
    List (Projectile α) → Game α → List (Asteroid α)
  | [], _ => []
  | projectile :: rest, g =>
    (Game.projectileTarget L projectile g).toList ++
      Game.destroyedByProjectiles L rest (Game.projectileStep L projectile g).2

end Defs

/-! ## Concrete inputs -/

/-- Newton iteration for the integer square root of `n` from the estimate
`k`, with `fuel` steps left. -/
def isqrtIter (n : Nat) : Nat → Nat → Nat
  | 0, k => k
  | fuel + 1, k =>
    let next := (k + n / k) / 2
    if next < k then isqrtIter n fuel next else k

/-- Integer square root by Newton iteration from `n`, at most 64 steps. -/
def isqrt (n : Nat) : Nat := if n = 0 then 0 else isqrtIter n 64 n

/-- The integer nearest to `n / d`, the even one of the two when `n / d` lies
half way between them. -/
def roundHalfEven (n d : Nat) : Nat :=
  let q := n / d
  let r := n % d
  if 2 * r < d then q else if d < 2 * r then q + 1 else if q % 2 = 0 then q else q + 1

/-- The position of the leading binary digit of `n`, by halving, with `fuel`
steps left. -/
def ilog2 : Nat → Nat → Nat
  | 0, _ => 0
  | fuel + 1, n => if n < 2 then 0 else ilog2 fuel (n / 2) + 1

/-- The binary exponent of the positive rational `n / d`: the integer `e` with
`2 ^ e ≤ n / d < 2 ^ (e + 1)` (for numerator and denominator below `2 ^ 512`). -/
def binade (n d : Nat) : Int :=
  let e : Int := (ilog2 512 n : Int) - (ilog2 512 d : Int)
  if e ≥ 0 then (if d * 2 ^ e.toNat ≤ n then e else e - 1)
  else (if d ≤ n * 2 ^ (-e).toNat then e else e - 1)

/-- The `float` (IEEE 754 binary32) nearest to the positive rational `n / d`,
ties to even: 24 significant binary digits, the unit in the last place no
smaller than `2 ^ (-149)`.  Overflow to infinity is not represented. -/
def floatMag (n d : Nat) : ℚ :=
  let s : Int := max (binade n d) (-126) - 23
  if s ≥ 0 then ((roundHalfEven n (d * 2 ^ s.toNat) * 2 ^ s.toNat : Nat) : ℚ)
  else (roundHalfEven (n * 2 ^ (-s).toNat) d : ℚ) / ((2 ^ (-s).toNat : Nat) : ℚ)

/-- Rounding of a rational number to `float`, to nearest and ties to even. -/
def roundToFloat (q : ℚ) : ℚ :=
  if q = 0 then 0
  else if 0 < q then floatMag q.num.toNat q.den
  else -floatMag (-q).num.toNat q.den

/-- An instance of `Libm` over `ℚ` for evaluating the definitions on concrete
inputs.  `sqrt` takes the integer square roots of numerator and denominator;
the examples that evaluate it give it squares of integers only, where it is
exact, as the lemmas `evalLibm_sqrt_*` show.  The values of `sin`, `cos` and
`atan2` are exact at `0`, at `0` and on the non-negative x axis; the examples
that evaluate them do so only there, or multiply the value by zero, or do not
look at the result.  `fl` is the rounding to binary32.  `full` is what
libstdc++ gives for a vector that has only grown from empty: the capacity
doubles when the vector is full (1, 2, 4, 8, ...), so the vector is full when
its size is a power of two.  `freed` is an allocator that clears the storage
it is given back: every member reads as zero. -/
def evalLibm : Libm ℚ :=
  { sqrt := fun q => (isqrt q.num.toNat : ℚ) / (isqrt q.den : ℚ)
    sin := fun _ => 0
    cos := fun _ => 1
    atan2 := fun _ _ => 0
    fl := roundToFloat
    full := fun n => decide (2 ^ ilog2 512 n = n)
    freed := fun _ _ => (⟨0, 0⟩, ⟨0, 0⟩) }

/-- An 800 x 600 field with the ship at the centre, where the constructor and
`respawn` place it, and one Large asteroid at rest at the same point. -/
def overlapAtCentre : Game ℚ :=
  { player := Starship.new ⟨400, 300⟩
    asteroids := [Asteroid.new ⟨400, 300⟩ ⟨0, 0⟩ Size.LARGE]
    projectiles := []
    score := 0
    level := 1
    width := 800
    height := 600
    rng := fun _ => 1 / 2
    crand := fun _ => 1 / 2
    shootCooldown := 0
    spawnTimer := 0
    gameOver := false }

/-- An 800 x 600 field with the ship on its track at the bottom, one Large
asteroid at rest at the same point, and nothing else. -/
def overlapOnTrack : Game ℚ :=
  { overlapAtCentre with
    player := Starship.new ⟨400, 570⟩
    asteroids := [Asteroid.new ⟨400, 570⟩ ⟨0, 0⟩ Size.LARGE] }

/-- An 800 x 600 field with the ship on its track, one Large asteroid at rest
in the middle of the field and one fresh projectile at the same point. -/
def shotAtCentre : Game ℚ :=
  { overlapAtCentre with
    player := Starship.new ⟨400, 570⟩
    projectiles := [Projectile.new ⟨400, 300⟩ ⟨0, -300⟩] }

/-- The state `overlapAtCentre` after the game has ended. -/
def gameOverState : Game ℚ :=
  { overlapAtCentre with
    player := { Starship.new ⟨400, 570⟩ with health := 0, active := false }
    score := 170
    level := 2
    gameOver := true }

/-- A fresh session on an 800 x 600 field. -/
def freshSession : Game ℚ := Game.new evalLibm 800 600 (fun _ => 1 / 2) (fun _ => 1 / 2)

/-- An 800 x 600 field with the ship on its track and two Large asteroids at
rest at the same point as the ship. -/
def twoOnShip : Game ℚ :=
  { overlapOnTrack with
    asteroids := [Asteroid.new ⟨400, 570⟩ ⟨0, 0⟩ Size.LARGE,
      Asteroid.new ⟨400, 570⟩ ⟨0, 0⟩ Size.LARGE] }

/-- The state `overlapAtCentre` with the ship deactivated from outside, as
`getPlayer().setActive(false)` leaves it: the game is not over. -/
def dormant : Game ℚ :=
  { overlapAtCentre with player := { Starship.new ⟨400, 300⟩ with active := false } }

/-- A fresh projectile in the middle of the 800 x 600 field. -/
def shot : Projectile ℚ := Projectile.new ⟨400, 300⟩ ⟨0, -300⟩

/-- A Large asteroid at rest in the middle of the 800 x 600 field. -/
def rock : Asteroid ℚ := Asteroid.new ⟨400, 300⟩ ⟨0, 0⟩ Size.LARGE

/-- A Medium asteroid at rest in the middle of the 800 x 600 field. -/
def pebble : Asteroid ℚ := Asteroid.new ⟨400, 300⟩ ⟨0, 0⟩ Size.MEDIUM

/-- A ship of the constructor left of the field, at x = -5. -/
def strayShip : Starship ℚ := { Starship.new ⟨-5, 300⟩ with velocity := ⟨-150, 7⟩ }

/-- An entity more than one field width left of the 800 x 600 field. -/
def farLeft : Entity ℚ := Entity.new ⟨-1000, 300⟩ 1

/-- An entity less than one field width left of the 800 x 600 field. -/
def nearLeft : Entity ℚ := Entity.new ⟨-100, 300⟩ 1

/-- An 800 x 600 field at level 1 with the ship on its track and no asteroid
left. -/
def clearField : Game ℚ :=
  { overlapAtCentre with player := Starship.new ⟨400, 570⟩, asteroids := [] }

/-- The state `overlapOnTrack` with the asteroid away from the ship, at level 4
and with the spawn timer close to the spawn interval. -/
def spawnDue : Game ℚ :=
  { overlapAtCentre with
    player := Starship.new ⟨400, 570⟩
    level := 4
    spawnTimer := 199 / 100 }

/-- A Large asteroid in the middle of the 800 x 600 field, moving with velocity
(3, 4), over any field of numbers. -/
def driftingRock {α : Type} [LinearOrderedField α] : Asteroid α :=
  Asteroid.new ⟨400, 300⟩ ⟨3, 4⟩ Size.LARGE

/-- A fresh projectile at the point of `driftingRock`. -/
def shotAtRock {α : Type} [LinearOrderedField α] : Projectile α :=
  Projectile.new ⟨400, 300⟩ ⟨0, -300⟩

/-- The ship on its track, `driftingRock` and `shotAtRock`, with a generator
whose variates are all 1/2 (angle offsets 0). -/
def driftField {α : Type} [LinearOrderedField α] : Game α :=
  { player := Starship.new ⟨400, 570⟩
    asteroids := [driftingRock]
    projectiles := [shotAtRock]
    score := 0
    level := 1
    width := 800
    height := 600
    rng := fun _ => 1 / 2
    crand := fun _ => 1 / 2
    shootCooldown := 0
    spawnTimer := 0
    gameOver := false }

/-- The projectile `shot` at the end of its lifetime. -/
def staleShot : Projectile ℚ := { shot with lifetime := 2 }

/-- The state `shotAtCentre` with the projectile at the end of its lifetime. -/
def staleAtRock : Game ℚ := { shotAtCentre with projectiles := [staleShot] }

/-- The ship on its track, and three asteroids at the point of the projectile
`shot`: one that is already inactive, a Large one and a Medium one. -/
def threeTargets : Game ℚ :=
  { shotAtCentre with
    asteroids := [rock.setActive false, rock, pebble]
    projectiles := [shot] }

/-- A Large asteroid of a fresh session whose generator gave 1/2 throughout
(spawned at (400, -20) with velocity (0, 20)), one second later. -/
def fallingRock : Asteroid ℚ := Asteroid.new ⟨400, 0⟩ ⟨0, 20⟩ Size.LARGE

/-- The projectile fired from the centre of the 800 x 600 field, one second
later. -/
def risingShot : Projectile ℚ := { Projectile.new ⟨400, 0⟩ ⟨0, -300⟩ with lifetime := 1 }

/-- The game as `checkCollisions` finds it in `update(1)`, called after a fire
on a fresh session: eight Large asteroids, none removed or added since the
constructor, and the projectile, which has reached them. -/
def firstKill : Game ℚ :=
  (Game.handleInput evalLibm freshSession ' ' (1 / 60)).moveEntities evalLibm 1

/-! ## The collision scan -/

section Scan

variable {α : Type} [LinearOrderedField α]

theorem hitScan_of_firstHit (L : Libm α) (e : Entity α) (pre post : List (Asteroid α))
    (a : Asteroid α) (h : FirstHit L e pre a) :
    hitScan L e (pre ++ a :: post) = some (a, pre ++ a.setActive false :: post) := by
  obtain ⟨hpre, hact, hcol⟩ := h
  induction pre with
  | nil => simp [hitScan, hact, hcol]
  | cons b pre ih =>
    have hb := hpre b (List.mem_cons_self _ _)
    have ih1 := ih (fun c hc => hpre c (List.mem_cons_of_mem _ hc))
    rcases hb with hb | hb
    · simp [hitScan, hb, ih1]
    · by_cases hba : b.active = true
      · simp [hitScan, hba, hb, ih1]
      · simp [hitScan, hba, ih1]

theorem hitScan_some (L : Libm α) (e : Entity α) (asts : List (Asteroid α))
    (a : Asteroid α) (asts1 : List (Asteroid α)) (h : hitScan L e asts = some (a, asts1)) :
    ∃ pre post, asts = pre ++ a :: post ∧ FirstHit L e pre a ∧
      asts1 = pre ++ a.setActive false :: post := by
  induction asts generalizing asts1 with
  | nil => simp [hitScan] at h
  | cons b rest ih =>
    by_cases hba : b.active = true
    · by_cases hcol : e.collidesWith L b.toEntity = true
      · simp [hitScan, hba, hcol] at h
        obtain ⟨rfl, rfl⟩ := h
        exact ⟨[], rest, rfl, ⟨by simp, hba, hcol⟩, rfl⟩
      · simp [hitScan, hba, hcol] at h
        obtain ⟨r, r1, hr, rfl, rfl⟩ := h
        obtain ⟨pre, post, h1, h2, h3⟩ := ih r1 hr
        refine ⟨b :: pre, post, by simp [h1], ⟨?_, h2.2.1, h2.2.2⟩, by simp [h3]⟩
        intro c hc
        rcases List.mem_cons.mp hc with rfl | hc
        · right; simpa using hcol
        · exact h2.1 c hc
    · simp [hitScan, hba] at h
      obtain ⟨r, r1, hr, rfl, rfl⟩ := h
      obtain ⟨pre, post, h1, h2, h3⟩ := ih r1 hr
      refine ⟨b :: pre, post, by simp [h1], ⟨?_, h2.2.1, h2.2.2⟩, by simp [h3]⟩
      intro c hc
      rcases List.mem_cons.mp hc with rfl | hc
      · left; simpa using hba
      · exact h2.1 c hc

theorem hitScan_none (L : Libm α) (e : Entity α) (asts : List (Asteroid α)) :
    hitScan L e asts = none ↔
      ∀ b ∈ asts, b.active = false ∨ e.collidesWith L b.toEntity = false := by
  induction asts with
  | nil => simp [hitScan]
  | cons b rest ih =>
    by_cases hba : b.active = true
    · by_cases hcol : e.collidesWith L b.toEntity = true
      · simp [hitScan, hba, hcol]
      · simp [hitScan, hba, hcol, ih]
    · simp [hitScan, hba, ih]

omit [LinearOrderedField α] in
theorem countP_inactive_deactivate (pre post : List (Asteroid α)) (a : Asteroid α)
    (ha : a.active = true) :
    (pre ++ a.setActive false :: post).countP (fun b => !b.active) =
      (pre ++ a :: post).countP (fun b => !b.active) + 1 := by
  simp [List.countP_append, List.countP_cons, Asteroid.setActive, ha]
  omega

end Scan

/-! ## Projectile hits and splitting -/

section Split

variable {α : Type} [LinearOrderedField α]

theorem splitBody_asteroids (L : Libm α) (g : Game α) (a : Asteroid α) (s : Size) :
    ∃ f : Asteroid α, (g.splitBody L a s).asteroids = g.asteroids ++ [f] ∧
      f.active = true ∧ f.position = a.position ∧ f.size = s ∧
      f.radius = Asteroid.getRadiusForSize s := by
  refine ⟨_, rfl, rfl, rfl, rfl, rfl⟩

/-- The fragments of a hit: two when the asteroid can split, none otherwise, all active and
of the next size; the first one is at the position of the asteroid, the second one at
the position read through the reference after the first `emplace_back`. -/
theorem onProjectileHit_asteroids (L : Libm α) (g : Game α) (a : Asteroid α) :
    ∃ frags : List (Asteroid α),
      (g.onProjectileHit L a).asteroids = g.asteroids ++ frags ∧
      (∀ f ∈ frags, f.active = true ∧ f.size = a.getNextSize) ∧
      (frags.length = if a.canSplit then 2 else 0) ∧
      (a.canSplit = true → ∃ f1 f2 : Asteroid α, frags = [f1, f2] ∧
        f1.position = a.position ∧
        f2.position = (Game.rereadAsteroid L g.asteroids.length a).position) := by
  unfold Game.onProjectileHit
  by_cases hs : a.canSplit = true
  · simp only [hs, if_true]
    obtain ⟨f1, h1, h1a, h1p, h1s, -⟩ :=
      splitBody_asteroids L { g with score := g.score + a.getPoints } a a.getNextSize
    obtain ⟨f2, h2, h2a, h2p, h2s, -⟩ :=
      splitBody_asteroids L
        (Game.splitBody L { g with score := g.score + a.getPoints } a a.getNextSize)
        (Game.rereadAsteroid L g.asteroids.length a) a.getNextSize
    refine ⟨[f1, f2], ?_, ?_, rfl, fun _ => ⟨f1, f2, rfl, h1p, h2p⟩⟩
    · rw [h2, h1]; simp
    · intro f hf
      simp only [List.mem_cons, List.mem_singleton, List.not_mem_nil, or_false] at hf
      rcases hf with rfl | rfl
      · exact ⟨h1a, h1s⟩
      · exact ⟨h2a, h2s⟩
  · simp only [hs]
    exact ⟨[], by simp, by simp, by simp, by simp⟩

/-- The two fragments appended for an asteroid that can split: the first one is built
from the asteroid, the second one from what the reference shows after the first
`emplace_back`. -/
theorem onProjectileHit_fragments {α : Type} [LinearOrderedField α] (L : Libm α) (g : Game α)
    (a : Asteroid α) (hsplit : a.canSplit = true) :
    (g.onProjectileHit L a).asteroids =
      g.asteroids ++
        [Asteroid.new a.position
            ⟨L.cos (L.atan2 a.velocity.y a.velocity.x + uniformReal (-0.5) 0.5 (g.rng 0)) *
                (a.velocity.length L * 1.2),
              L.sin (L.atan2 a.velocity.y a.velocity.x + uniformReal (-0.5) 0.5 (g.rng 0)) *
                (a.velocity.length L * 1.2)⟩ a.getNextSize,
          Asteroid.new (Game.rereadAsteroid L g.asteroids.length a).position
            ⟨L.cos (L.atan2 (Game.rereadAsteroid L g.asteroids.length a).velocity.y
                  (Game.rereadAsteroid L g.asteroids.length a).velocity.x +
                uniformReal (-0.5) 0.5 (g.rng 1)) *
                ((Game.rereadAsteroid L g.asteroids.length a).velocity.length L * 1.2),
              L.sin (L.atan2 (Game.rereadAsteroid L g.asteroids.length a).velocity.y
                  (Game.rereadAsteroid L g.asteroids.length a).velocity.x +
                uniformReal (-0.5) 0.5 (g.rng 1)) *
                ((Game.rereadAsteroid L g.asteroids.length a).velocity.length L * 1.2)⟩
            a.getNextSize] := by
  unfold Game.onProjectileHit
  simp only [hsplit, if_true]
  simp [Game.splitBody, Game.spawnAsteroid]

/-- What the reference shows in the second iteration: the asteroid when the vector had
room, the released storage when it was full. -/
theorem rereadAsteroid_cases {α : Type} [LinearOrderedField α] (L : Libm α) (n : Nat)
    (a : Asteroid α) :
    (L.full n = false → Game.rereadAsteroid L n a = a) ∧
    (L.full n = true →
      (Game.rereadAsteroid L n a).position = (L.freed n (a.position, a.velocity)).1 ∧
      (Game.rereadAsteroid L n a).velocity = (L.freed n (a.position, a.velocity)).2) := by
  constructor
  · intro h
    simp [Game.rereadAsteroid, h]
  · intro h
    simp [Game.rereadAsteroid, h]

theorem onProjectileHit_score (L : Libm α) (g : Game α) (a : Asteroid α) :
    (g.onProjectileHit L a).score = g.score + a.getPoints := by
  unfold Game.onProjectileHit
  by_cases hs : a.canSplit = true
  · simp only [hs, if_true]; rfl
  · simp only [hs]; rfl

theorem projectileStep_of_firstHit (L : Libm α) (g : Game α) (p : Projectile α)
    (pre post : List (Asteroid α)) (a : Asteroid α)
    (hp : p.active = true) (hg : g.asteroids = pre ++ a :: post)
    (hfirst : FirstHit L p.toEntity pre a) :
    Game.projectileStep L p g =
      (p.setActive false,
        Game.onProjectileHit L { g with asteroids := pre ++ a.setActive false :: post }
          (a.setActive false)) := by
  unfold Game.projectileStep
  rw [hg, hitScan_of_firstHit L p.toEntity pre post a hfirst]
  simp [hp]

/-- One iteration of the projectile loop: the number of inactive asteroids grows by
one exactly when the projectile is deactivated. -/
theorem projectileStep_count (L : Libm α) (p : Projectile α) (g : Game α) :
    (Game.projectileStep L p g).2.asteroids.countP (fun b => !b.active) +
        [(Game.projectileStep L p g).1].countP (fun q => q.active) =
      g.asteroids.countP (fun b => !b.active) + [p].countP (fun q => q.active) ∧
    (Game.projectileTarget L p g).toList.length +
        [(Game.projectileStep L p g).1].countP (fun q => q.active) =
      [p].countP (fun q => q.active) := by
  by_cases hp : p.active = true
  · cases hs : hitScan L p.toEntity g.asteroids with
    | none => simp [Game.projectileStep, Game.projectileTarget, hp, hs]
    | some r =>
      obtain ⟨a, asts⟩ := r
      obtain ⟨pre, post, e1, hf, e2⟩ := hitScan_some L _ _ a asts hs
      have hstep := projectileStep_of_firstHit L g p pre post a hp e1 hf
      obtain ⟨frags, h1, h2, -⟩ :=
        onProjectileHit_asteroids L { g with asteroids := pre ++ a.setActive false :: post }
          (a.setActive false)
      have hfr : frags.countP (fun b => !b.active) = 0 := by
        rw [List.countP_eq_zero]
        intro f hf
        simp [(h2 f hf).1]
      constructor
      · rw [hstep]
        show (Game.onProjectileHit L _ (a.setActive false)).asteroids.countP _ + _ = _
        rw [h1]
        show ((pre ++ a.setActive false :: post) ++ frags).countP _ + _ = _
        rw [List.countP_append, hfr, countP_inactive_deactivate pre post a hf.2.1, e1]
        simp [Projectile.setActive, hp]
      · rw [hstep]
        simp [Game.projectileTarget, hp, hs, Projectile.setActive]
  · simp [Game.projectileStep, Game.projectileTarget, hp]

theorem projectilePass_count (L : Libm α) (ps : List (Projectile α)) (g : Game α) :
    (Game.projectilePass L ps g).1.length = ps.length ∧
    (Game.projectilePass L ps g).2.asteroids.countP (fun b => !b.active) +
        (Game.projectilePass L ps g).1.countP (fun q => q.active) =
      g.asteroids.countP (fun b => !b.active) + ps.countP (fun q => q.active) ∧
    (Game.destroyedByProjectiles L ps g).length +
        (Game.projectilePass L ps g).1.countP (fun q => q.active) =
      ps.countP (fun q => q.active) := by
  induction ps generalizing g with
  | nil => simp [Game.projectilePass, Game.destroyedByProjectiles]
  | cons p rest ih =>
    obtain ⟨ih1, ih2, ih3⟩ := ih (Game.projectileStep L p g).2
    obtain ⟨hs1, hs2⟩ := projectileStep_count L p g
    simp only [Game.projectilePass, Game.destroyedByProjectiles, List.length_cons,
      List.length_append]
    refine ⟨by rw [ih1], ?_, ?_⟩
    · rw [List.countP_cons, List.countP_cons (l := rest)]
      simp only [List.countP_cons, List.countP_nil, zero_add] at hs1
      omega
    · rw [List.countP_cons, List.countP_cons (l := rest)]
      simp only [List.countP_cons, List.countP_nil, zero_add] at hs2
      omega

/-! The projectile loop does not read the member `projectiles` of the game it threads. -/

theorem onProjectileHit_projectiles (L : Libm α) (g : Game α) (a : Asteroid α)
    (X : List (Projectile α)) :
    Game.onProjectileHit L { g with projectiles := X } a =
      { g.onProjectileHit L a with projectiles := X } := by
  unfold Game.onProjectileHit
  by_cases hc : a.canSplit = true
  · simp only [hc, if_true]; rfl
  · simp only [hc]; rfl

theorem projectileStep_projectiles (L : Libm α) (p : Projectile α) (g : Game α)
    (X : List (Projectile α)) :
    Game.projectileStep L p { g with projectiles := X } =
      ((Game.projectileStep L p g).1, { (Game.projectileStep L p g).2 with projectiles := X }) := by
  unfold Game.projectileStep
  by_cases hp : p.active = true
  · simp only [hp, Bool.not_true, Bool.false_eq_true, if_false]
    cases hs : hitScan L p.toEntity g.asteroids with
    | none => rfl
    | some r =>
      simp only []
      exact congrArg (Prod.mk _)
        (onProjectileHit_projectiles L { g with asteroids := r.2 } (r.1.setActive false) X)
  · simp [hp]

theorem projectilePass_projectiles (L : Libm α) (ps : List (Projectile α)) (g : Game α)
    (X : List (Projectile α)) :
    Game.projectilePass L ps { g with projectiles := X } =
      ((Game.projectilePass L ps g).1, { (Game.projectilePass L ps g).2 with projectiles := X }) := by
  induction ps generalizing g with
  | nil => rfl
  | cons p rest ih =>
    simp only [Game.projectilePass, projectileStep_projectiles, ih]

theorem projectilePass_append (L : Libm α) (xs ys : List (Projectile α)) (g : Game α) :
    Game.projectilePass L (xs ++ ys) g =
      ((Game.projectilePass L xs g).1 ++
          (Game.projectilePass L ys (Game.projectilePass L xs g).2).1,
        (Game.projectilePass L ys (Game.projectilePass L xs g).2).2) := by
  induction xs generalizing g with
  | nil => rfl
  | cons p rest ih =>
    rw [List.cons_append]
    simp only [Game.projectilePass]
    rw [ih]
    rfl

theorem projectilePass_inactive (L : Libm α) (p : Projectile α) (ys : List (Projectile α))
    (g : Game α) (hp : p.active = false) :
    Game.projectilePass L (p :: ys) g =
      (p :: (Game.projectilePass L ys g).1, (Game.projectilePass L ys g).2) := by
  simp [Game.projectilePass, Game.projectileStep, hp]

theorem playerPass_projectiles (L : Libm α) (g : Game α) (X : List (Projectile α)) :
    Game.playerPass L { g with projectiles := X } = { g.playerPass L with projectiles := X } := by
  unfold Game.playerPass
  by_cases hp : g.player.active = true
  · simp only [hp, if_true]
    cases hs : hitScan L g.player.toEntity g.asteroids with
    | none => rfl
    | some r => rfl
  · simp [hp]

/-- An inactive projectile in the collection has no effect on what `checkCollisions`
followed by `removeInactiveEntities` leaves. -/
theorem reclaim_inactive_projectile (L : Libm α) (g : Game α)
    (xs ys : List (Projectile α)) (p : Projectile α) (hp : p.active = false) :
    (Game.checkCollisions L { g with projectiles := xs ++ p :: ys }).removeInactiveEntities =
      (Game.checkCollisions L { g with projectiles := xs ++ ys }).removeInactiveEntities := by
  have key : ∀ zs : List (Projectile α),
      Game.checkCollisions L { g with projectiles := zs } =
        { Game.playerPass L (Game.projectilePass L zs g).2 with
          projectiles := (Game.projectilePass L zs g).1 } := by
    intro zs
    unfold Game.checkCollisions Game.projectilePhase
    simp only [projectilePass_projectiles]
    rw [playerPass_projectiles]
  rw [key, key, projectilePass_append, projectilePass_append, projectilePass_inactive L p ys _ hp]
  simp [Game.removeInactiveEntities, List.filter_append, List.filter_cons, hp]

end Split

/-! ## What each phase of a frame leaves unchanged -/

section Frame

variable {α : Type} [LinearOrderedField α]

theorem spawnAsteroidsLoop_spec (L : Libm α) (n : Nat) (g : Game α) :
    ∃ (added : List (Asteroid α)) (rng1 crand1 : Nat → α),
      Game.spawnAsteroidsLoop L n g =
        { g with asteroids := g.asteroids ++ added, rng := rng1, crand := crand1 } ∧
      added.length = n ∧
      ∀ a ∈ added, a.size = Size.LARGE ∧ a.active = true ∧ a.position.y = -20 := by
  induction n generalizing g with
  | zero => exact ⟨[], g.rng, g.crand, by simp [Game.spawnAsteroidsLoop], rfl, by simp⟩
  | succ n ih =>
    obtain ⟨added, rng1, crand1, h1, h2, h3⟩ := ih (g.spawnAsteroidsBody L)
    refine ⟨(g.spawnAsteroidsBody L).asteroids.drop g.asteroids.length ++ added, rng1, crand1,
      ?_, ?_, ?_⟩
    · rw [Game.spawnAsteroidsLoop, h1]
      simp [Game.spawnAsteroidsBody, Game.spawnAsteroid]
    · simp [Game.spawnAsteroidsBody, Game.spawnAsteroid, h2, Nat.add_comm]
    · intro a ha
      rcases List.mem_append.mp ha with ha | ha
      · simp [Game.spawnAsteroidsBody, Game.spawnAsteroid] at ha
        subst ha
        exact ⟨rfl, rfl, rfl⟩
      · exact h3 a ha

theorem spawnAsteroids_spec (L : Libm α) (count : Int) (g : Game α) :
    ∃ (added : List (Asteroid α)) (rng1 crand1 : Nat → α),
      Game.spawnAsteroids L g count =
        { g with asteroids := g.asteroids ++ added, rng := rng1, crand := crand1 } ∧
      added.length = count.toNat ∧
      ∀ a ∈ added, a.size = Size.LARGE ∧ a.active = true ∧ a.position.y = -20 :=
  spawnAsteroidsLoop_spec L count.toNat g

theorem projectileStep_spec (L : Libm α) (p : Projectile α) (g : Game α) :
    ∃ (asts : List (Asteroid α)) (rng1 : Nat → α),
      (Game.projectileStep L p g).2 =
        { g with asteroids := asts, rng := rng1,
                 score := g.score + ((Game.projectileTarget L p g).toList.map
                   fun a => a.getPoints).sum } := by
  unfold Game.projectileStep Game.projectileTarget
  by_cases hp : p.active = true
  · cases hs : hitScan L p.toEntity g.asteroids with
    | none => exact ⟨g.asteroids, g.rng, by simp [hp]⟩
    | some r =>
      obtain ⟨a, asts⟩ := r
      simp only [hp, Bool.not_true, Bool.false_eq_true, if_false, Option.map_some',
        Option.toList_some, List.map_cons, List.map_nil, List.sum_cons, List.sum_nil, add_zero]
      unfold Game.onProjectileHit
      by_cases hc : (a.setActive false).canSplit = true
      · simp only [hc, if_true]
        exact ⟨_, _, rfl⟩
      · simp only [hc]
        exact ⟨_, _, rfl⟩
  · exact ⟨g.asteroids, g.rng, by simp [hp]⟩

theorem projectilePass_spec (L : Libm α) (ps : List (Projectile α)) (g : Game α) :
    ∃ (asts : List (Asteroid α)) (rng1 : Nat → α),
      (Game.projectilePass L ps g).2 =
        { g with asteroids := asts, rng := rng1,
                 score := g.score + ((Game.destroyedByProjectiles L ps g).map
                   fun a => a.getPoints).sum } := by
  induction ps generalizing g with
  | nil => exact ⟨g.asteroids, g.rng, by simp [Game.projectilePass, Game.destroyedByProjectiles]⟩
  | cons p rest ih =>
    obtain ⟨asts, rng1, h⟩ := ih (Game.projectileStep L p g).2
    obtain ⟨asts0, rng0, h0⟩ := projectileStep_spec L p g
    refine ⟨asts, rng1, ?_⟩
    simp only [Game.projectilePass, Game.destroyedByProjectiles, h]
    rw [h0]
    simp [add_assoc]

theorem projectilePhase_spec (L : Libm α) (g : Game α) :
    ∃ (asts : List (Asteroid α)) (rng1 : Nat → α),
      g.projectilePhase L =
        { g with asteroids := asts, rng := rng1,
                 projectiles := (Game.projectilePass L g.projectiles g).1,
                 score := g.score + ((Game.destroyedByProjectiles L g.projectiles g).map
                   fun a => a.getPoints).sum } := by
  obtain ⟨asts, rng1, h⟩ := projectilePass_spec L g.projectiles g
  exact ⟨asts, rng1, by simp [Game.projectilePhase, h]⟩

theorem playerPass_spec (L : Libm α) (g : Game α) :
    ∃ (asts : List (Asteroid α)) (pl : Starship α),
      g.playerPass L = { g with asteroids := asts, player := pl } := by
  unfold Game.playerPass
  by_cases hp : g.player.active = true
  · cases hs : hitScan L g.player.toEntity g.asteroids with
    | none => exact ⟨g.asteroids, g.player, by simp [hp]⟩
    | some r =>
      exact ⟨r.2, if 0 < g.player.takeDamage.health then
          g.player.takeDamage.respawn ⟨g.width / 2, g.height / 2⟩ else g.player.takeDamage,
        by simp [hp]⟩
  · exact ⟨g.asteroids, g.player, by simp [hp]⟩

theorem timedSpawn_spec (L : Libm α) (g : Game α) (dt : α) :
    ∃ (added : List (Asteroid α)) (rng1 crand1 : Nat → α) (timer : α),
      g.timedSpawn L dt =
        { g with asteroids := g.asteroids ++ added, rng := rng1, crand := crand1,
                 spawnTimer := timer } ∧
      ∀ a ∈ added, a.size = Size.LARGE ∧ a.active = true ∧ a.position.y = -20 := by
  unfold Game.timedSpawn
  by_cases h : g.spawnTimer + dt ≥ Game.spawnInterval
  · simp only [h, if_true]
    obtain ⟨added, rng1, crand1, h1, -, h3⟩ :=
      spawnAsteroids_spec L (1 + Int.tdiv g.level 3)
        { g with spawnTimer := 0 }
    exact ⟨added, rng1, crand1, 0, by rw [h1], h3⟩
  · simp only [h, if_false]
    exact ⟨[], g.rng, g.crand, g.spawnTimer + dt, by simp, by simp⟩

theorem levelAdvance_spec (L : Libm α) (g : Game α) :
    ∃ (added : List (Asteroid α)) (rng1 crand1 : Nat → α) (lvl : Int),
      g.levelAdvance L =
        { g with asteroids := g.asteroids ++ added, rng := rng1, crand := crand1,
                 level := lvl } ∧
      ∀ a ∈ added, a.size = Size.LARGE ∧ a.active = true ∧ a.position.y = -20 := by
  unfold Game.levelAdvance
  by_cases h : (g.asteroids.isEmpty && g.player.active) = true
  · simp only [h, if_true]
    obtain ⟨added, rng1, crand1, h1, -, h3⟩ :=
      spawnAsteroids_spec L (6 + (g.level + 1) * 2) { g with level := g.level + 1 }
    exact ⟨added, rng1, crand1, g.level + 1, by rw [h1], h3⟩
  · simp only [h]
    exact ⟨[], g.rng, g.crand, g.level, by simp, by simp⟩

omit [LinearOrderedField α] in
theorem checkGameOver_spec (g : Game α) :
    ∃ b : Bool, g.checkGameOver = { g with gameOver := b } := by
  unfold Game.checkGameOver
  split
  · exact ⟨true, rfl⟩
  · exact ⟨g.gameOver, rfl⟩

theorem update_playing (L : Libm α) (g : Game α) (dt : α) (h : g.gameOver = false) :
    Game.update L g dt =
      (((((g.moveEntities L dt).checkCollisions L).removeInactiveEntities).timedSpawn L
        dt).levelAdvance L).checkGameOver := by
  simp [Game.update, h]

/-- The score and the player after a frame are those that `checkCollisions` leaves. -/
theorem update_score_player (L : Libm α) (g : Game α) (dt : α) (h : g.gameOver = false) :
    (Game.update L g dt).score = ((g.moveEntities L dt).checkCollisions L).score ∧
    (Game.update L g dt).player = ((g.moveEntities L dt).checkCollisions L).player ∧
    (Game.update L g dt).projectiles =
      ((g.moveEntities L dt).checkCollisions L).removeInactiveEntities.projectiles := by
  rw [update_playing L g dt h]
  obtain ⟨b, hb⟩ := checkGameOver_spec
    (((((g.moveEntities L dt).checkCollisions L).removeInactiveEntities).timedSpawn L
        dt).levelAdvance L)
  obtain ⟨a1, r1, c1, l1, h1, -⟩ := levelAdvance_spec L
    ((((g.moveEntities L dt).checkCollisions L).removeInactiveEntities).timedSpawn L dt)
  obtain ⟨a2, r2, c2, t2, h2, -⟩ := timedSpawn_spec L
    (((g.moveEntities L dt).checkCollisions L).removeInactiveEntities) dt
  rw [hb, h1, h2]
  exact ⟨rfl, rfl, rfl⟩

omit [LinearOrderedField α] in
theorem takeDamage_health (s : Starship α) : s.takeDamage.health = s.health - 1 := by
  unfold Starship.takeDamage
  dsimp only
  split_ifs <;> rfl

/-- The ship after `Game::checkCollisions` found it in contact with an asteroid. -/
theorem hitPlayer_health (s : Starship α) (c : Vector2D α) :
    (if 0 < s.takeDamage.health then s.takeDamage.respawn c else s.takeDamage).health =
      s.health - 1 ∧
    (if 0 < s.takeDamage.health then s.takeDamage.respawn c else s.takeDamage).active =
      decide (0 < s.health - 1) := by
  unfold Starship.takeDamage
  dsimp only
  by_cases h : s.health - 1 ≤ 0
  · have h2 : ¬ 0 < s.health - 1 := not_lt.mpr h
    simp [h, h2]
  · have h2 : 0 < s.health - 1 := not_le.mp h
    simp [h, h2, Starship.respawn]

theorem playerPass_cases (L : Libm α) (g : Game α) :
    g.playerPass L = g ∨
    (g.player.active = true ∧ ∃ (a : Asteroid α) (asts : List (Asteroid α)),
      hitScan L g.player.toEntity g.asteroids = some (a, asts) ∧
      g.playerPass L =
        { g with
          player :=
            if 0 < g.player.takeDamage.health then
              g.player.takeDamage.respawn ⟨g.width / 2, g.height / 2⟩
            else g.player.takeDamage
          asteroids := asts }) := by
  unfold Game.playerPass
  by_cases hp : g.player.active = true
  · cases hs : hitScan L g.player.toEntity g.asteroids with
    | none => left; simp [hp]
    | some r =>
      right
      exact ⟨hp, r.1, r.2, rfl, by simp [hp]⟩
  · left; simp [hp]

theorem checkCollisions_player (L : Libm α) (g : Game α) :
    ((g.checkCollisions L).player.health = g.player.health ∧
      (g.checkCollisions L).player.active = g.player.active) ∨
    (g.player.active = true ∧ (g.checkCollisions L).player.health = g.player.health - 1 ∧
      (g.checkCollisions L).player.active = decide (0 < g.player.health - 1)) := by
  obtain ⟨asts, rng1, h1⟩ := projectilePhase_spec L g
  have hpl : (g.projectilePhase L).player = g.player := by rw [h1]
  unfold Game.checkCollisions
  rcases playerPass_cases L (g.projectilePhase L) with h | ⟨hact, a, asts2, -, h⟩
  · left
    rw [h, hpl]
    exact ⟨rfl, rfl⟩
  · right
    rw [hpl] at hact
    refine ⟨hact, ?_, ?_⟩
    · rw [h]
      show (if 0 < (g.projectilePhase L).player.takeDamage.health then _ else _ :
        Starship α).health = _
      rw [(hitPlayer_health _ _).1, hpl]
    · rw [h]
      show (if 0 < (g.projectilePhase L).player.takeDamage.health then _ else _ :
        Starship α).active = _
      rw [(hitPlayer_health _ _).2, hpl]

theorem moveEntities_player_active (L : Libm α) (g : Game α) (dt : α) :
    (g.moveEntities L dt).player.active = g.player.active := by
  unfold Game.moveEntities
  by_cases h : g.player.active = true
  · simp [h, Starship.applyBoundaries, Starship.applyDrag, Starship.update, Entity.update]
  · simp [h]

theorem moveEntities_player_health (L : Libm α) (g : Game α) (dt : α) :
    (g.moveEntities L dt).player.health = g.player.health := by
  unfold Game.moveEntities
  by_cases h : g.player.active = true
  · simp [h, Starship.applyBoundaries, Starship.applyDrag, Starship.update, Entity.update]
  · simp [h]

/-- The health and the active flag of the ship across one frame while Playing: either
both are kept, or the ship was active and was hit once. -/
theorem update_player_cases (L : Libm α) (g : Game α) (dt : α) (h : g.gameOver = false) :
    ((Game.update L g dt).player.health = g.player.health ∧
      (Game.update L g dt).player.active = g.player.active) ∨
    (g.player.active = true ∧ (Game.update L g dt).player.health = g.player.health - 1 ∧
      (Game.update L g dt).player.active = decide (0 < g.player.health - 1)) := by
  rw [(update_score_player L g dt h).2.1]
  have := checkCollisions_player L (g.moveEntities L dt)
  rwa [moveEntities_player_active, moveEntities_player_health] at this

/-- The game-over flag after one frame while Playing. -/
theorem update_gameOver (L : Libm α) (g : Game α) (dt : α) (h : g.gameOver = false) :
    (Game.update L g dt).gameOver =
      (!(Game.update L g dt).player.active &&
        decide ((Game.update L g dt).player.health ≤ 0)) := by
  rw [update_playing L g dt h]
  obtain ⟨a1, r1, c1, l1, h1, -⟩ := levelAdvance_spec L
    ((((g.moveEntities L dt).checkCollisions L).removeInactiveEntities).timedSpawn L dt)
  obtain ⟨a2, r2, c2, t2, h2, -⟩ := timedSpawn_spec L
    (((g.moveEntities L dt).checkCollisions L).removeInactiveEntities) dt
  obtain ⟨a3, p3, h3⟩ := playerPass_spec L ((g.moveEntities L dt).projectilePhase L)
  obtain ⟨a4, r4, h4⟩ := projectilePhase_spec L (g.moveEntities L dt)
  have hgo : (((((g.moveEntities L dt).checkCollisions L).removeInactiveEntities).timedSpawn L
      dt).levelAdvance L).gameOver = false := by
    rw [h1, h2, Game.checkCollisions, h3, h4]
    exact h
  generalize (((((g.moveEntities L dt).checkCollisions L).removeInactiveEntities).timedSpawn L
      dt).levelAdvance L) = g5 at hgo
  unfold Game.checkGameOver
  by_cases hc : (!g5.player.active && decide (g5.player.health ≤ 0)) = true
  · rw [if_pos hc]
    exact hc.symm
  · rw [if_neg hc, hgo]
    exact (eq_false_of_ne_true hc).symm

/-- What `handleInput` keeps while Playing: the ship's health and active flag, the
game-over flag, the score and the level. -/
theorem handleInput_playing (L : Libm α) (g : Game α) (c : Char) (dt : α)
    (h : g.gameOver = false) :
    (Game.handleInput L g c dt).player.health = g.player.health ∧
    (Game.handleInput L g c dt).player.active = g.player.active ∧
    (Game.handleInput L g c dt).gameOver = false ∧
    (Game.handleInput L g c dt).score = g.score ∧
    (Game.handleInput L g c dt).level = g.level := by
  unfold Game.handleInput
  simp only [h, Bool.false_eq_true, if_false]
  split_ifs <;>
    simp [h, Starship.moveLeft, Starship.moveRight, Starship.thrust, Game.shootProjectile] <;>
    split_ifs <;> simp [h]

end Frame

/-! ## Evaluation of `evalLibm` -/

theorem evalLibm_sqrt_natCast (n : ℕ) : evalLibm.sqrt (n : ℚ) = (isqrt n : ℚ) := by
  have h1 : isqrt 1 = 1 := by decide
  simp [evalLibm, h1]

theorem evalLibm_sqrt_ofNat (n : ℕ) [n.AtLeastTwo] :
    evalLibm.sqrt (OfNat.ofNat n : ℚ) = (isqrt n : ℚ) := by
  simpa using evalLibm_sqrt_natCast n

theorem evalLibm_sqrt_zero : evalLibm.sqrt 0 = 0 := by
  have h1 : isqrt 1 = 1 := by decide
  have h0 : isqrt 0 = 0 := by decide
  simp [evalLibm, h1, h0]

theorem evalLibm_sqrt_72900 : evalLibm.sqrt 72900 = 270 := by
  have h : isqrt 72900 = 270 := by decide
  rw [evalLibm_sqrt_ofNat, h]; norm_num

theorem evalLibm_sqrt_25 : evalLibm.sqrt 25 = 5 := by
  have h : isqrt 25 = 5 := by decide
  rw [evalLibm_sqrt_ofNat, h]; norm_num

/-! ## The life of the ship -/

section Life

variable {α : Type} [LinearOrderedField α]

theorem new_fields (L : Libm α) (w h : α) (rng crand : Nat → α) :
    (Game.new L w h rng crand).player = Starship.new ⟨w / 2, h / 2⟩ ∧
    (Game.new L w h rng crand).gameOver = false ∧
    (Game.new L w h rng crand).score = 0 ∧
    (Game.new L w h rng crand).level = 1 ∧
    (Game.new L w h rng crand).projectiles = [] ∧
    (Game.new L w h rng crand).width = w ∧
    (Game.new L w h rng crand).height = h ∧
    (Game.new L w h rng crand).shootCooldown = 0 ∧
    (Game.new L w h rng crand).spawnTimer = 0 := by
  obtain ⟨added, rng1, crand1, h1, -, -⟩ := spawnAsteroids_spec L 8
    ({ player := Starship.new ⟨w / 2, h / 2⟩, asteroids := [], projectiles := [],
       score := 0, level := 1, width := w, height := h, rng := rng, crand := crand,
       shootCooldown := 0, spawnTimer := 0, gameOver := false } : Game α)
  unfold Game.new
  rw [h1]
  exact ⟨rfl, rfl, rfl, rfl, rfl, rfl, rfl, rfl, rfl⟩

theorem spawnAsteroidsLoop_shape (L : Libm α) (n : Nat) (g : Game α) :
    (Game.spawnAsteroidsLoop L n g).asteroids.map
        (fun a => (a.size, a.radius, a.active, a.rotationSpeed)) =
      g.asteroids.map (fun a => (a.size, a.radius, a.active, a.rotationSpeed)) ++
        List.replicate n (Size.LARGE, (20 : α), true, (45 : α)) := by
  induction n generalizing g with
  | zero => simp [Game.spawnAsteroidsLoop]
  | succ n ih =>
    rw [Game.spawnAsteroidsLoop, ih]
    simp [Game.spawnAsteroidsBody, Game.spawnAsteroid, Asteroid.new, Entity.new,
      Asteroid.getRadiusForSize, List.replicate_succ]

theorem new_asteroids (L : Libm α) (w h : α) (rng crand : Nat → α) :
    (Game.new L w h rng crand).asteroids.length = 8 ∧
    (∀ a ∈ (Game.new L w h rng crand).asteroids, a.size = Size.LARGE ∧ a.active = true) ∧
    (Game.new L w h rng crand).asteroids.map
        (fun a => (a.size, a.radius, a.active, a.rotationSpeed)) =
      List.replicate 8 (Size.LARGE, (20 : α), true, (45 : α)) := by
  obtain ⟨added, rng1, crand1, h1, h2, h3⟩ := spawnAsteroids_spec L 8
    ({ player := Starship.new ⟨w / 2, h / 2⟩, asteroids := [], projectiles := [],
       score := 0, level := 1, width := w, height := h, rng := rng, crand := crand,
       shootCooldown := 0, spawnTimer := 0, gameOver := false } : Game α)
  refine ⟨?_, ?_, ?_⟩
  · unfold Game.new
    rw [h1]
    simpa using h2
  · unfold Game.new
    rw [h1]
    intro a ha
    simp only [List.nil_append] at ha
    exact ⟨(h3 a ha).1, (h3 a ha).2.1⟩
  · unfold Game.new Game.spawnAsteroids
    rw [spawnAsteroidsLoop_shape]
    simp

theorem new_alive (L : Libm α) (w h : α) (rng crand : Nat → α) :
    (Game.new L w h rng crand).Alive := by
  left
  obtain ⟨h1, h2, -⟩ := new_fields L w h rng crand
  rw [h1]
  exact ⟨h2, rfl, show (0 : Int) < 3 by decide⟩

/-- One call that does not run `reset`, from a state in which `Alive` holds. -/
theorem step_alive (L : Libm α) (g : Game α) (i : Input α) (hinv : g.Alive)
    (hi : g.resetsOn i = false) :
    (g.step L i).Alive ∧
    (g.step L i).player.health ≤ g.player.health ∧
    (g.player.health = 0 → (g.step L i).player.health = 0) ∧
    ((g.gameOver = false ∧ (g.step L i).gameOver = true) ↔
      (0 < g.player.health ∧ (g.step L i).player.health = 0)) ∧
    (g.gameOver = false → (g.step L i).gameOver = true → ∃ dt, i = Input.update dt) := by
  rcases hinv with ⟨hgo, hact, hpos⟩ | ⟨hgo, hact, hzero⟩
  · cases i with
    | update dt =>
      simp only [Game.step]
      have hg := update_gameOver L g dt hgo
      rcases update_player_cases L g dt hgo with ⟨h1, h2⟩ | ⟨-, h1, h2⟩
      · rw [h2, hact, h1] at hg
        have hg2 : (Game.update L g dt).gameOver = false := by simpa using hg
        refine ⟨Or.inl ⟨hg2, by rw [h2, hact], by rw [h1]; exact hpos⟩, by rw [h1], ?_, ?_, ?_⟩
        · intro h0; omega
        · constructor
          · rintro ⟨-, h3⟩; rw [hg2] at h3; cases h3
          · rintro ⟨-, h3⟩; omega
        · intro _ h3; rw [hg2] at h3; cases h3
      · by_cases hone : 0 < g.player.health - 1
        · have h2t : (Game.update L g dt).player.active = true := by rw [h2]; simpa using hone
          rw [h2t] at hg
          have hg2 : (Game.update L g dt).gameOver = false := by simpa using hg
          refine ⟨Or.inl ⟨hg2, h2t, by rw [h1]; exact hone⟩, by rw [h1]; omega, ?_, ?_, ?_⟩
          · intro h0; omega
          · constructor
            · rintro ⟨-, h3⟩; rw [hg2] at h3; cases h3
            · rintro ⟨-, h3⟩; omega
          · intro _ h3; rw [hg2] at h3; cases h3
        · have h2f : (Game.update L g dt).player.active = false := by rw [h2]; simpa using hone
          have h1z : (Game.update L g dt).player.health = 0 := by omega
          rw [h2f, h1z] at hg
          have hg2 : (Game.update L g dt).gameOver = true := by simpa using hg
          refine ⟨Or.inr ⟨hg2, h2f, h1z⟩, by omega, ?_, ?_, ?_⟩
          · intro h0; omega
          · exact ⟨fun _ => ⟨hpos, h1z⟩, fun _ => ⟨hgo, hg2⟩⟩
          · intro _ _; exact ⟨dt, rfl⟩
    | handleInput c dt =>
      simp only [Game.step]
      obtain ⟨h1, h2, h3, -, -⟩ := handleInput_playing L g c dt hgo
      refine ⟨Or.inl ⟨h3, by rw [h2, hact], by rw [h1]; exact hpos⟩, by rw [h1], ?_, ?_, ?_⟩
      · intro h0; omega
      · constructor
        · rintro ⟨-, h4⟩; rw [h3] at h4; cases h4
        · rintro ⟨-, h4⟩; omega
      · intro _ h4; rw [h3] at h4; cases h4
    | reset => simp [Game.resetsOn] at hi
  · have hsame : g.step L i = g := by
      cases i with
      | update dt => simp [Game.step, Game.update, hgo]
      | handleInput c dt =>
        simp only [Game.resetsOn, hgo, Bool.true_and, Bool.or_eq_false_iff, beq_eq_false_iff_ne,
          ne_eq] at hi
        simp [Game.step, Game.handleInput, hgo, hi.1, hi.2]
      | reset => simp [Game.resetsOn] at hi
    rw [hsame]
    refine ⟨Or.inr ⟨hgo, hact, hzero⟩, le_refl _, fun h => h, ?_, ?_⟩
    · constructor
      · rintro ⟨h1, -⟩; rw [hgo] at h1; cases h1
      · rintro ⟨h1, -⟩; omega
    · intro h1; rw [hgo] at h1; cases h1

theorem reachableNoReset_alive (L : Libm α) (g0 g : Game α) (h0 : g0.Alive)
    (hr : ReachableNoReset L g0 g) : g.Alive := by
  induction hr with
  | start => exact h0
  | call g1 i _ hi ih => exact (step_alive L g1 i ih hi).1

/-! ## Firing and the life of a projectile -/

/-- The fire key while Playing with the cooldown expired and an active ship. -/
theorem handleInput_fire (L : Libm α) (g : Game α) (dt : α) (h : g.gameOver = false)
    (hc : g.shootCooldown ≤ 0) (ha : g.player.active = true) :
    Game.handleInput L g ' ' dt =
      { g with
        projectiles := g.projectiles ++ [Projectile.new g.player.position ⟨0, -300⟩]
        shootCooldown := Game.shootDelay } := by
  have e1 : ¬ (' ' = 'a' ∨ ' ' = 'A') := by decide
  have e2 : ¬ (' ' = 'd' ∨ ' ' = 'D') := by decide
  have e3 : ¬ (' ' = 'w' ∨ ' ' = 'W') := by decide
  simp only [Game.handleInput, h, Bool.false_eq_true, if_false, e1, e2, e3, if_true, hc,
    Game.shootProjectile, ha, Bool.not_true, Game.shootDelay]

theorem update_sum_of_points (L : Libm α) (g : Game α) (dt : α) (h : g.gameOver = false) :
    (Game.update L g dt).score =
      g.score + ((Game.destroyedByProjectiles L (g.moveEntities L dt).projectiles
        (g.moveEntities L dt)).map fun a => a.getPoints).sum := by
  rw [(update_score_player L g dt h).1, Game.checkCollisions]
  obtain ⟨asts, pl, h1⟩ := playerPass_spec L ((g.moveEntities L dt).projectilePhase L)
  obtain ⟨asts2, rng2, h2⟩ := projectilePhase_spec L (g.moveEntities L dt)
  rw [h1, h2]
  rfl

theorem checkCollisions_projectiles_length (L : Libm α) (g : Game α) :
    (g.checkCollisions L).projectiles.length = g.projectiles.length := by
  obtain ⟨asts, pl, h1⟩ := playerPass_spec L (g.projectilePhase L)
  obtain ⟨asts2, rng2, h2⟩ := projectilePhase_spec L g
  rw [Game.checkCollisions, h1, h2]
  exact (projectilePass_count L g.projectiles g).1

theorem update_projectiles_length (L : Libm α) (g : Game α) (dt : α) (h : g.gameOver = false) :
    (Game.update L g dt).projectiles.length ≤ g.projectiles.length ∧
    ∀ q ∈ (Game.update L g dt).projectiles, q.active = true := by
  rw [(update_score_player L g dt h).2.2]
  constructor
  · calc ((g.moveEntities L dt).checkCollisions L).removeInactiveEntities.projectiles.length
        ≤ ((g.moveEntities L dt).checkCollisions L).projectiles.length := List.length_filter_le _ _
      _ = (g.moveEntities L dt).projectiles.length := checkCollisions_projectiles_length L _
      _ = g.projectiles.length := by simp [Game.moveEntities]
  · intro q hq
    simp only [Game.removeInactiveEntities, List.mem_filter] at hq
    exact hq.2

theorem projectile_update_lifetime (p : Projectile α) (dt : α) :
    (p.update dt).lifetime = p.lifetime + dt ∧ (p.update dt).maxLifetime = p.maxLifetime ∧
    (p.update dt).position = p.position.add (p.velocity.smul dt) := by
  unfold Projectile.update
  dsimp only
  split_ifs <;> exact ⟨rfl, rfl, rfl⟩

/-- A projectile past its lifetime or above the top margin after its update is
inactive when `checkCollisions` runs. -/
theorem updateProjectile_inactive (p : Projectile α) (dt : α)
    (hexp : (p.update dt).lifetime > p.maxLifetime ∨ (p.update dt).position.y < -10) :
    (Game.updateProjectile p dt).active = false := by
  unfold Game.updateProjectile
  dsimp only
  by_cases hy : (p.update dt).position.y < -10
  · rw [if_pos hy]; rfl
  · rw [if_neg hy]
    rcases hexp with hl | hy2
    · rw [(projectile_update_lifetime p dt).1] at hl
      unfold Projectile.update
      dsimp only
      rw [if_pos hl]
    · exact absurd hy2 hy

/-- While Playing, a projectile that is inactive after the movement phase can be
dropped from the collection without changing the outcome of the frame. -/
theorem update_drop_inactive (L : Libm α) (g : Game α) (dt : α)
    (xs ys : List (Projectile α)) (p : Projectile α)
    (hplay : g.gameOver = false) (hp : g.projectiles = xs ++ p :: ys)
    (hin : (Game.updateProjectile p dt).active = false) :
    Game.update L g dt = Game.update L { g with projectiles := xs ++ ys } dt := by
  rw [update_playing L g dt hplay, update_playing L { g with projectiles := xs ++ ys } dt hplay]
  have e1 : g.moveEntities L dt =
      { Game.moveEntities L { g with projectiles := xs ++ ys } dt with
        projectiles := xs.map (fun q => Game.updateProjectile q dt) ++
          Game.updateProjectile p dt :: ys.map (fun q => Game.updateProjectile q dt) } := by
    simp [Game.moveEntities, hp]
  have e2 : Game.moveEntities L { g with projectiles := xs ++ ys } dt =
      { Game.moveEntities L { g with projectiles := xs ++ ys } dt with
        projectiles := xs.map (fun q => Game.updateProjectile q dt) ++
          ys.map (fun q => Game.updateProjectile q dt) } := by
    simp [Game.moveEntities]
  have key := reclaim_inactive_projectile L
    (Game.moveEntities L { g with projectiles := xs ++ ys } dt)
    (xs.map (fun q => Game.updateProjectile q dt))
    (ys.map (fun q => Game.updateProjectile q dt)) (Game.updateProjectile p dt) hin
  rw [← e1, ← e2] at key
  rw [key]

theorem update_no_projectiles (L : Libm α) (g : Game α) (dt : α) (h : g.gameOver = false)
    (hp : g.projectiles = []) :
    (Game.update L g dt).projectiles = [] ∧ (Game.update L g dt).score = g.score := by
  constructor
  · have := (update_projectiles_length L g dt h).1
    rw [hp] at this
    exact List.length_eq_zero.mp (Nat.le_zero.mp this)
  · rw [update_sum_of_points L g dt h]
    have : (g.moveEntities L dt).projectiles = [] := by simp [Game.moveEntities, hp]
    rw [this]
    simp [Game.destroyedByProjectiles]

end Life

section Claims

variable {α : Type} [LinearOrderedField α]

/-- What a hit does: when an active projectile, in its turn of the projectile loop of
`checkCollisions`, hits the asteroid `a` (the first active asteroid in collection order
that it overlaps), the projectile and `a` are deactivated, the other asteroids are left
as they were, and the fragments appended at the end of the asteroid collection are all
active: exactly two Medium ones when `a` is Large, exactly two Small ones when `a` is
Medium, none when `a` is Small.  The first fragment is at the position of `a`.  The second
one is at the position read through the reference after the first `emplace_back`: that of
`a` when the vector had room, and what the released storage holds when it was full. -/
theorem projectile_hit_fragments (L : Libm α) (g : Game α) (p : Projectile α)
    (pre post : List (Asteroid α)) (a : Asteroid α)
    (hp : p.active = true) (hg : g.asteroids = pre ++ a :: post)
    (hfirst : FirstHit L p.toEntity pre a) :
    ∃ frags : List (Asteroid α),
      (Game.projectileStep L p g).1 = p.setActive false ∧
      (p.setActive false).active = false ∧
      (Game.projectileStep L p g).2.asteroids = pre ++ a.setActive false :: post ++ frags ∧
      (a.setActive false).active = false ∧
      (∀ f ∈ frags, f.active = true) ∧
      (a.size = Size.LARGE → frags.length = 2 ∧ ∀ f ∈ frags, f.size = Size.MEDIUM) ∧
      (a.size = Size.MEDIUM → frags.length = 2 ∧ ∀ f ∈ frags, f.size = Size.SMALL) ∧
      (a.size = Size.SMALL → frags = []) ∧
      (a.canSplit = true → ∃ f1 f2 : Asteroid α, frags = [f1, f2] ∧
        f1.position = a.position ∧
        (L.full g.asteroids.length = false → f2.position = a.position) ∧
        (L.full g.asteroids.length = true →
          f2.position = (L.freed g.asteroids.length (a.position, a.velocity)).1)) := by
  rw [projectileStep_of_firstHit L g p pre post a hp hg hfirst]
  obtain ⟨frags, h1, h2, h3, h4⟩ :=
    onProjectileHit_asteroids L { g with asteroids := pre ++ a.setActive false :: post }
      (a.setActive false)
  have hlen : (pre ++ a.setActive false :: post).length = g.asteroids.length := by
    rw [hg]; simp
  refine ⟨frags, rfl, rfl, ?_, rfl, ?_, ?_, ?_, ?_, ?_⟩
  · rw [h1]
  · intro f hf
    exact (h2 f hf).1
  · intro hs
    have hc : (a.setActive false).canSplit = true := by
      simp [Asteroid.canSplit, Asteroid.setActive, hs]
    refine ⟨by simpa [hc] using h3, fun f hf => ?_⟩
    rw [(h2 f hf).2]
    simp [Asteroid.getNextSize, Asteroid.setActive, hs]
  · intro hs
    have hc : (a.setActive false).canSplit = true := by
      simp [Asteroid.canSplit, Asteroid.setActive, hs]
    refine ⟨by simpa [hc] using h3, fun f hf => ?_⟩
    rw [(h2 f hf).2]
    simp [Asteroid.getNextSize, Asteroid.setActive, hs]
  · intro hs
    have hc : (a.setActive false).canSplit = false := by
      simp [Asteroid.canSplit, Asteroid.setActive, hs]
    have : frags.length = 0 := by simpa [hc] using h3
    exact List.length_eq_zero.mp this
  · intro hs
    obtain ⟨f1, f2, e, p1, p2⟩ := h4 hs
    refine ⟨f1, f2, e, p1, ?_, ?_⟩
    · intro hfull
      rw [p2]
      show (Game.rereadAsteroid L (pre ++ a.setActive false :: post).length
        (a.setActive false)).position = a.position
      rw [hlen, Game.rereadAsteroid, hfull]
      rfl
    · intro hfull
      rw [p2]
      show (Game.rereadAsteroid L (pre ++ a.setActive false :: post).length
        (a.setActive false)).position = _
      rw [hlen, Game.rereadAsteroid, hfull]
      rfl

theorem shot_hits_rock : FirstHit evalLibm shot.toEntity [rock.setActive false] rock := by
  refine ⟨?_, rfl, ?_⟩
  · intro b hb
    left
    rw [List.mem_singleton.mp hb]
    rfl
  · norm_num [shot, rock, Projectile.new, Asteroid.new, Entity.new, Entity.collidesWith,
      Vector2D.distance, Vector2D.length, Vector2D.sub, Asteroid.getRadiusForSize,
      evalLibm_sqrt_zero]

/-- On `threeTargets` the hit on the Large asteroid leaves it inactive and appends two
active Medium fragments. -/
theorem projectile_hit_fragments_example :
    shot.active = true ∧ threeTargets.asteroids = [rock.setActive false] ++ rock :: [pebble] ∧
    FirstHit evalLibm shot.toEntity [rock.setActive false] rock ∧
    ((Game.projectileStep evalLibm shot threeTargets).2.asteroids.map fun a => (a.size, a.active))
      = [(Size.LARGE, false), (Size.LARGE, false), (Size.MEDIUM, true), (Size.MEDIUM, true),
          (Size.MEDIUM, true)] := by
  refine ⟨rfl, rfl, shot_hits_rock, ?_⟩
  obtain ⟨frags, -, -, h3, -, h5, h6, -, -⟩ :=
    projectile_hit_fragments evalLibm threeTargets shot [rock.setActive false] [pebble] rock
      rfl rfl shot_hits_rock
  obtain ⟨hlen, hsz⟩ := h6 rfl
  rw [h3]
  match frags, hlen, h5, hsz with
  | [f1, f2], _, h5, hsz =>
    have a1 := h5 f1 (by simp)
    have a2 := h5 f2 (by simp)
    have s1 := hsz f1 (by simp)
    have s2 := hsz f2 (by simp)
    simp [a1, a2, s1, s2, rock, pebble, Asteroid.new, Asteroid.setActive, Entity.new]

/-- C2: while Playing, the score after `update(dt)` is the score before plus the sum
of the point values (Large 20, Medium 50, Small 100) of the asteroids destroyed by
projectiles in that frame; the movement phase with its culling below `height + 50` and
the player pass of `checkCollisions` leave the score as it is. -/
theorem update_score (L : Libm α) (g : Game α) (dt : α) (h : g.gameOver = false) :
    (Game.update L g dt).score =
      g.score + ((Game.destroyedByProjectiles L (g.moveEntities L dt).projectiles
        (g.moveEntities L dt)).map fun a => a.getPoints).sum ∧
    (∀ a : Asteroid α, (a.size = Size.LARGE → a.getPoints = 20) ∧
      (a.size = Size.MEDIUM → a.getPoints = 50) ∧ (a.size = Size.SMALL → a.getPoints = 100)) ∧
    (g.moveEntities L dt).score = g.score ∧
    ∀ g1 : Game α, (g1.playerPass L).score = g1.score := by
  refine ⟨update_sum_of_points L g dt h, ?_, rfl, ?_⟩
  · intro a
    refine ⟨?_, ?_, ?_⟩ <;> intro hs <;> simp [Asteroid.getPoints, hs]
  · intro g1
    obtain ⟨asts, pl, h1⟩ := playerPass_spec L g1
    rw [h1]

set_option maxHeartbeats 1000000 in
theorem update_score_witness :
    shotAtCentre.gameOver = false ∧ (Game.update evalLibm shotAtCentre (1 / 60)).score = 20 :=
  ⟨rfl, by
    rw [(update_score evalLibm shotAtCentre (1 / 60) rfl).1]
    norm_num [shotAtCentre, overlapAtCentre, Game.moveEntities, Game.destroyedByProjectiles,
      Game.projectileTarget, Game.projectileStep, hitScan, Game.updateAsteroid,
      Game.updateProjectile, Projectile.update, Projectile.new, Projectile.setActive,
      Starship.update, Starship.applyDrag, Starship.applyBoundaries, Asteroid.update,
      Entity.update, Entity.collidesWith, Vector2D.distance, Vector2D.length, Vector2D.sub,
      Vector2D.add, Vector2D.smul, Starship.new, Asteroid.new, Entity.new,
      Asteroid.getRadiusForSize, Asteroid.setActive, Asteroid.getPoints, evalLibm_sqrt_25]⟩

/-- C3, as stated, fails: on an 800 x 600 field with the ship at the centre (400, 300),
where the constructor and `respawn` put it, and one Large asteroid at rest at the same
point, the circles overlap when `update` is called, but `update(1/60)` first moves the ship
to its track at y = 570, so no contact is found: the health stays 3 and the asteroid stays
in the collection. -/
theorem overlap_at_call_is_not_a_hit :
    overlapAtCentre.gameOver = false ∧ overlapAtCentre.player.active = true ∧
    overlapAtCentre.projectiles = [] ∧
    overlapAtCentre.asteroids = [Asteroid.new ⟨400, 300⟩ ⟨0, 0⟩ Size.LARGE] ∧
    overlapAtCentre.player.toEntity.collidesWith evalLibm
      (Asteroid.new ⟨400, 300⟩ ⟨0, 0⟩ Size.LARGE : Asteroid ℚ).toEntity = true ∧
    (Game.update evalLibm overlapAtCentre (1 / 60)).player.health = 3 ∧
    (Game.update evalLibm overlapAtCentre (1 / 60)).asteroids =
      [Asteroid.new ⟨400, 300⟩ ⟨0, 0⟩ Size.LARGE] := by
  refine ⟨rfl, rfl, rfl, rfl, ?_, ?_, ?_⟩
  · norm_num [overlapAtCentre, Entity.collidesWith, Vector2D.distance, Vector2D.length,
      Vector2D.sub, Starship.new, Asteroid.new, Entity.new, Asteroid.getRadiusForSize,
      evalLibm_sqrt_zero]
  · norm_num [Game.update, overlapAtCentre, Game.moveEntities, Game.checkCollisions,
      Game.projectilePhase, Game.projectilePass, Game.playerPass, hitScan,
      Game.removeInactiveEntities, Game.timedSpawn, Game.levelAdvance, Game.checkGameOver,
      Game.updateAsteroid, Starship.update, Starship.applyDrag, Starship.applyBoundaries,
      Asteroid.update, Entity.update, Entity.collidesWith, Vector2D.distance, Vector2D.length,
      Vector2D.sub, Vector2D.add, Vector2D.smul, Starship.new, Asteroid.new, Entity.new,
      Asteroid.getRadiusForSize, Asteroid.setActive, Game.spawnInterval, evalLibm_sqrt_72900]
  · norm_num [Game.update, overlapAtCentre, Game.moveEntities, Game.checkCollisions,
      Game.projectilePhase, Game.projectilePass, Game.playerPass, hitScan,
      Game.removeInactiveEntities, Game.timedSpawn, Game.levelAdvance, Game.checkGameOver,
      Game.updateAsteroid, Starship.update, Starship.applyDrag, Starship.applyBoundaries,
      Asteroid.update, Entity.update, Entity.collidesWith, Vector2D.distance, Vector2D.length,
      Vector2D.sub, Vector2D.add, Vector2D.smul, Starship.new, Asteroid.new, Entity.new,
      Asteroid.getRadiusForSize, Asteroid.setActive, Game.spawnInterval, evalLibm_sqrt_72900]

/-- C3, amended: while Playing with an active player, no projectiles and exactly one
asteroid, of size Large, that is active after the movement phase of the frame (it has not
passed below `height + 50`) and whose circle then overlaps the circle of the ship as that
phase has moved it (update, drag, applyBoundaries), a single `update(dt)` decreases the
health by exactly 1, leaves the asteroid collection empty at the reclamation of the frame, so
that every asteroid held after the update is a Large one freshly spawned at y = -20, and, if
the health is still positive, leaves the player at the field centre. -/
theorem update_player_hit (L : Libm α) (g : Game α) (dt : α) (a : Asteroid α)
    (hplay : g.gameOver = false) (hact : g.player.active = true)
    (hproj : g.projectiles = []) (hast : g.asteroids = [a]) (_hsize : a.size = Size.LARGE)
    (ha : (Game.updateAsteroid g.height a dt).active = true)
    (hov : (g.moveEntities L dt).player.toEntity.collidesWith L
      (Game.updateAsteroid g.height a dt).toEntity = true) :
    (Game.update L g dt).player.health = g.player.health - 1 ∧
    ((g.moveEntities L dt).checkCollisions L).removeInactiveEntities.asteroids = [] ∧
    (∀ b ∈ (Game.update L g dt).asteroids,
      b.size = Size.LARGE ∧ b.active = true ∧ b.position.y = -20) ∧
    (0 < (Game.update L g dt).player.health →
      (Game.update L g dt).player.position = ⟨g.width / 2, g.height / 2⟩) := by
  have hm_ast : (g.moveEntities L dt).asteroids = [Game.updateAsteroid g.height a dt] := by
    simp [Game.moveEntities, hast]
  have hm_proj : (g.moveEntities L dt).projectiles = [] := by
    simp [Game.moveEntities, hproj]
  have hm_act : (g.moveEntities L dt).player.active = true := by
    rw [moveEntities_player_active, hact]
  have hpp : (g.moveEntities L dt).projectilePhase L = g.moveEntities L dt := by
    unfold Game.projectilePhase
    rw [hm_proj]
    simp only [Game.projectilePass]
    rw [← hm_proj]
  have hscan := hitScan_of_firstHit L (g.moveEntities L dt).player.toEntity [] []
    (Game.updateAsteroid g.height a dt) ⟨by simp, ha, hov⟩
  have hcc : (g.moveEntities L dt).checkCollisions L =
      { g.moveEntities L dt with
        player :=
          if 0 < (g.moveEntities L dt).player.takeDamage.health then
            (g.moveEntities L dt).player.takeDamage.respawn ⟨g.width / 2, g.height / 2⟩
          else (g.moveEntities L dt).player.takeDamage
        asteroids := [(Game.updateAsteroid g.height a dt).setActive false] } := by
    rw [Game.checkCollisions, hpp, Game.playerPass]
    simp only [hm_act, if_true, hm_ast]
    rw [show ([] : List (Asteroid α)) ++ [Game.updateAsteroid g.height a dt] =
      [Game.updateAsteroid g.height a dt] from rfl] at hscan
    rw [hscan]
    rfl
  have hhealth : (g.moveEntities L dt).player.takeDamage.health = g.player.health - 1 := by
    rw [takeDamage_health, moveEntities_player_health]
  have hpl := (update_score_player L g dt hplay).2.1
  have hrem : ((g.moveEntities L dt).checkCollisions L).removeInactiveEntities.asteroids = [] := by
    rw [hcc]
    simp [Game.removeInactiveEntities, Asteroid.setActive]
  refine ⟨?_, hrem, ?_, ?_⟩
  · rw [hpl, hcc]
    show (if 0 < (g.moveEntities L dt).player.takeDamage.health then _ else _ : Starship α).health = _
    split
    · simpa [Starship.respawn] using hhealth
    · exact hhealth
  · intro b hb
    rw [update_playing L g dt hplay] at hb
    obtain ⟨b0, hb0⟩ := checkGameOver_spec
      (((((g.moveEntities L dt).checkCollisions L).removeInactiveEntities).timedSpawn L
        dt).levelAdvance L)
    obtain ⟨a1, r1, c1, l1, h1, hp1⟩ := levelAdvance_spec L
      ((((g.moveEntities L dt).checkCollisions L).removeInactiveEntities).timedSpawn L dt)
    obtain ⟨a2, r2, c2, t2, h2, hp2⟩ := timedSpawn_spec L
      (((g.moveEntities L dt).checkCollisions L).removeInactiveEntities) dt
    rw [hb0, h1, h2] at hb
    simp only [hrem, List.nil_append, List.mem_append] at hb
    rcases hb with hb | hb
    · exact hp2 b hb
    · exact hp1 b hb
  · intro hpos
    rw [hpl, hcc] at hpos ⊢
    have hpos1 : 0 < (g.moveEntities L dt).player.takeDamage.health := by
      by_contra hneg
      simp only [hneg, if_false] at hpos
    simp only [hpos1, if_true]
    rfl

theorem update_player_hit_witness :
    overlapOnTrack.gameOver = false ∧ overlapOnTrack.player.active = true ∧
    overlapOnTrack.projectiles = [] ∧
    overlapOnTrack.asteroids = [Asteroid.new ⟨400, 570⟩ ⟨0, 0⟩ Size.LARGE] ∧
    (Game.update evalLibm overlapOnTrack (1 / 60)).player.health = 2 ∧
    (Game.update evalLibm overlapOnTrack (1 / 60)).player.position = ⟨400, 300⟩ := by
  have hov : (overlapOnTrack.moveEntities evalLibm (1 / 60)).player.toEntity.collidesWith evalLibm
      (Game.updateAsteroid overlapOnTrack.height
        (Asteroid.new ⟨400, 570⟩ ⟨0, 0⟩ Size.LARGE) (1 / 60)).toEntity = true := by
    norm_num [overlapOnTrack, overlapAtCentre, Game.moveEntities, Game.updateAsteroid,
      Starship.update, Starship.applyDrag, Starship.applyBoundaries, Asteroid.update,
      Entity.update, Entity.collidesWith, Vector2D.distance, Vector2D.length, Vector2D.sub,
      Vector2D.add, Vector2D.smul, Starship.new, Asteroid.new, Entity.new,
      Asteroid.getRadiusForSize, Asteroid.setActive, evalLibm_sqrt_zero]
  have hact : (Game.updateAsteroid overlapOnTrack.height
      (Asteroid.new ⟨400, 570⟩ ⟨0, 0⟩ Size.LARGE : Asteroid ℚ) (1 / 60)).active = true := by
    norm_num [overlapOnTrack, overlapAtCentre, Game.updateAsteroid, Asteroid.update,
      Entity.update, Vector2D.add, Vector2D.smul, Asteroid.new, Entity.new,
      Asteroid.setActive]
  have h := update_player_hit evalLibm overlapOnTrack (1 / 60)
    (Asteroid.new ⟨400, 570⟩ ⟨0, 0⟩ Size.LARGE) rfl rfl rfl rfl rfl hact hov
  have hh : (Game.update evalLibm overlapOnTrack (1 / 60)).player.health = 2 := by
    rw [h.1]; rfl
  refine ⟨rfl, rfl, rfl, rfl, hh, ?_⟩
  rw [h.2.2.2 (by rw [hh]; decide)]
  norm_num [overlapOnTrack, overlapAtCentre]

/-- C4: once `gameOver` is true, `update(dt)` and `handleInput(c, dt)` for every `c`
other than `r` and `R` return the game unchanged in every field, so the game stays over;
`handleInput` with `r` or `R` runs `reset`, whose result is the state the constructor
builds for the same field size from the current generators, a Playing session with score 0,
level 1 and no projectiles. -/
theorem gameOver_terminal (L : Libm α) (g : Game α) (dt : α) (c : Char)
    (h : g.gameOver = true) :
    Game.update L g dt = g ∧
    (c ≠ 'r' → c ≠ 'R' → Game.handleInput L g c dt = g) ∧
    (c = 'r' ∨ c = 'R' →
      Game.handleInput L g c dt = Game.new L g.width g.height g.rng g.crand ∧
      (Game.handleInput L g c dt).gameOver = false ∧
      (Game.handleInput L g c dt).score = 0 ∧
      (Game.handleInput L g c dt).level = 1 ∧
      (Game.handleInput L g c dt).projectiles = [] ∧
      (Game.handleInput L g c dt).player = Starship.new ⟨g.width / 2, g.height / 2⟩) := by
  refine ⟨by simp [Game.update, h], ?_, ?_⟩
  · intro h1 h2
    simp [Game.handleInput, h, h1, h2]
  · intro hc
    have hr : Game.handleInput L g c dt = Game.reset L g := by
      simp [Game.handleInput, h, hc]
    rw [hr]
    obtain ⟨added, rng1, crand1, h1, -, -⟩ := spawnAsteroids_spec L 8
      { g with
        player := Starship.new ⟨g.width / 2, g.height / 2⟩
        asteroids := []
        projectiles := []
        score := 0
        level := 1
        shootCooldown := 0
        spawnTimer := 0
        gameOver := false }
    refine ⟨rfl, ?_, ?_, ?_, ?_, ?_⟩ <;> (unfold Game.reset; rw [h1])

theorem gameOver_terminal_witness :
    gameOverState.gameOver = true ∧
    Game.update evalLibm gameOverState (1 / 60) = gameOverState ∧
    Game.handleInput evalLibm gameOverState 'a' (1 / 60) = gameOverState ∧
    (Game.handleInput evalLibm gameOverState 'r' (1 / 60)).gameOver = false :=
  ⟨rfl, (gameOver_terminal evalLibm gameOverState (1 / 60) 'a' rfl).1,
    (gameOver_terminal evalLibm gameOverState (1 / 60) 'a' rfl).2.1 (by decide) (by decide),
    ((gameOver_terminal evalLibm gameOverState (1 / 60) 'r' rfl).2.2 (Or.inl rfl)).2.1⟩

/-- C5: in a run from a fresh session in which no call runs `reset` (neither a direct
call nor the reset key while the game is over), at every state `g` of the run and for every
next call `i` of that kind: the health at `g` is at least 0, the call does not increase it
and leaves it at least 0; once the health is 0 it stays 0, so it reaches 0 at most once; and
`gameOver` turns from false to true in exactly the call in which the health goes from positive
to 0, and that call is an `update`. -/
theorem health_monotone (L : Libm α) (w h : α) (rng crand : Nat → α) (g : Game α)
    (i : Input α) (hr : ReachableNoReset L (Game.new L w h rng crand) g)
    (hi : g.resetsOn i = false) :
    0 ≤ g.player.health ∧
    (g.step L i).player.health ≤ g.player.health ∧
    0 ≤ (g.step L i).player.health ∧
    (g.player.health = 0 → (g.step L i).player.health = 0) ∧
    ((g.gameOver = false ∧ (g.step L i).gameOver = true) ↔
      (0 < g.player.health ∧ (g.step L i).player.health = 0)) ∧
    (g.gameOver = false → (g.step L i).gameOver = true → ∃ dt, i = Input.update dt) := by
  have hinv := reachableNoReset_alive L _ g (new_alive L w h rng crand) hr
  obtain ⟨h1, h2, h3, h4, h5⟩ := step_alive L g i hinv hi
  have nonneg : ∀ g1 : Game α, g1.Alive → 0 ≤ g1.player.health := by
    intro g1 hg1
    rcases hg1 with ⟨-, -, hp⟩ | ⟨-, -, hz⟩
    · exact le_of_lt hp
    · rw [hz]
  exact ⟨nonneg g hinv, h2, nonneg _ h1, h3, h4, h5⟩

theorem health_monotone_witness :
    ReachableNoReset evalLibm freshSession
      ((freshSession.step evalLibm (Input.handleInput ' ' (1 / 60))).step evalLibm
        (Input.update (1 / 60))) ∧
    (((freshSession.step evalLibm (Input.handleInput ' ' (1 / 60))).step evalLibm
        (Input.update (1 / 60))).step evalLibm (Input.update (1 / 60))).player.health ≤
      ((freshSession.step evalLibm (Input.handleInput ' ' (1 / 60))).step evalLibm
        (Input.update (1 / 60))).player.health :=
  have hr : ReachableNoReset evalLibm freshSession
      ((freshSession.step evalLibm (Input.handleInput ' ' (1 / 60))).step evalLibm
        (Input.update (1 / 60))) :=
    ReachableNoReset.call _ _
      (ReachableNoReset.call _ _ ReachableNoReset.start
        (show freshSession.resetsOn (Input.handleInput ' ' (1 / 60)) = false by
          simp [Game.resetsOn]))
      rfl
  ⟨hr, (health_monotone evalLibm 800 600 (fun _ => 1 / 2) (fun _ => 1 / 2) _
    (Input.update (1 / 60)) hr rfl).2.1⟩

/-- C6: while Playing, one `update(dt)` lowers the health by at most 1 and never raises
it; the player pass of that frame keeps the length of the asteroid collection and
deactivates at most one asteroid, however many overlap the ship; and when the ship is
active at that point and `a` is the first active asteroid in collection order that it
overlaps, `a` is the asteroid deactivated, the health drops by 1, and the reclamation that
follows removes `a` and keeps the other active asteroids. -/
theorem update_one_hit (L : Libm α) (g : Game α) (dt : α) (h : g.gameOver = false) :
    g.player.health - 1 ≤ (Game.update L g dt).player.health ∧
    (Game.update L g dt).player.health ≤ g.player.health ∧
    (((g.moveEntities L dt).projectilePhase L).playerPass L).asteroids.length =
      ((g.moveEntities L dt).projectilePhase L).asteroids.length ∧
    (((g.moveEntities L dt).projectilePhase L).playerPass L).asteroids.countP
        (fun b => !b.active) ≤
      ((g.moveEntities L dt).projectilePhase L).asteroids.countP (fun b => !b.active) + 1 ∧
    ∀ (pre post : List (Asteroid α)) (a : Asteroid α),
      ((g.moveEntities L dt).projectilePhase L).player.active = true →
      ((g.moveEntities L dt).projectilePhase L).asteroids = pre ++ a :: post →
      FirstHit L ((g.moveEntities L dt).projectilePhase L).player.toEntity pre a →
      (((g.moveEntities L dt).projectilePhase L).playerPass L).asteroids =
        pre ++ a.setActive false :: post ∧
      (Game.update L g dt).player.health = g.player.health - 1 ∧
      ((g.moveEntities L dt).checkCollisions L).removeInactiveEntities.asteroids =
        (pre ++ post).filter fun b => b.active := by
  have hcases := update_player_cases L g dt h
  refine ⟨?_, ?_, ?_, ?_, ?_⟩
  · rcases hcases with ⟨h1, -⟩ | ⟨-, h1, -⟩ <;> omega
  · rcases hcases with ⟨h1, -⟩ | ⟨-, h1, -⟩ <;> omega
  · rcases playerPass_cases L ((g.moveEntities L dt).projectilePhase L) with
      h1 | ⟨-, a, asts, hs, h1⟩
    · rw [h1]
    · obtain ⟨pre, post, e1, -, e2⟩ := hitScan_some L _ _ a asts hs
      rw [h1]
      show asts.length = _
      rw [e1, e2]
      simp
  · rcases playerPass_cases L ((g.moveEntities L dt).projectilePhase L) with
      h1 | ⟨-, a, asts, hs, h1⟩
    · rw [h1]; omega
    · obtain ⟨pre, post, e1, hf, e2⟩ := hitScan_some L _ _ a asts hs
      rw [h1]
      show asts.countP _ ≤ _
      rw [e1, e2, countP_inactive_deactivate pre post a hf.2.1]
  · intro pre post a hact hasts hfirst
    have hs := hitScan_of_firstHit L _ pre post a hfirst
    rw [← hasts] at hs
    have hpp : ((g.moveEntities L dt).projectilePhase L).playerPass L =
        { (g.moveEntities L dt).projectilePhase L with
          player :=
            if 0 < ((g.moveEntities L dt).projectilePhase L).player.takeDamage.health then
              ((g.moveEntities L dt).projectilePhase L).player.takeDamage.respawn
                ⟨((g.moveEntities L dt).projectilePhase L).width / 2,
                  ((g.moveEntities L dt).projectilePhase L).height / 2⟩
            else ((g.moveEntities L dt).projectilePhase L).player.takeDamage
          asteroids := pre ++ a.setActive false :: post } := by
      rw [Game.playerPass]
      simp only [hact, if_true, hs]
    obtain ⟨asts4, rng4, h4⟩ := projectilePhase_spec L (g.moveEntities L dt)
    have hpl : ((g.moveEntities L dt).projectilePhase L).player = (g.moveEntities L dt).player := by
      rw [h4]
    refine ⟨by rw [hpp], ?_, ?_⟩
    · rw [(update_score_player L g dt h).2.1, Game.checkCollisions, hpp]
      show (if 0 < ((g.moveEntities L dt).projectilePhase L).player.takeDamage.health then _
        else _ : Starship α).health = _
      rw [(hitPlayer_health _ _).1, hpl, moveEntities_player_health]
    · rw [Game.checkCollisions, hpp]
      simp [Game.removeInactiveEntities, List.filter_append, List.filter_cons,
        Asteroid.setActive]

set_option maxHeartbeats 1000000 in
theorem update_one_hit_witness :
    twoOnShip.gameOver = false ∧
    (Game.update evalLibm twoOnShip (1 / 60)).player.health = 2 ∧
    ((twoOnShip.moveEntities evalLibm (1 / 60)).checkCollisions evalLibm).removeInactiveEntities.asteroids
      = [Asteroid.new ⟨400, 570⟩ ⟨0, 0⟩ Size.LARGE] := by
  have hm : (twoOnShip.moveEntities evalLibm (1 / 60)).projectilePhase evalLibm =
      { twoOnShip with spawnTimer := 0 } := by
    norm_num [twoOnShip, overlapOnTrack, overlapAtCentre, Game.projectilePhase,
      Game.projectilePass, Game.moveEntities, Game.updateAsteroid, Starship.update,
      Starship.applyDrag, Starship.applyBoundaries, Asteroid.update, Entity.update,
      Vector2D.add, Vector2D.smul, Starship.new, Asteroid.new, Entity.new,
      Asteroid.getRadiusForSize, Asteroid.setActive]
  have hfirst : FirstHit evalLibm
      ((twoOnShip.moveEntities evalLibm (1 / 60)).projectilePhase evalLibm).player.toEntity []
      (Asteroid.new ⟨400, 570⟩ ⟨0, 0⟩ Size.LARGE) := by
    rw [hm]
    refine ⟨by simp, rfl, ?_⟩
    norm_num [twoOnShip, overlapOnTrack, overlapAtCentre, Entity.collidesWith,
      Vector2D.distance, Vector2D.length, Vector2D.sub, Starship.new, Asteroid.new,
      Entity.new, Asteroid.getRadiusForSize, evalLibm_sqrt_zero]
  have h := (update_one_hit evalLibm twoOnShip (1 / 60) rfl).2.2.2.2 []
    [Asteroid.new ⟨400, 570⟩ ⟨0, 0⟩ Size.LARGE] (Asteroid.new ⟨400, 570⟩ ⟨0, 0⟩ Size.LARGE)
    (by rw [hm]; rfl) (by rw [hm]; rfl) hfirst
  refine ⟨rfl, by rw [h.2.1]; rfl, ?_⟩
  rw [h.2.2]
  simp [Asteroid.new, Entity.new]

/-- C7: in the projectile loop of `checkCollisions`, run on any projectiles `ps` from any
game `g`, the number of asteroids that become inactive equals the number of projectiles that
become inactive (both equal the number of asteroids destroyed), so it is at most the number
of projectiles active at the start; and an active projectile whose first overlapped active
asteroid is `a` deactivates `a` alone: the inactive count grows by exactly one and the
asteroids already in the collection are otherwise as before, whatever else it overlaps. -/
theorem projectile_one_kill_each (L : Libm α) (ps : List (Projectile α)) (g : Game α) :
    (Game.projectilePass L ps g).2.asteroids.countP (fun b => !b.active) +
        (Game.projectilePass L ps g).1.countP (fun q => q.active) =
      g.asteroids.countP (fun b => !b.active) + ps.countP (fun q => q.active) ∧
    (Game.destroyedByProjectiles L ps g).length +
        (Game.projectilePass L ps g).1.countP (fun q => q.active) =
      ps.countP (fun q => q.active) ∧
    (Game.projectilePass L ps g).2.asteroids.countP (fun b => !b.active) ≤
      g.asteroids.countP (fun b => !b.active) + ps.countP (fun q => q.active) ∧
    ∀ (p : Projectile α) (pre post : List (Asteroid α)) (a : Asteroid α),
      p.active = true → g.asteroids = pre ++ a :: post → FirstHit L p.toEntity pre a →
      (Game.projectileStep L p g).2.asteroids.countP (fun b => !b.active) =
        g.asteroids.countP (fun b => !b.active) + 1 ∧
      (Game.projectileStep L p g).2.asteroids.take g.asteroids.length =
        pre ++ a.setActive false :: post ∧
      Game.projectileTarget L p g = some a := by
  obtain ⟨-, h2, h3⟩ := projectilePass_count L ps g
  refine ⟨h2, h3, by omega, ?_⟩
  intro p pre post a hp hg hfirst
  obtain ⟨hc, -⟩ := projectileStep_count L p g
  have hstep := projectileStep_of_firstHit L g p pre post a hp hg hfirst
  obtain ⟨frags, h1, -, -⟩ :=
    onProjectileHit_asteroids L { g with asteroids := pre ++ a.setActive false :: post }
      (a.setActive false)
  refine ⟨?_, ?_, ?_⟩
  · rw [hstep] at hc
    simp only [List.countP_cons, List.countP_nil, zero_add, Projectile.setActive, hp] at hc
    rw [hstep]
    simpa using hc
  · rw [hstep]
    show (Game.onProjectileHit L _ (a.setActive false)).asteroids.take _ = _
    rw [h1, hg]
    show ((pre ++ a.setActive false :: post) ++ frags).take _ = _
    rw [List.take_append_of_le_length (by simp)]
    exact List.take_of_length_le (by simp)
  · unfold Game.projectileTarget
    rw [hg, hitScan_of_firstHit L p.toEntity pre post a hfirst]
    simp [hp]

theorem projectile_one_kill_each_witness :
    shot.active = true ∧ threeTargets.asteroids = [rock.setActive false] ++ rock :: [pebble] ∧
    FirstHit evalLibm shot.toEntity [rock.setActive false] rock ∧
    (Game.projectileStep evalLibm shot threeTargets).2.asteroids.take 3 =
      [rock.setActive false, rock.setActive false, pebble] :=
  ⟨rfl, rfl, shot_hits_rock,
    ((projectile_one_kill_each evalLibm [shot] threeTargets).2.2.2 shot [rock.setActive false]
      [pebble] rock rfl rfl shot_hits_rock).2.1⟩

/-- C8: from every game state, `reset()` gives score 0, level 1, exactly 8 asteroids, all
Large and active, no projectiles, the ship of the constructor (active, health 3, at
`(width/2, height/2)`, zero velocity and rotation), `shootCooldown` 0, `spawnTimer` 0,
`gameOver` false, and the same width and height; this is the state that the constructor
`Game(width, height)` builds from the same generators, and for any other generators the
constructor's state differs at most in the generators and in the positions and velocities
of the asteroids. -/
theorem reset_fresh (L : Libm α) (g : Game α) (rng crand : Nat → α) :
    (g.reset L).score = 0 ∧ (g.reset L).level = 1 ∧
    (g.reset L).asteroids.length = 8 ∧
    (∀ a ∈ (g.reset L).asteroids, a.size = Size.LARGE ∧ a.active = true) ∧
    (g.reset L).projectiles = [] ∧
    (g.reset L).player = Starship.new ⟨g.width / 2, g.height / 2⟩ ∧
    ((g.reset L).player.active = true ∧ (g.reset L).player.health = 3 ∧
      (g.reset L).player.position = ⟨g.width / 2, g.height / 2⟩ ∧
      (g.reset L).player.velocity = ⟨0, 0⟩ ∧ (g.reset L).player.rotation = 0) ∧
    (g.reset L).shootCooldown = 0 ∧ (g.reset L).spawnTimer = 0 ∧
    (g.reset L).gameOver = false ∧
    (g.reset L).width = g.width ∧ (g.reset L).height = g.height ∧
    g.reset L = Game.new L g.width g.height g.rng g.crand ∧
    (Game.new L g.width g.height rng crand).player = (g.reset L).player ∧
    (Game.new L g.width g.height rng crand).projectiles = (g.reset L).projectiles ∧
    (Game.new L g.width g.height rng crand).score = (g.reset L).score ∧
    (Game.new L g.width g.height rng crand).level = (g.reset L).level ∧
    (Game.new L g.width g.height rng crand).width = (g.reset L).width ∧
    (Game.new L g.width g.height rng crand).height = (g.reset L).height ∧
    (Game.new L g.width g.height rng crand).shootCooldown = (g.reset L).shootCooldown ∧
    (Game.new L g.width g.height rng crand).spawnTimer = (g.reset L).spawnTimer ∧
    (Game.new L g.width g.height rng crand).gameOver = (g.reset L).gameOver ∧
    (Game.new L g.width g.height rng crand).asteroids.map
        (fun a => (a.size, a.radius, a.active, a.rotationSpeed)) =
      (g.reset L).asteroids.map (fun a => (a.size, a.radius, a.active, a.rotationSpeed)) := by
  have hrn : g.reset L = Game.new L g.width g.height g.rng g.crand := rfl
  obtain ⟨p1, g1, s1, l1, pr1, w1, ht1, c1, t1⟩ := new_fields L g.width g.height g.rng g.crand
  obtain ⟨p2, g2, s2, l2, pr2, w2, ht2, c2, t2⟩ := new_fields L g.width g.height rng crand
  obtain ⟨hlen1, hall1, hmap1⟩ := new_asteroids L g.width g.height g.rng g.crand
  obtain ⟨hlen2, hall2, hmap2⟩ := new_asteroids L g.width g.height rng crand
  rw [hrn]
  refine ⟨s1, l1, hlen1, hall1, pr1, p1, ?_, c1, t1, g1, w1, ht1, rfl, ?_, ?_, ?_, ?_, ?_, ?_,
    ?_, ?_, ?_, ?_⟩
  · rw [p1]; exact ⟨rfl, rfl, rfl, rfl, rfl⟩
  · rw [p1, p2]
  · rw [pr1, pr2]
  · rw [s1, s2]
  · rw [l1, l2]
  · rw [w1, w2]
  · rw [ht1, ht2]
  · rw [c1, c2]
  · rw [t1, t2]
  · rw [g1, g2]
  · rw [hmap1, hmap2]

/-- C9, as stated, fails: in a Playing state with the cooldown expired whose ship is
inactive, the fire key appends no projectile (the guard in `shootProjectile` returns) and
still sets the cooldown to `shootDelay`, the float 0.3f. -/
theorem fire_with_inactive_ship :
    dormant.gameOver = false ∧ dormant.shootCooldown ≤ 0 ∧
    (Game.handleInput evalLibm dormant ' ' (1 / 60)).projectiles = dormant.projectiles ∧
    (Game.handleInput evalLibm dormant ' ' (1 / 60)).projectiles.length = 0 ∧
    (Game.handleInput evalLibm dormant ' ' (1 / 60)).shootCooldown = Game.shootDelay := by
  have e1 : ¬ (' ' = 'a' ∨ ' ' = 'A') := by decide
  have e2 : ¬ (' ' = 'd' ∨ ' ' = 'D') := by decide
  have e3 : ¬ (' ' = 'w' ∨ ' ' = 'W') := by decide
  have hd : dormant.shootCooldown ≤ 0 := by simp [dormant, overlapAtCentre]
  refine ⟨rfl, hd, ?_, ?_, ?_⟩ <;>
    simp only [Game.handleInput, e1, e2, e3, hd, if_true, if_false] <;>
    simp [dormant, overlapAtCentre, Game.shootProjectile, Game.shootDelay]

/-- C9, amended: in every Playing state with `shootCooldown <= 0` and an active ship,
`handleInput(' ', dt)` appends exactly one projectile, active, at the ship's position and
with velocity (0, -300), sets `shootCooldown` to `shootDelay`, the float 0.3f, and leaves
every other member of the game unchanged. -/
theorem fire_spawns_projectile (L : Libm α) (g : Game α) (dt : α) (h : g.gameOver = false)
    (hc : g.shootCooldown ≤ 0) (ha : g.player.active = true) :
    Game.handleInput L g ' ' dt =
      { g with
        projectiles := g.projectiles ++ [Projectile.new g.player.position ⟨0, -300⟩]
        shootCooldown := Game.shootDelay } ∧
    (Projectile.new g.player.position ⟨0, -300⟩ : Projectile α).active = true ∧
    (Projectile.new g.player.position ⟨0, -300⟩ : Projectile α).position = g.player.position ∧
    (Projectile.new g.player.position ⟨0, -300⟩ : Projectile α).velocity = ⟨0, -300⟩ ∧
    (Game.handleInput L g ' ' dt).projectiles.length = g.projectiles.length + 1 ∧
    (Game.handleInput L g ' ' dt).shootCooldown = Game.shootDelay ∧
    (Game.handleInput L g ' ' dt).player = g.player ∧
    (Game.handleInput L g ' ' dt).asteroids = g.asteroids ∧
    (Game.handleInput L g ' ' dt).score = g.score ∧
    (Game.handleInput L g ' ' dt).level = g.level ∧
    (Game.handleInput L g ' ' dt).spawnTimer = g.spawnTimer ∧
    (Game.handleInput L g ' ' dt).gameOver = g.gameOver := by
  have hf := handleInput_fire L g dt h hc ha
  refine ⟨hf, rfl, rfl, rfl, ?_, ?_, ?_, ?_, ?_, ?_, ?_, ?_⟩ <;> rw [hf]
  simp

theorem fire_spawns_projectile_witness :
    freshSession.gameOver = false ∧ freshSession.shootCooldown ≤ 0 ∧
    freshSession.player.active = true ∧
    (Game.handleInput evalLibm freshSession ' ' (1 / 60)).projectiles =
      [Projectile.new ⟨400, 300⟩ ⟨0, -300⟩] := by
  obtain ⟨hp, hg, -, -, hpr, -, -, hc, -⟩ :=
    new_fields evalLibm 800 600 (fun _ => 1 / 2) (fun _ => 1 / 2)
  have h1 : freshSession.gameOver = false := hg
  have h2 : freshSession.shootCooldown ≤ 0 := le_of_eq hc
  have h3 : freshSession.player.active = true := by
    show (Game.new evalLibm 800 600 _ _).player.active = true
    rw [hp]; rfl
  refine ⟨h1, h2, h3, ?_⟩
  rw [(fire_spawns_projectile evalLibm freshSession (1 / 60) h1 h2 h3).1]
  show freshSession.projectiles ++ [Projectile.new freshSession.player.position _] = _
  have h4 : freshSession.projectiles = [] := hpr
  have h5 : freshSession.player.position = ⟨400, 300⟩ := by
    show (Game.new evalLibm 800 600 _ _).player.position = _
    rw [hp]
    norm_num [Starship.new, Entity.new]
  rw [h4, h5]
  rfl

/-- C10: while Playing, a projectile of the collection (built by the constructor, so
with `maxLifetime` 2) whose lifetime after its update exceeds 2.0, or whose y after moving
is below -10, is inactive when `checkCollisions` runs; the frame then ends in exactly the
state it would end in had the projectile not been in the collection, so it destroys no
asteroid and is not among the projectiles held after `update(dt)`, all of which are active;
in particular, firing once on a fresh session and then calling `update(2.1)` leaves no
projectile and score 0. -/
theorem expired_projectile_reclaimed (L : Libm α) (g : Game α) (dt : α)
    (xs ys : List (Projectile α)) (p : Projectile α)
    (w h dt0 : α) (rng crand : Nat → α)
    (hplay : g.gameOver = false) (hp : g.projectiles = xs ++ p :: ys)
    (hmax : p.maxLifetime = 2)
    (hexp : (p.update dt).lifetime > 2 ∨ (p.update dt).position.y < -10) :
    (Game.updateProjectile p dt).active = false ∧
    Game.update L g dt = Game.update L { g with projectiles := xs ++ ys } dt ∧
    (Game.update L g dt).projectiles.length ≤ xs.length + ys.length ∧
    (∀ q ∈ (Game.update L g dt).projectiles, q.active = true) ∧
    (Game.update L (Game.handleInput L (Game.new L w h rng crand) ' ' dt0) 2.1).projectiles
      = [] ∧
    (Game.update L (Game.handleInput L (Game.new L w h rng crand) ' ' dt0) 2.1).score = 0 := by
  have hin : (Game.updateProjectile p dt).active = false :=
    updateProjectile_inactive p dt (by rw [hmax]; exact hexp)
  have heq := update_drop_inactive L g dt xs ys p hplay hp hin
  have hfresh :
      (Game.update L (Game.handleInput L (Game.new L w h rng crand) ' ' dt0)
        2.1).projectiles = [] ∧
      (Game.update L (Game.handleInput L (Game.new L w h rng crand) ' ' dt0) 2.1).score = 0 := by
    obtain ⟨hpl, hgo, hsc, -, hpr, -, -, hcd, -⟩ := new_fields L w h rng crand
    have hact : (Game.new L w h rng crand).player.active = true := by rw [hpl]; rfl
    rw [handleInput_fire L _ dt0 hgo (le_of_eq hcd) hact, hpr]
    have hstale : (Game.updateProjectile
        (Projectile.new (Game.new L w h rng crand).player.position ⟨0, -300⟩ : Projectile α)
        2.1).active = false := by
      apply updateProjectile_inactive
      left
      rw [(projectile_update_lifetime _ _).1]
      show (0 : α) + 2.1 > 2
      norm_num
    rw [update_drop_inactive L
      { Game.new L w h rng crand with
        projectiles :=
          [] ++ [Projectile.new (Game.new L w h rng crand).player.position ⟨0, -300⟩]
        shootCooldown := Game.shootDelay } 2.1 [] []
      (Projectile.new (Game.new L w h rng crand).player.position ⟨0, -300⟩) hgo rfl hstale]
    have := update_no_projectiles L
      { Game.new L w h rng crand with projectiles := [] ++ [], shootCooldown := Game.shootDelay } 2.1
      hgo rfl
    exact ⟨this.1, this.2.trans hsc⟩
  refine ⟨hin, heq, ?_, (update_projectiles_length L g dt hplay).2, hfresh.1, hfresh.2⟩
  rw [heq]
  have := (update_projectiles_length L { g with projectiles := xs ++ ys } dt hplay).1
  simpa using this

set_option maxHeartbeats 1000000 in
theorem expired_projectile_reclaimed_witness :
    staleAtRock.gameOver = false ∧ staleAtRock.projectiles = [] ++ staleShot :: [] ∧
    staleShot.maxLifetime = 2 ∧ (staleShot.update (1 / 60)).lifetime > 2 ∧
    staleShot.toEntity.collidesWith evalLibm rock.toEntity = true ∧
    (Game.update evalLibm staleAtRock (1 / 60)).projectiles = [] ∧
    (Game.update evalLibm staleAtRock (1 / 60)).score = 0 := by
  have hl : (staleShot.update (1 / 60)).lifetime > 2 := by
    rw [(projectile_update_lifetime _ _).1]
    norm_num [staleShot, shot]
  have h := expired_projectile_reclaimed evalLibm staleAtRock (1 / 60) [] [] staleShot
    800 600 (1 / 60) (fun _ => 1 / 2) (fun _ => 1 / 2) rfl rfl rfl (Or.inl hl)
  have h0 := update_no_projectiles evalLibm { staleAtRock with projectiles := [] } (1 / 60)
    rfl rfl
  refine ⟨rfl, rfl, rfl, hl, ?_, ?_, ?_⟩
  · norm_num [staleShot, shot, rock, Projectile.new, Asteroid.new, Entity.new,
      Entity.collidesWith, Vector2D.distance, Vector2D.length, Vector2D.sub,
      Asteroid.getRadiusForSize, evalLibm_sqrt_zero]
  · rw [h.2.1]; exact h0.1
  · rw [h.2.1]; exact h0.2

end Claims

/-! ## Entities: collision, update, boundaries, wrapping -/

section EntityClaims

variable {α : Type} [LinearOrderedField α]

/-- C15: for every pair of entities `a` and `b`, whatever their positions and radii (and
whatever square root function is linked), `a.collidesWith(b)` equals `b.collidesWith(a)`. -/
theorem collidesWith_comm (L : Libm α) (a b : Entity α) :
    a.collidesWith L b = b.collidesWith L a := by
  unfold Entity.collidesWith Vector2D.distance Vector2D.length Vector2D.sub
  have h1 : (b.position.x - a.position.x) * (b.position.x - a.position.x) +
      (b.position.y - a.position.y) * (b.position.y - a.position.y) =
      (a.position.x - b.position.x) * (a.position.x - b.position.x) +
      (a.position.y - b.position.y) * (a.position.y - b.position.y) := by ring
  simp only [h1, add_comm a.radius b.radius]

/-- C17: for an `Entity`, an `Asteroid`, a `Projectile` and a `Starship`, `update(dt)` sets
the position to the position before plus velocity times `dt`, and leaves velocity and radius
unchanged; for `Entity`, `Asteroid` and `Starship` it leaves the active flag unchanged too. -/
theorem update_moves (e : Entity α) (a : Asteroid α) (p : Projectile α) (s : Starship α)
    (dt : α) :
    ((e.update dt).position =
        ⟨e.position.x + e.velocity.x * dt, e.position.y + e.velocity.y * dt⟩ ∧
      (e.update dt).velocity = e.velocity ∧ (e.update dt).radius = e.radius ∧
      (e.update dt).active = e.active) ∧
    ((a.update dt).position =
        ⟨a.position.x + a.velocity.x * dt, a.position.y + a.velocity.y * dt⟩ ∧
      (a.update dt).velocity = a.velocity ∧ (a.update dt).radius = a.radius ∧
      (a.update dt).active = a.active) ∧
    ((p.update dt).position =
        ⟨p.position.x + p.velocity.x * dt, p.position.y + p.velocity.y * dt⟩ ∧
      (p.update dt).velocity = p.velocity ∧ (p.update dt).radius = p.radius) ∧
    ((s.update dt).position =
        ⟨s.position.x + s.velocity.x * dt, s.position.y + s.velocity.y * dt⟩ ∧
      (s.update dt).velocity = s.velocity ∧ (s.update dt).radius = s.radius ∧
      (s.update dt).active = s.active) := by
  refine ⟨⟨rfl, rfl, rfl, rfl⟩, ⟨rfl, rfl, rfl, rfl⟩, ?_, ⟨rfl, rfl, rfl, rfl⟩⟩
  unfold Projectile.update
  dsimp only
  split_ifs <;> exact ⟨rfl, rfl, rfl⟩

/-- A ship on its track is left as it is by `applyBoundaries`. -/
theorem applyBoundaries_fixed (t : Starship α) (width height : α)
    (h1 : ¬ t.position.x < t.radius) (h2 : ¬ t.position.x > width - t.radius)
    (hy : t.position.y = height - 30) (hv : t.velocity.y = 0) :
    t.applyBoundaries width height = t := by
  obtain ⟨⟨⟨px, py⟩, ⟨vx, vy⟩, r, act⟩, rot, tp, hp⟩ := t
  simp only at h1 h2 hy hv
  subst hy hv
  simp [Starship.applyBoundaries, h1, h2]

/-- C18: for every ship and every `width`, `height` with `width >= 2 * radius`,
`applyBoundaries(width, height)` sets x to x clamped into `[radius, width - radius]`
(unchanged when already inside), sets y to `height - 30` and the vertical velocity to 0,
leaves the horizontal velocity, rotation, health, active flag, radius and thrust power
unchanged, and applying it twice gives the same ship as applying it once. -/
theorem applyBoundaries_clamps (s : Starship α) (width height : α)
    (hw : 2 * s.radius ≤ width) :
    (s.applyBoundaries width height).position.x =
      max s.radius (min s.position.x (width - s.radius)) ∧
    s.radius ≤ (s.applyBoundaries width height).position.x ∧
    (s.applyBoundaries width height).position.x ≤ width - s.radius ∧
    (s.radius ≤ s.position.x → s.position.x ≤ width - s.radius →
      (s.applyBoundaries width height).position.x = s.position.x) ∧
    (s.applyBoundaries width height).position.y = height - 30 ∧
    (s.applyBoundaries width height).velocity.y = 0 ∧
    (s.applyBoundaries width height).velocity.x = s.velocity.x ∧
    (s.applyBoundaries width height).rotation = s.rotation ∧
    (s.applyBoundaries width height).health = s.health ∧
    (s.applyBoundaries width height).active = s.active ∧
    (s.applyBoundaries width height).radius = s.radius ∧
    (s.applyBoundaries width height).thrustPower = s.thrustPower ∧
    (s.applyBoundaries width height).applyBoundaries width height =
      s.applyBoundaries width height := by
  have hr : s.radius ≤ width - s.radius := by linarith
  have hx : (s.applyBoundaries width height).position.x =
      max s.radius (min s.position.x (width - s.radius)) := by
    unfold Starship.applyBoundaries
    dsimp only
    by_cases h1 : s.position.x < s.radius
    · rw [if_pos h1, if_neg (not_lt.mpr hr)]
      rw [min_eq_left (le_trans (le_of_lt h1) hr), max_eq_left (le_of_lt h1)]
    · rw [if_neg h1]
      by_cases h2 : s.position.x > width - s.radius
      · rw [if_pos h2, min_eq_right (le_of_lt h2), max_eq_right hr]
      · rw [if_neg h2, min_eq_left (not_lt.mp h2), max_eq_right (not_lt.mp h1)]
  have hlo : s.radius ≤ (s.applyBoundaries width height).position.x := by
    rw [hx]; exact le_max_left _ _
  have hhi : (s.applyBoundaries width height).position.x ≤ width - s.radius := by
    rw [hx]; exact max_le hr (min_le_right _ _)
  refine ⟨hx, hlo, hhi, ?_, rfl, rfl, rfl, rfl, rfl, rfl, rfl, rfl, ?_⟩
  · intro h1 h2
    rw [hx, min_eq_left h2, max_eq_right h1]
  · exact applyBoundaries_fixed _ width height (not_lt.mpr hlo) (not_lt.mpr hhi) rfl rfl

theorem applyBoundaries_clamps_witness :
    2 * strayShip.radius ≤ 800 ∧ (strayShip.applyBoundaries 800 600).position = ⟨1, 570⟩ ∧
    (strayShip.applyBoundaries 800 600).velocity = ⟨-150, 0⟩ := by
  have hw : 2 * strayShip.radius ≤ 800 := by
    norm_num [strayShip, Starship.new, Entity.new]
  obtain ⟨hx, -, -, -, hy, hvy, hvx, -⟩ := applyBoundaries_clamps strayShip 800 600 hw
  refine ⟨hw, ?_, ?_⟩
  · have e1 : (strayShip.applyBoundaries 800 600).position =
        ⟨(strayShip.applyBoundaries 800 600).position.x,
          (strayShip.applyBoundaries 800 600).position.y⟩ := rfl
    rw [e1, hx, hy]
    norm_num [strayShip, Starship.new, Entity.new]
  · have e1 : (strayShip.applyBoundaries 800 600).velocity =
        ⟨(strayShip.applyBoundaries 800 600).velocity.x,
          (strayShip.applyBoundaries 800 600).velocity.y⟩ := rfl
    rw [e1, hvx, hvy]
    rfl

/-- C20, as stated, fails: on the 800 x 600 field an entity at x = -1000 is moved by
`wrapScreen` to x = -200, which is still outside `[0, 800]`: the position is shifted by
one field width, not reduced modulo the field width. -/
theorem wrapScreen_far_outside :
    (0 : ℚ) < 800 ∧ (0 : ℚ) < 600 ∧ (farLeft.wrapScreen 800 600).position.x = -200 ∧
    ¬ (0 ≤ (farLeft.wrapScreen 800 600).position.x) := by
  have h : (farLeft.wrapScreen 800 600).position.x = -200 := by
    norm_num [farLeft, Entity.wrapScreen, Entity.new]
  refine ⟨by norm_num, by norm_num, h, ?_⟩
  rw [h]
  norm_num

/-- C20, amended: for every `width > 0` and `height > 0`, `wrapScreen(width, height)`
shifts each coordinate by zero or by exactly one field size; the resulting x lies in
`[0, width]` exactly when the original x lies in `[-width, 2 * width]`, and the resulting y
lies in `[0, height]` exactly when the original y lies in `[-height, 2 * height]`; a
position already inside the field is left unchanged, and velocity, radius and active flag
are never changed. -/
theorem wrapScreen_once (e : Entity α) (width height : α) (hw : 0 < width)
    (hh : 0 < height) :
    ((e.wrapScreen width height).position.x = e.position.x ∨
      (e.wrapScreen width height).position.x = e.position.x + width ∨
      (e.wrapScreen width height).position.x = e.position.x - width) ∧
    ((e.wrapScreen width height).position.y = e.position.y ∨
      (e.wrapScreen width height).position.y = e.position.y + height ∨
      (e.wrapScreen width height).position.y = e.position.y - height) ∧
    ((0 ≤ (e.wrapScreen width height).position.x ∧
        (e.wrapScreen width height).position.x ≤ width) ↔
      (-width ≤ e.position.x ∧ e.position.x ≤ 2 * width)) ∧
    ((0 ≤ (e.wrapScreen width height).position.y ∧
        (e.wrapScreen width height).position.y ≤ height) ↔
      (-height ≤ e.position.y ∧ e.position.y ≤ 2 * height)) ∧
    (0 ≤ e.position.x → e.position.x ≤ width → 0 ≤ e.position.y → e.position.y ≤ height →
      e.wrapScreen width height = e) ∧
    (e.wrapScreen width height).velocity = e.velocity ∧
    (e.wrapScreen width height).radius = e.radius ∧
    (e.wrapScreen width height).active = e.active := by
  have key : ∀ (x w : α), 0 < w →
      ((if (if x < 0 then x + w else x) > w then (if x < 0 then x + w else x) - w
          else (if x < 0 then x + w else x)) = x ∨
        (if (if x < 0 then x + w else x) > w then (if x < 0 then x + w else x) - w
          else (if x < 0 then x + w else x)) = x + w ∨
        (if (if x < 0 then x + w else x) > w then (if x < 0 then x + w else x) - w
          else (if x < 0 then x + w else x)) = x - w) ∧
      ((0 ≤ (if (if x < 0 then x + w else x) > w then (if x < 0 then x + w else x) - w
            else (if x < 0 then x + w else x)) ∧
          (if (if x < 0 then x + w else x) > w then (if x < 0 then x + w else x) - w
            else (if x < 0 then x + w else x)) ≤ w) ↔ (-w ≤ x ∧ x ≤ 2 * w)) ∧
      (0 ≤ x → x ≤ w →
        (if (if x < 0 then x + w else x) > w then (if x < 0 then x + w else x) - w
          else (if x < 0 then x + w else x)) = x) := by
    intro x w hw0
    by_cases h1 : x < 0
    · have h2 : ¬ x + w > w := by intro h; linarith
      rw [if_pos h1, if_neg h2]
      refine ⟨Or.inr (Or.inl rfl), ?_, fun h => absurd h1 (not_lt.mpr h)⟩
      constructor
      · rintro ⟨h3, h4⟩; constructor <;> linarith
      · rintro ⟨h3, h4⟩; constructor <;> linarith
    · rw [if_neg h1]
      by_cases h2 : x > w
      · rw [if_pos h2]
        refine ⟨Or.inr (Or.inr rfl), ?_, fun _ h => absurd h2 (not_lt.mpr h)⟩
        constructor
        · rintro ⟨h3, h4⟩; constructor <;> linarith
        · rintro ⟨h3, h4⟩; constructor <;> linarith
      · rw [if_neg h2]
        refine ⟨Or.inl rfl, ?_, fun _ _ => rfl⟩
        constructor
        · rintro ⟨h3, h4⟩; constructor <;> linarith
        · rintro ⟨h3, h4⟩; exact ⟨not_lt.mp h1, not_lt.mp h2⟩
  obtain ⟨kx1, kx2, kx3⟩ := key e.position.x width hw
  obtain ⟨ky1, ky2, ky3⟩ := key e.position.y height hh
  refine ⟨kx1, ky1, kx2, ky2, ?_, rfl, rfl, rfl⟩
  intro h1 h2 h3 h4
  have ex := kx3 h1 h2
  have ey := ky3 h3 h4
  unfold Entity.wrapScreen
  dsimp only
  rw [ex, ey]

theorem wrapScreen_once_witness :
    (0 : ℚ) < 800 ∧ (0 : ℚ) < 600 ∧ (nearLeft.wrapScreen 800 600).position.x = 700 ∧
    (0 ≤ (nearLeft.wrapScreen 800 600).position.x ∧
      (nearLeft.wrapScreen 800 600).position.x ≤ 800) := by
  have h := wrapScreen_once nearLeft 800 600 (by norm_num) (by norm_num)
  have hx : (nearLeft.wrapScreen 800 600).position.x = 700 := by
    norm_num [nearLeft, Entity.wrapScreen, Entity.new]
  refine ⟨by norm_num, by norm_num, hx, ?_⟩
  exact h.2.2.1.mpr (by norm_num [nearLeft, Entity.new])

end EntityClaims

/-! ## Entities over the reals: Euclidean distance and speed -/

section RealClaims

theorem distance_eq_dist (L : Libm ℝ) (hL : L.sqrt = Real.sqrt) (a b : Vector2D ℝ) :
    Vector2D.distance L a b = dist (⟨a.x, a.y⟩ : ℂ) ⟨b.x, b.y⟩ := by
  rw [Complex.dist_eq, Complex.abs_apply, Complex.normSq_apply]
  unfold Vector2D.distance Vector2D.length Vector2D.sub
  rw [hL]
  congr 1
  simp only [Complex.sub_re, Complex.sub_im]
  ring

/-- C16: with the real square root, `a.collidesWith(b)` is true if and only if the
Euclidean distance between the centres is strictly less than `a.radius + b.radius`; two
circles that exactly touch do not collide; an entity with positive radius collides with
itself. -/
theorem collides_iff_distance (L : Libm ℝ) (hL : L.sqrt = Real.sqrt) (a b : Entity ℝ) :
    (a.collidesWith L b = true ↔
      dist (⟨a.position.x, a.position.y⟩ : ℂ) ⟨b.position.x, b.position.y⟩ <
        a.radius + b.radius) ∧
    (dist (⟨a.position.x, a.position.y⟩ : ℂ) ⟨b.position.x, b.position.y⟩ =
        a.radius + b.radius → a.collidesWith L b = false) ∧
    (0 < a.radius → a.collidesWith L a = true) := by
  have key : ∀ c d : Entity ℝ, (c.collidesWith L d = true ↔
      dist (⟨c.position.x, c.position.y⟩ : ℂ) ⟨d.position.x, d.position.y⟩ <
        c.radius + d.radius) := by
    intro c d
    unfold Entity.collidesWith
    simp only [decide_eq_true_eq]
    rw [distance_eq_dist L hL]
  refine ⟨key a b, ?_, ?_⟩
  · intro h
    have := (key a b).not
    rw [h] at this
    simpa using this
  · intro hr
    rw [key a a, dist_self]
    linarith

theorem collides_iff_distance_witness :
    (Entity.new ⟨0, 0⟩ 1 : Entity ℝ).collidesWith
        ⟨Real.sqrt, Real.sin, Real.cos, fun y x => Complex.arg ⟨x, y⟩, id, fun _ => false, fun _ => id⟩
        (Entity.new ⟨3, 4⟩ 5) = true ∧
    (Entity.new ⟨0, 0⟩ 1 : Entity ℝ).collidesWith
        ⟨Real.sqrt, Real.sin, Real.cos, fun y x => Complex.arg ⟨x, y⟩, id, fun _ => false, fun _ => id⟩
        (Entity.new ⟨3, 4⟩ 4) = false := by
  have hd : dist (⟨0, 0⟩ : ℂ) ⟨3, 4⟩ = 5 := by
    rw [Complex.dist_eq, Complex.abs_apply, Complex.normSq_apply]
    simp only [Complex.sub_re, Complex.sub_im]
    rw [show ((0 : ℝ) - 3) * (0 - 3) + (0 - 4) * (0 - 4) = 5 * 5 by norm_num]
    exact Real.sqrt_mul_self (by norm_num)
  constructor
  · refine (collides_iff_distance ⟨Real.sqrt, Real.sin, Real.cos, fun y x => Complex.arg ⟨x, y⟩, id, fun _ => false, fun _ => id⟩
      rfl (Entity.new ⟨0, 0⟩ 1) (Entity.new ⟨3, 4⟩ 5)).1.mpr ?_
    show dist (⟨0, 0⟩ : ℂ) ⟨3, 4⟩ < 1 + 5
    rw [hd]; norm_num
  · refine (collides_iff_distance ⟨Real.sqrt, Real.sin, Real.cos, fun y x => Complex.arg ⟨x, y⟩, id, fun _ => false, fun _ => id⟩
      rfl (Entity.new ⟨0, 0⟩ 1) (Entity.new ⟨3, 4⟩ 4)).2.1 ?_
    show dist (⟨0, 0⟩ : ℂ) ⟨3, 4⟩ = 1 + 4
    rw [hd]; norm_num

theorem sqrt_rescaled (x y : ℝ) (h : 0 < Real.sqrt (x * x + y * y)) :
    Real.sqrt ((x / Real.sqrt (x * x + y * y) * 40) ^ 2 +
      (y / Real.sqrt (x * x + y * y) * 40) ^ 2) = 40 := by
  have hn : Real.sqrt (x * x + y * y) ^ 2 = x * x + y * y :=
    Real.sq_sqrt (by nlinarith [mul_self_nonneg x, mul_self_nonneg y])
  have hne : Real.sqrt (x * x + y * y) ≠ 0 := ne_of_gt h
  have e : (x / Real.sqrt (x * x + y * y) * 40) ^ 2 +
      (y / Real.sqrt (x * x + y * y) * 40) ^ 2 = 40 ^ 2 := by
    field_simp
    rw [hn]
    ring
  rw [e]
  exact Real.sqrt_sq (by norm_num)

/-- C19: with the real square root and the thrust power 50 of the constructor, after
`thrust(dt)` the velocity magnitude is at most 40; when `u = v + 50*dt*(cos rotation,
sin rotation)` has magnitude at most 40 the new velocity is `u`; otherwise the new velocity
is a positive multiple of `u` (the same direction) and has magnitude exactly 40. -/
theorem thrust_caps_speed (L : Libm ℝ) (hL : L.sqrt = Real.sqrt) (s : Starship ℝ) (dt : ℝ)
    (ux uy : ℝ) (hp : s.thrustPower = 50)
    (hux : ux = s.velocity.x + 50 * dt * L.cos s.rotation)
    (huy : uy = s.velocity.y + 50 * dt * L.sin s.rotation) :
    Real.sqrt ((s.thrust L dt).velocity.x ^ 2 + (s.thrust L dt).velocity.y ^ 2) ≤ 40 ∧
    (Real.sqrt (ux ^ 2 + uy ^ 2) ≤ 40 → (s.thrust L dt).velocity = ⟨ux, uy⟩) ∧
    (40 < Real.sqrt (ux ^ 2 + uy ^ 2) →
      Real.sqrt ((s.thrust L dt).velocity.x ^ 2 + (s.thrust L dt).velocity.y ^ 2) = 40 ∧
      ∃ k : ℝ, 0 < k ∧ (s.thrust L dt).velocity.x = k * ux ∧
        (s.thrust L dt).velocity.y = k * uy) := by
  have hU : s.velocity.add
      (((⟨L.cos s.rotation, L.sin s.rotation⟩ : Vector2D ℝ).smul s.thrustPower).smul dt) =
      ⟨ux, uy⟩ := by
    simp only [Vector2D.add, Vector2D.smul, hp, hux, huy, Vector2D.mk.injEq]
    constructor <;> ring
  have hT : (s.thrust L dt).velocity =
      if (s.velocity.add (((⟨L.cos s.rotation, L.sin s.rotation⟩ : Vector2D ℝ).smul
          s.thrustPower).smul dt)).length L > 40 then
        ((s.velocity.add (((⟨L.cos s.rotation, L.sin s.rotation⟩ : Vector2D ℝ).smul
          s.thrustPower).smul dt)).normalized L).smul 40
      else s.velocity.add (((⟨L.cos s.rotation, L.sin s.rotation⟩ : Vector2D ℝ).smul
          s.thrustPower).smul dt) := by
    unfold Starship.thrust
    dsimp only
    split_ifs <;> rfl
  rw [hU] at hT
  have hlen : (⟨ux, uy⟩ : Vector2D ℝ).length L = Real.sqrt (ux ^ 2 + uy ^ 2) := by
    simp only [Vector2D.length, hL, pow_two]
  have hlen2 : Real.sqrt (ux * ux + uy * uy) = Real.sqrt (ux ^ 2 + uy ^ 2) := by
    simp only [pow_two]
  by_cases hbig : 40 < Real.sqrt (ux ^ 2 + uy ^ 2)
  · have hpos : 0 < Real.sqrt (ux * ux + uy * uy) := by rw [hlen2]; linarith
    have hres : (s.thrust L dt).velocity =
        ⟨ux / Real.sqrt (ux * ux + uy * uy) * 40, uy / Real.sqrt (ux * ux + uy * uy) * 40⟩ := by
      rw [hT, hlen, if_pos hbig]
      unfold Vector2D.normalized
      dsimp only
      rw [hlen, ← hlen2, if_pos hpos]
      rfl
    have hmag : Real.sqrt ((s.thrust L dt).velocity.x ^ 2 +
        (s.thrust L dt).velocity.y ^ 2) = 40 := by
      rw [hres]
      exact sqrt_rescaled ux uy hpos
    refine ⟨le_of_eq hmag, fun hle => absurd hbig (not_lt.mpr hle), fun _ => ⟨hmag, ?_⟩⟩
    refine ⟨40 / Real.sqrt (ux * ux + uy * uy), div_pos (by norm_num) hpos, ?_, ?_⟩
    · rw [hres]; show ux / _ * 40 = _; ring
    · rw [hres]; show uy / _ * 40 = _; ring
  · have hres : (s.thrust L dt).velocity = ⟨ux, uy⟩ := by
      rw [hT, hlen, if_neg hbig]
    refine ⟨?_, fun _ => hres, fun h => absurd h hbig⟩
    rw [hres]
    exact not_lt.mp hbig

theorem thrust_caps_speed_witness :
    ((Starship.new ⟨400, 570⟩ : Starship ℝ).thrust
        ⟨Real.sqrt, Real.sin, Real.cos, fun y x => Complex.arg ⟨x, y⟩, id, fun _ => false, fun _ => id⟩ 1).velocity = ⟨40, 0⟩ ∧
    ((Starship.new ⟨400, 570⟩ : Starship ℝ).thrust
        ⟨Real.sqrt, Real.sin, Real.cos, fun y x => Complex.arg ⟨x, y⟩, id, fun _ => false, fun _ => id⟩ (1 / 2)).velocity = ⟨25, 0⟩ := by
  have h50 : Real.sqrt ((50 : ℝ) ^ 2 + 0 ^ 2) = 50 := by
    rw [show (50 : ℝ) ^ 2 + 0 ^ 2 = 50 * 50 by norm_num]
    exact Real.sqrt_mul_self (by norm_num)
  have h25 : Real.sqrt ((25 : ℝ) ^ 2 + 0 ^ 2) = 25 := by
    rw [show (25 : ℝ) ^ 2 + 0 ^ 2 = 25 * 25 by norm_num]
    exact Real.sqrt_mul_self (by norm_num)
  constructor
  · obtain ⟨-, -, h3⟩ := thrust_caps_speed ⟨Real.sqrt, Real.sin, Real.cos, fun y x => Complex.arg ⟨x, y⟩, id, fun _ => false, fun _ => id⟩ rfl
      (Starship.new ⟨400, 570⟩) 1 50 0 rfl (by norm_num [Starship.new, Entity.new])
      (by norm_num [Starship.new, Entity.new])
    obtain ⟨hm, k, hk, hx, hy⟩ := h3 (by rw [h50]; norm_num)
    rw [hx, hy] at hm
    have hk2 : Real.sqrt ((k * 50) ^ 2 + (k * 0) ^ 2) = k * 50 := by
      rw [show (k * 50) ^ 2 + (k * 0) ^ 2 = (k * 50) * (k * 50) by ring]
      exact Real.sqrt_mul_self (by positivity)
    rw [hk2] at hm
    have e1 : ((Starship.new ⟨400, 570⟩ : Starship ℝ).thrust
        ⟨Real.sqrt, Real.sin, Real.cos, fun y x => Complex.arg ⟨x, y⟩, id, fun _ => false, fun _ => id⟩ 1).velocity =
        ⟨((Starship.new ⟨400, 570⟩ : Starship ℝ).thrust
          ⟨Real.sqrt, Real.sin, Real.cos, fun y x => Complex.arg ⟨x, y⟩, id, fun _ => false, fun _ => id⟩ 1).velocity.x,
         ((Starship.new ⟨400, 570⟩ : Starship ℝ).thrust
          ⟨Real.sqrt, Real.sin, Real.cos, fun y x => Complex.arg ⟨x, y⟩, id, fun _ => false, fun _ => id⟩ 1).velocity.y⟩ := rfl
    rw [e1, hx, hy, hm]
    simp
  · obtain ⟨-, h2, -⟩ := thrust_caps_speed ⟨Real.sqrt, Real.sin, Real.cos, fun y x => Complex.arg ⟨x, y⟩, id, fun _ => false, fun _ => id⟩ rfl
      (Starship.new ⟨400, 570⟩) (1 / 2) 25 0 rfl (by norm_num [Starship.new, Entity.new])
      (by norm_num [Starship.new, Entity.new])
    exact h2 (by rw [h25]; norm_num)

end RealClaims

/-! ## Reclamation and the collections -/

section Collections

variable {α : Type} [LinearOrderedField α]

/-- The collections after one frame while Playing: the survivors of the reclamation,
in their order, followed for the asteroids by those spawned in the frame. -/
theorem update_collections (L : Libm α) (g : Game α) (dt : α) (h : g.gameOver = false) :
    ∃ spawned : List (Asteroid α),
      (Game.update L g dt).asteroids =
        (((g.moveEntities L dt).checkCollisions L).asteroids.filter fun a => a.active) ++
          spawned ∧
      (∀ a ∈ spawned, a.size = Size.LARGE ∧ a.active = true ∧ a.position.y = -20) ∧
      (Game.update L g dt).projectiles =
        ((g.moveEntities L dt).checkCollisions L).projectiles.filter fun p => p.active := by
  rw [update_playing L g dt h]
  obtain ⟨b0, hb0⟩ := checkGameOver_spec
    (((((g.moveEntities L dt).checkCollisions L).removeInactiveEntities).timedSpawn L
      dt).levelAdvance L)
  obtain ⟨a1, r1, c1, l1, h1, hp1⟩ := levelAdvance_spec L
    ((((g.moveEntities L dt).checkCollisions L).removeInactiveEntities).timedSpawn L dt)
  obtain ⟨a2, r2, c2, t2, h2, hp2⟩ := timedSpawn_spec L
    (((g.moveEntities L dt).checkCollisions L).removeInactiveEntities) dt
  rw [hb0, h1, h2]
  refine ⟨a2 ++ a1, ?_, ?_, rfl⟩
  · simp [Game.removeInactiveEntities]
  · intro a ha
    rcases List.mem_append.mp ha with ha | ha
    · exact hp2 a ha
    · exact hp1 a ha

/-- What `handleInput` does to the collections while Playing. -/
theorem handleInput_collections (L : Libm α) (g : Game α) (c : Char) (dt : α)
    (h : g.gameOver = false) :
    (Game.handleInput L g c dt).asteroids = g.asteroids ∧
    ((Game.handleInput L g c dt).projectiles = g.projectiles ∨
      (Game.handleInput L g c dt).projectiles =
        g.projectiles ++ [Projectile.new g.player.position ⟨0, -300⟩]) := by
  unfold Game.handleInput
  simp only [h, Bool.false_eq_true, if_false]
  split_ifs
  · exact ⟨rfl, Or.inl rfl⟩
  · exact ⟨rfl, Or.inl rfl⟩
  · exact ⟨rfl, Or.inl rfl⟩
  · have hs : g.shootProjectile = g ∨ g.shootProjectile =
        { g with projectiles := g.projectiles ++ [Projectile.new g.player.position ⟨0, -300⟩] } := by
      unfold Game.shootProjectile
      by_cases ha : g.player.active = true
      · right; simp [ha]
      · left; simp [ha]
    rcases hs with hs | hs
    · rw [hs]; exact ⟨rfl, Or.inl rfl⟩
    · rw [hs]; exact ⟨rfl, Or.inr rfl⟩
  · exact ⟨rfl, Or.inl rfl⟩
  · exact ⟨rfl, Or.inl rfl⟩

theorem new_allActive (L : Libm α) (w h : α) (rng crand : Nat → α) :
    (Game.new L w h rng crand).AllActive := by
  constructor
  · intro a ha
    exact ((new_asteroids L w h rng crand).2.1 a ha).2
  · rw [(new_fields L w h rng crand).2.2.2.2.1]
    simp

theorem step_allActive (L : Libm α) (g : Game α) (i : Input α) (hg : g.AllActive) :
    (g.step L i).AllActive := by
  cases i with
  | update dt =>
    by_cases h : g.gameOver = true
    · simp only [Game.step, Game.update, h, if_true]
      exact hg
    · have h2 : g.gameOver = false := by simpa using h
      obtain ⟨spawned, e1, e2, e3⟩ := update_collections L g dt h2
      constructor
      · intro a ha
        simp only [Game.step] at ha
        rw [e1] at ha
        rcases List.mem_append.mp ha with ha | ha
        · exact (List.mem_filter.mp ha).2
        · exact (e2 a ha).2.1
      · intro q hq
        simp only [Game.step] at hq
        rw [e3] at hq
        exact (List.mem_filter.mp hq).2
  | handleInput c dt =>
    by_cases h : g.gameOver = true
    · by_cases hc : c = 'r' ∨ c = 'R'
      · simp only [Game.step, Game.handleInput, h, if_true, hc]
        exact new_allActive L g.width g.height g.rng g.crand
      · simp only [Game.step, Game.handleInput, h, if_true, hc, if_false]
        exact hg
    · have h2 : g.gameOver = false := by simpa using h
      obtain ⟨e1, e2⟩ := handleInput_collections L g c dt h2
      constructor
      · intro a ha
        simp only [Game.step] at ha
        rw [e1] at ha
        exact hg.1 a ha
      · intro q hq
        simp only [Game.step] at hq
        rcases e2 with e2 | e2
        · rw [e2] at hq; exact hg.2 q hq
        · rw [e2] at hq
          rcases List.mem_append.mp hq with hq | hq
          · exact hg.2 q hq
          · rw [List.mem_singleton.mp hq]; rfl
  | reset => exact new_allActive L g.width g.height g.rng g.crand

theorem reachable_allActive (L : Libm α) (g : Game α) (hr : Reachable L g) : g.AllActive := by
  induction hr with
  | fresh w h rng crand => exact new_allActive L w h rng crand
  | call g1 i _ ih => exact step_allActive L g1 i ih

/-- C14: in every state reachable from a fresh session by `update`, `handleInput` and
`reset`, every asteroid and every projectile held in the collections is active; and an
`update(dt)` of such a state while Playing keeps, of the asteroids and projectiles as
`checkCollisions` leaves them, exactly the active ones, in their relative order (the
collections afterwards are the filtered ones, the asteroids followed by those spawned in the
frame), so it removes exactly the entities deactivated during the frame. -/
theorem collections_hold_active (L : Libm α) (g : Game α) (dt : α) (hr : Reachable L g) :
    (∀ a ∈ g.asteroids, a.active = true) ∧ (∀ p ∈ g.projectiles, p.active = true) ∧
    (g.gameOver = false →
      ∃ spawned : List (Asteroid α),
        (Game.update L g dt).asteroids =
          (((g.moveEntities L dt).checkCollisions L).asteroids.filter fun a => a.active) ++
            spawned ∧
        (∀ a ∈ spawned, a.size = Size.LARGE ∧ a.active = true ∧ a.position.y = -20) ∧
        (Game.update L g dt).projectiles =
          (((g.moveEntities L dt).checkCollisions L).projectiles.filter fun p => p.active) ∧
        ((((g.moveEntities L dt).checkCollisions L).asteroids.filter fun a => a.active).Sublist
          ((g.moveEntities L dt).checkCollisions L).asteroids) ∧
        ((Game.update L g dt).projectiles.Sublist
          ((g.moveEntities L dt).checkCollisions L).projectiles) ∧
        (∀ a ∈ ((g.moveEntities L dt).checkCollisions L).asteroids,
          (a ∈ (Game.update L g dt).asteroids ↔ a.active = true ∨ a ∈ spawned)) ∧
        (∀ p ∈ ((g.moveEntities L dt).checkCollisions L).projectiles,
          (p ∈ (Game.update L g dt).projectiles ↔ p.active = true))) ∧
    (g.gameOver = true → Game.update L g dt = g) := by
  obtain ⟨ha, hp⟩ := reachable_allActive L g hr
  refine ⟨ha, hp, ?_, fun h => by simp [Game.update, h]⟩
  intro h
  obtain ⟨spawned, e1, e2, e3⟩ := update_collections L g dt h
  refine ⟨spawned, e1, e2, e3, List.filter_sublist _, ?_, ?_, ?_⟩
  · rw [e3]; exact List.filter_sublist _
  · intro a hmem
    rw [e1, List.mem_append, List.mem_filter]
    constructor
    · rintro (⟨-, h1⟩ | h1)
      · exact Or.inl h1
      · exact Or.inr h1
    · rintro (h1 | h1)
      · exact Or.inl ⟨hmem, h1⟩
      · exact Or.inr h1
  · intro q hmem
    rw [e3, List.mem_filter]
    exact ⟨fun h1 => h1.2, fun h1 => ⟨hmem, h1⟩⟩

theorem collections_hold_active_witness :
    Reachable evalLibm (freshSession.step evalLibm (Input.handleInput ' ' (1 / 60))) ∧
    (∀ p ∈ (freshSession.step evalLibm (Input.handleInput ' ' (1 / 60))).projectiles,
      p.active = true) ∧
    (freshSession.step evalLibm (Input.handleInput ' ' (1 / 60))).projectiles.length = 1 := by
  have hr : Reachable evalLibm (freshSession.step evalLibm (Input.handleInput ' ' (1 / 60))) :=
    Reachable.call _ _ (Reachable.fresh 800 600 _ _)
  refine ⟨hr, (collections_hold_active evalLibm _ (1 / 60) hr).2.1, ?_⟩
  obtain ⟨hp, hg, -, -, hpr, -, -, hc, -⟩ :=
    new_fields evalLibm 800 600 (fun _ => 1 / 2) (fun _ => 1 / 2)
  have hact : freshSession.player.active = true := by
    show (Game.new evalLibm 800 600 _ _).player.active = true
    rw [hp]; rfl
  show (Game.handleInput evalLibm freshSession ' ' (1 / 60)).projectiles.length = 1
  rw [handleInput_fire evalLibm freshSession (1 / 60) hg (le_of_eq hc) hact]
  show (freshSession.projectiles ++ [_]).length = 1
  rw [show freshSession.projectiles = [] from hpr]
  rfl

end Collections

/-! ## Spawning and levels -/

section Spawning

variable {α : Type} [LinearOrderedField α]

/-- What the movement phase, `checkCollisions` and the reclamation leave unchanged. -/
theorem reclaimed_fields (L : Libm α) (g : Game α) (dt : α) :
    ((g.moveEntities L dt).checkCollisions L).removeInactiveEntities.level = g.level ∧
    ((g.moveEntities L dt).checkCollisions L).removeInactiveEntities.width = g.width ∧
    ((g.moveEntities L dt).checkCollisions L).removeInactiveEntities.height = g.height ∧
    ((g.moveEntities L dt).checkCollisions L).removeInactiveEntities.spawnTimer = g.spawnTimer ∧
    ((g.moveEntities L dt).checkCollisions L).removeInactiveEntities.gameOver = g.gameOver ∧
    ((g.moveEntities L dt).checkCollisions L).removeInactiveEntities.crand = g.crand := by
  obtain ⟨a3, p3, h3⟩ := playerPass_spec L ((g.moveEntities L dt).projectilePhase L)
  obtain ⟨a4, r4, h4⟩ := projectilePhase_spec L (g.moveEntities L dt)
  rw [Game.checkCollisions, h3, h4]
  exact ⟨rfl, rfl, rfl, rfl, rfl, rfl⟩

theorem timedSpawn_level (L : Libm α) (g : Game α) (dt : α) :
    (g.timedSpawn L dt).level = g.level ∧ (g.timedSpawn L dt).player = g.player ∧
    (g.timedSpawn L dt).width = g.width ∧ (g.timedSpawn L dt).gameOver = g.gameOver := by
  obtain ⟨a2, r2, c2, t2, h2, -⟩ := timedSpawn_spec L g dt
  rw [h2]
  exact ⟨rfl, rfl, rfl, rfl⟩

/-- The level advance of a frame, by cases on its condition. -/
theorem levelAdvance_cases (L : Libm α) (g : Game α) :
    (g.asteroids = [] ∧ g.player.active = true →
      (g.levelAdvance L).level = g.level + 1 ∧
      (g.levelAdvance L).asteroids.length = (6 + (g.level + 1) * 2).toNat ∧
      ∀ a ∈ (g.levelAdvance L).asteroids, a.size = Size.LARGE ∧ a.active = true) ∧
    (¬ (g.asteroids = [] ∧ g.player.active = true) → g.levelAdvance L = g) := by
  constructor
  · rintro ⟨h1, h2⟩
    have hc : (g.asteroids.isEmpty && g.player.active) = true := by simp [h1, h2]
    unfold Game.levelAdvance
    rw [if_pos hc]
    obtain ⟨added, rng1, crand1, e1, e2, e3⟩ :=
      spawnAsteroids_spec L (6 + (g.level + 1) * 2) { g with level := g.level + 1 }
    dsimp only
    rw [e1]
    refine ⟨rfl, ?_, ?_⟩
    · show (g.asteroids ++ added).length = _
      rw [h1, List.nil_append, e2]
    · intro a ha
      have ha2 : a ∈ g.asteroids ++ added := ha
      rw [h1, List.nil_append] at ha2
      exact ⟨(e3 a ha2).1, (e3 a ha2).2.1⟩
  · intro hn
    have hc : ¬ (g.asteroids.isEmpty && g.player.active) = true := by
      intro hc
      apply hn
      simp only [Bool.and_eq_true, List.isEmpty_iff] at hc
      exact hc
    unfold Game.levelAdvance
    rw [if_neg hc]

omit [LinearOrderedField α] in
theorem checkGameOver_fields (g : Game α) :
    g.checkGameOver.level = g.level ∧ g.checkGameOver.asteroids = g.asteroids ∧
    g.checkGameOver.spawnTimer = g.spawnTimer := by
  obtain ⟨b, hb⟩ := checkGameOver_spec g
  rw [hb]
  exact ⟨rfl, rfl, rfl⟩

/-- The level after any `handleInput`. -/
theorem handleInput_level (L : Libm α) (g : Game α) (c : Char) (dt : α) :
    (g.gameOver = true ∧ (c = 'r' ∨ c = 'R') → (Game.handleInput L g c dt).level = 1) ∧
    (¬ (g.gameOver = true ∧ (c = 'r' ∨ c = 'R')) →
      (Game.handleInput L g c dt).level = g.level) := by
  constructor
  · rintro ⟨h1, h2⟩
    have hr : Game.handleInput L g c dt = Game.new L g.width g.height g.rng g.crand := by
      simp only [Game.handleInput, h1, if_true, h2]
      rfl
    rw [hr]
    exact (new_fields L _ _ _ _).2.2.2.1
  · intro hn
    by_cases h1 : g.gameOver = true
    · have h2 : ¬ (c = 'r' ∨ c = 'R') := fun h2 => hn ⟨h1, h2⟩
      simp only [Game.handleInput, h1, if_true, h2, if_false]
    · have h2 : g.gameOver = false := by simpa using h1
      exact (handleInput_playing L g c dt h2).2.2.2.2

/-- C12: while Playing, `update(dt)` raises the level by one exactly when, after the
reclamation and the timed spawn of the frame, the asteroid collection is empty and the
player is active, and the collection then holds exactly `6 + 2*(level+1)` asteroids, all
Large (for a level of at least 1, as in the data model; in general the count is that number
cut off at zero); in every other case the level and the asteroids are as the timed spawn
left them.  `handleInput` changes the level only when it runs `reset`, which sets it to 1. -/
theorem level_advances_on_clear (L : Libm α) (g : Game α) (dt : α) (g1 : Game α)
    (c : Char) (dt1 : α) (h : g.gameOver = false) :
    ((((g.moveEntities L dt).checkCollisions L).removeInactiveEntities.timedSpawn L
          dt).asteroids = [] ∧
        (((g.moveEntities L dt).checkCollisions L).removeInactiveEntities.timedSpawn L
          dt).player.active = true →
      (Game.update L g dt).level = g.level + 1 ∧
      (Game.update L g dt).asteroids.length = (6 + 2 * (g.level + 1)).toNat ∧
      (1 ≤ g.level → ((Game.update L g dt).asteroids.length : Int) = 6 + 2 * (g.level + 1)) ∧
      ∀ a ∈ (Game.update L g dt).asteroids, a.size = Size.LARGE ∧ a.active = true) ∧
    (¬ ((((g.moveEntities L dt).checkCollisions L).removeInactiveEntities.timedSpawn L
          dt).asteroids = [] ∧
        (((g.moveEntities L dt).checkCollisions L).removeInactiveEntities.timedSpawn L
          dt).player.active = true) →
      (Game.update L g dt).level = g.level ∧
      (Game.update L g dt).asteroids =
        (((g.moveEntities L dt).checkCollisions L).removeInactiveEntities.timedSpawn L
          dt).asteroids) ∧
    ((Game.update L g dt).level = g.level + 1 ↔
      ((((g.moveEntities L dt).checkCollisions L).removeInactiveEntities.timedSpawn L
          dt).asteroids = [] ∧
        (((g.moveEntities L dt).checkCollisions L).removeInactiveEntities.timedSpawn L
          dt).player.active = true)) ∧
    (g1.gameOver = true ∧ (c = 'r' ∨ c = 'R') → (Game.handleInput L g1 c dt1).level = 1) ∧
    (¬ (g1.gameOver = true ∧ (c = 'r' ∨ c = 'R')) →
      (Game.handleInput L g1 c dt1).level = g1.level) ∧
    (g1.reset L).level = 1 := by
  have hl4 : (((g.moveEntities L dt).checkCollisions L).removeInactiveEntities.timedSpawn L
      dt).level = g.level := by
    rw [(timedSpawn_level L _ dt).1, (reclaimed_fields L g dt).1]
  obtain ⟨hadv, hstay⟩ := levelAdvance_cases L
    (((g.moveEntities L dt).checkCollisions L).removeInactiveEntities.timedSpawn L dt)
  have hup := update_playing L g dt h
  have hyes : ((((g.moveEntities L dt).checkCollisions L).removeInactiveEntities.timedSpawn L
          dt).asteroids = [] ∧
        (((g.moveEntities L dt).checkCollisions L).removeInactiveEntities.timedSpawn L
          dt).player.active = true →
      (Game.update L g dt).level = g.level + 1 ∧
      (Game.update L g dt).asteroids.length = (6 + 2 * (g.level + 1)).toNat ∧
      (1 ≤ g.level → ((Game.update L g dt).asteroids.length : Int) = 6 + 2 * (g.level + 1)) ∧
      ∀ a ∈ (Game.update L g dt).asteroids, a.size = Size.LARGE ∧ a.active = true) := by
    intro hc
    obtain ⟨e1, e2, e3⟩ := hadv hc
    rw [hl4] at e1 e2
    have elen : (Game.update L g dt).asteroids.length = (6 + 2 * (g.level + 1)).toNat := by
      rw [hup, (checkGameOver_fields _).2.1, e2]
      congr 1
      ring
    refine ⟨?_, elen, ?_, ?_⟩
    · rw [hup, (checkGameOver_fields _).1, e1]
    · intro hlev
      rw [elen]
      omega
    · rw [hup, (checkGameOver_fields _).2.1]
      exact e3
  have hno : ¬ ((((g.moveEntities L dt).checkCollisions L).removeInactiveEntities.timedSpawn L
          dt).asteroids = [] ∧
        (((g.moveEntities L dt).checkCollisions L).removeInactiveEntities.timedSpawn L
          dt).player.active = true) →
      (Game.update L g dt).level = g.level ∧
      (Game.update L g dt).asteroids =
        (((g.moveEntities L dt).checkCollisions L).removeInactiveEntities.timedSpawn L
          dt).asteroids := by
    intro hc
    have e := hstay hc
    rw [hup, (checkGameOver_fields _).1, (checkGameOver_fields _).2.1, e, hl4]
    exact ⟨rfl, rfl⟩
  refine ⟨hyes, hno, ?_, (handleInput_level L g1 c dt1).1, (handleInput_level L g1 c dt1).2,
    (new_fields L _ _ _ _).2.2.2.1⟩
  constructor
  · intro hlev
    by_contra hc
    have := (hno hc).1
    omega
  · intro hc
    exact (hyes hc).1

/-! The generator keeps producing canonical variates through a frame. -/

theorem onProjectileHit_inUnit (L : Libm α) (g : Game α) (a : Asteroid α)
    (h : InUnit g.rng) : InUnit (g.onProjectileHit L a).rng := by
  unfold Game.onProjectileHit
  by_cases hc : a.canSplit = true
  · simp only [hc, if_true]
    intro n
    exact h (n + 1 + 1)
  · simp only [hc]
    exact h

theorem projectileStep_inUnit (L : Libm α) (p : Projectile α) (g : Game α)
    (h : InUnit g.rng) : InUnit (Game.projectileStep L p g).2.rng := by
  unfold Game.projectileStep
  by_cases hp : p.active = true
  · simp only [hp, Bool.not_true, Bool.false_eq_true, if_false]
    cases hs : hitScan L p.toEntity g.asteroids with
    | none => exact h
    | some r => exact onProjectileHit_inUnit L { g with asteroids := r.2 } _ h
  · simp only [hp]
    exact h

theorem projectilePass_inUnit (L : Libm α) (ps : List (Projectile α)) (g : Game α)
    (h : InUnit g.rng) : InUnit (Game.projectilePass L ps g).2.rng := by
  induction ps generalizing g with
  | nil => exact h
  | cons p rest ih => exact ih _ (projectileStep_inUnit L p g h)

theorem reclaimed_inUnit (L : Libm α) (g : Game α) (dt : α) (h : InUnit g.rng) :
    InUnit ((g.moveEntities L dt).checkCollisions L).removeInactiveEntities.rng := by
  obtain ⟨a3, p3, h3⟩ := playerPass_spec L ((g.moveEntities L dt).projectilePhase L)
  rw [Game.checkCollisions, h3]
  show InUnit (Game.projectilePass L (g.moveEntities L dt).projectiles (g.moveEntities L dt)).2.rng
  exact projectilePass_inUnit L _ _ h

/-- The asteroids that the loop of `spawnAsteroids` appends, for a generator of canonical
variates and a field of non-negative width. -/
theorem spawnAsteroidsLoop_range (L : Libm α) (n : Nat) (g : Game α) (hr : InUnit g.rng)
    (hw : 0 ≤ g.width) :
    ∃ added : List (Asteroid α),
      (Game.spawnAsteroidsLoop L n g).asteroids = g.asteroids ++ added ∧
      added.length = n ∧
      ∀ a ∈ added, a.size = Size.LARGE ∧ a.active = true ∧ a.position.y = -20 ∧
        0 ≤ a.position.x ∧ a.position.x ≤ g.width ∧ 10 ≤ a.velocity.y ∧ a.velocity.y ≤ 30 := by
  induction n generalizing g with
  | zero => exact ⟨[], by simp [Game.spawnAsteroidsLoop], rfl, by simp⟩
  | succ n ih =>
    have hr1 : InUnit (g.spawnAsteroidsBody L).rng := fun k => hr (k + 2)
    have hw1 : 0 ≤ (g.spawnAsteroidsBody L).width := hw
    obtain ⟨added, h1, h2, h3⟩ := ih (g.spawnAsteroidsBody L) hr1 hw1
    refine ⟨Asteroid.new ⟨uniformReal 0 g.width (g.rng 0), -20⟩
      ⟨L.sin (g.crand 0 * 0.4 - 0.2) * uniformReal 10 30 (g.rng 1),
        uniformReal 10 30 (g.rng 1)⟩ Size.LARGE :: added, ?_, ?_, ?_⟩
    · rw [Game.spawnAsteroidsLoop, h1]
      simp [Game.spawnAsteroidsBody, Game.spawnAsteroid]
    · simp [h2]
    · intro a ha
      rcases List.mem_cons.mp ha with ha | ha
      · subst ha
        obtain ⟨u0, u1⟩ := hr 0
        obtain ⟨v0, v1⟩ := hr 1
        refine ⟨rfl, rfl, rfl, ?_, ?_, ?_, ?_⟩
        · show 0 ≤ uniformReal 0 g.width (g.rng 0)
          unfold uniformReal
          nlinarith [mul_nonneg u0 hw]
        · show uniformReal 0 g.width (g.rng 0) ≤ g.width
          unfold uniformReal
          nlinarith [mul_nonneg (sub_nonneg.mpr (le_of_lt u1)) hw]
        · show 10 ≤ uniformReal 10 30 (g.rng 1)
          unfold uniformReal
          linarith
        · show uniformReal 10 30 (g.rng 1) ≤ 30
          unfold uniformReal
          linarith
      · exact h3 a ha

/-- C13: while Playing, for a field of non-negative width and a generator of canonical
variates, `update(dt)` performs a timed spawn exactly when `spawnTimer + dt >= 2.0`: it then
appends to the reclaimed collection exactly `1 + level/3` asteroids (integer division, level
as at the start of the frame; for a negative level the count is cut off at zero), each Large,
active, at y = -20 with x in `[0, width]` and vertical velocity in `[10, 30]`, and
`spawnTimer` is 0 after the frame; otherwise the timed spawn appends nothing and `spawnTimer`
is `spawnTimer + dt` after the frame. -/
theorem timed_spawn (L : Libm α) (g : Game α) (dt : α) (h : g.gameOver = false)
    (hw : 0 ≤ g.width) (hrng : InUnit g.rng) :
    (2 ≤ g.spawnTimer + dt →
      ∃ added : List (Asteroid α),
        (((g.moveEntities L dt).checkCollisions L).removeInactiveEntities.timedSpawn L
            dt).asteroids =
          ((g.moveEntities L dt).checkCollisions L).removeInactiveEntities.asteroids ++ added ∧
        added.length = (1 + Int.tdiv g.level 3).toNat ∧
        (0 ≤ g.level → (added.length : Int) = 1 + Int.tdiv g.level 3) ∧
        (∀ a ∈ added, a.size = Size.LARGE ∧ a.active = true ∧ a.position.y = -20 ∧
          0 ≤ a.position.x ∧ a.position.x ≤ g.width ∧
          10 ≤ a.velocity.y ∧ a.velocity.y ≤ 30) ∧
        (Game.update L g dt).spawnTimer = 0) ∧
    (¬ 2 ≤ g.spawnTimer + dt →
      (((g.moveEntities L dt).checkCollisions L).removeInactiveEntities.timedSpawn L
          dt).asteroids =
        ((g.moveEntities L dt).checkCollisions L).removeInactiveEntities.asteroids ∧
      (Game.update L g dt).spawnTimer = g.spawnTimer + dt) ∧
    ∃ bonus : List (Asteroid α),
      (Game.update L g dt).asteroids =
        (((g.moveEntities L dt).checkCollisions L).removeInactiveEntities.timedSpawn L
          dt).asteroids ++ bonus := by
  obtain ⟨hlev, hwid, -, htim, -, -⟩ := reclaimed_fields L g dt
  have hin := reclaimed_inUnit L g dt hrng
  have hup := update_playing L g dt h
  obtain ⟨a1, r1, c1, l1, e1, -⟩ := levelAdvance_spec L
    (((g.moveEntities L dt).checkCollisions L).removeInactiveEntities.timedSpawn L dt)
  have htimer : (Game.update L g dt).spawnTimer =
      (((g.moveEntities L dt).checkCollisions L).removeInactiveEntities.timedSpawn L
        dt).spawnTimer := by
    rw [hup, (checkGameOver_fields _).2.2, e1]
  refine ⟨?_, ?_, ⟨a1, by rw [hup, (checkGameOver_fields _).2.1, e1]⟩⟩
  · intro hdue
    have hc : ((g.moveEntities L dt).checkCollisions L).removeInactiveEntities.spawnTimer + dt ≥
        Game.spawnInterval := by
      rw [htim]; exact hdue
    have hts : ((g.moveEntities L dt).checkCollisions L).removeInactiveEntities.timedSpawn L dt =
        Game.spawnAsteroids L
          { ((g.moveEntities L dt).checkCollisions L).removeInactiveEntities with
            spawnTimer := 0 }
          (1 + Int.tdiv g.level 3) := by
      unfold Game.timedSpawn
      dsimp only
      rw [if_pos hc, hlev]
    obtain ⟨added, f1, f2, f3⟩ := spawnAsteroidsLoop_range L (1 + Int.tdiv g.level 3).toNat
      { ((g.moveEntities L dt).checkCollisions L).removeInactiveEntities with spawnTimer := 0 }
      hin (by show 0 ≤ ((g.moveEntities L dt).checkCollisions L).removeInactiveEntities.width
              rw [hwid]; exact hw)
    obtain ⟨added2, rng2, crand2, k1, -, -⟩ := spawnAsteroids_spec L (1 + Int.tdiv g.level 3)
      { ((g.moveEntities L dt).checkCollisions L).removeInactiveEntities with spawnTimer := 0 }
    refine ⟨added, ?_, f2, ?_, ?_, ?_⟩
    · rw [hts]; exact f1
    · intro hl
      rw [f2]
      have : 0 ≤ Int.tdiv g.level 3 := Int.tdiv_nonneg hl (by norm_num)
      omega
    · intro a ha
      have := f3 a ha
      have hwid2 : ({ ((g.moveEntities L dt).checkCollisions L).removeInactiveEntities with
          spawnTimer := 0 } : Game α).width = g.width := hwid
      rw [hwid2] at this
      exact this
    · rw [htimer, hts, k1]
  · intro hnot
    have hc : ¬ ((g.moveEntities L dt).checkCollisions L).removeInactiveEntities.spawnTimer + dt ≥
        Game.spawnInterval := by
      rw [htim]; exact hnot
    have hts : ((g.moveEntities L dt).checkCollisions L).removeInactiveEntities.timedSpawn L dt =
        { ((g.moveEntities L dt).checkCollisions L).removeInactiveEntities with
          spawnTimer :=
            ((g.moveEntities L dt).checkCollisions L).removeInactiveEntities.spawnTimer + dt } := by
      unfold Game.timedSpawn
      dsimp only
      rw [if_neg hc]
    constructor
    · rw [hts]
    · rw [htimer, hts]
      show ((g.moveEntities L dt).checkCollisions L).removeInactiveEntities.spawnTimer + dt = _
      rw [htim]

set_option maxHeartbeats 1000000 in
theorem level_advances_on_clear_witness :
    clearField.gameOver = false ∧ clearField.level = 1 ∧
    (Game.update evalLibm clearField (1 / 60)).level = 2 ∧
    (Game.update evalLibm clearField (1 / 60)).asteroids.length = 10 := by
  have hc : (((clearField.moveEntities evalLibm (1 / 60)).checkCollisions
        evalLibm).removeInactiveEntities.timedSpawn evalLibm (1 / 60)).asteroids = [] ∧
      (((clearField.moveEntities evalLibm (1 / 60)).checkCollisions
        evalLibm).removeInactiveEntities.timedSpawn evalLibm (1 / 60)).player.active = true := by
    constructor <;>
    norm_num [clearField, overlapAtCentre, Game.moveEntities, Game.checkCollisions,
      Game.projectilePhase, Game.projectilePass, Game.playerPass, hitScan,
      Game.removeInactiveEntities, Game.timedSpawn, Game.spawnInterval, Starship.update,
      Starship.applyDrag, Starship.applyBoundaries, Entity.update, Vector2D.add, Vector2D.smul,
      Starship.new, Entity.new]
  obtain ⟨h1, h2, -, -⟩ :=
    (level_advances_on_clear evalLibm clearField (1 / 60) clearField 'a' (1 / 60) rfl).1 hc
  refine ⟨rfl, rfl, ?_, ?_⟩
  · rw [h1]; rfl
  · rw [h2]; rfl

theorem timed_spawn_witness :
    spawnDue.gameOver = false ∧ 0 ≤ spawnDue.width ∧ InUnit spawnDue.rng ∧
    2 ≤ spawnDue.spawnTimer + 1 / 60 ∧ spawnDue.level = 4 ∧
    (Game.update evalLibm spawnDue (1 / 60)).spawnTimer = 0 ∧
    2 ≤ (Game.update evalLibm spawnDue (1 / 60)).asteroids.length := by
  have hw : 0 ≤ spawnDue.width := by norm_num [spawnDue, overlapAtCentre]
  have hr : InUnit spawnDue.rng := by
    intro n
    norm_num [spawnDue, overlapAtCentre]
  have hd : 2 ≤ spawnDue.spawnTimer + 1 / 60 := by norm_num [spawnDue, overlapAtCentre]
  obtain ⟨h1, -, bonus, h3⟩ := timed_spawn evalLibm spawnDue (1 / 60) rfl hw hr
  obtain ⟨added, e1, e2, -, -, e5⟩ := h1 hd
  refine ⟨rfl, hw, hr, hd, rfl, e5, ?_⟩
  rw [h3, e1]
  simp only [List.length_append, e2]
  have : (1 + Int.tdiv spawnDue.level 3).toNat = 2 := by decide
  omega

end Spawning

/-! ## A fresh session after a fire -/

section Fired

theorem freshSession_asteroids :
    freshSession.asteroids =
      List.replicate 8 (Asteroid.new ⟨400, -20⟩ ⟨0, 20⟩ Size.LARGE) := by
  simp [freshSession, Game.new, Game.spawnAsteroids, Game.spawnAsteroidsLoop,
    Game.spawnAsteroidsBody, Game.spawnAsteroid, uniformReal, evalLibm, List.replicate]
  norm_num

/-- The fresh session `freshSession`, and what a fire input makes of it. -/
theorem fired_fields :
    Game.handleInput evalLibm freshSession ' ' (1 / 60) =
      { freshSession with
        projectiles := [Projectile.new ⟨400, 300⟩ ⟨0, -300⟩]
        shootCooldown := Game.shootDelay } ∧
    freshSession.height = 600 ∧ freshSession.width = 800 ∧
    freshSession.player = Starship.new ⟨400, 300⟩ := by
  obtain ⟨hp, hg, -, -, hpr, hw, hh, hc, -⟩ :=
    new_fields evalLibm 800 600 (fun _ => 1 / 2) (fun _ => 1 / 2)
  have hpl : freshSession.player = Starship.new ⟨400, 300⟩ := by
    show (Game.new evalLibm 800 600 _ _).player = _
    rw [hp]
    norm_num
  have hact0 : freshSession.player.active = true := by rw [hpl]; rfl
  have hpos : freshSession.player.position = ⟨400, 300⟩ := by rw [hpl]; rfl
  refine ⟨?_, hh, hw, hpl⟩
  rw [handleInput_fire evalLibm freshSession (1 / 60) hg (le_of_eq hc) hact0, hpos,
    show freshSession.projectiles = [] from hpr]
  rfl

/-! The distances met in the frame `update(0.1f)` after the fire: from the projectile to
the asteroids and from the ship to the asteroids.  Both arguments are squares. -/

theorem evalLibm_sqrt_400 : evalLibm.sqrt 400 = 20 := by
  have h : isqrt 400 = 20 := by decide
  rw [evalLibm_sqrt_ofNat, h]; norm_num

theorem firstKill_asteroids : firstKill.asteroids = List.replicate 8 fallingRock := by
  unfold firstKill Game.moveEntities
  rw [fired_fields.1]
  simp only [fired_fields.2.1, freshSession_asteroids]
  norm_num [List.replicate, Game.updateAsteroid, Asteroid.update, Entity.update, Asteroid.new,
    Entity.new, Vector2D.add, Vector2D.smul, fallingRock, Asteroid.setActive]

theorem firstKill_projectiles : firstKill.projectiles = [risingShot] := by
  unfold firstKill Game.moveEntities
  rw [fired_fields.1]
  norm_num [Game.updateProjectile, Projectile.update, Projectile.new, Entity.update, Entity.new,
    Vector2D.add, Vector2D.smul, risingShot, Projectile.setActive]

theorem risingShot_hits : FirstHit evalLibm risingShot.toEntity [] fallingRock := by
  refine ⟨by simp, rfl, ?_⟩
  norm_num [risingShot, fallingRock, Projectile.new, Asteroid.new, Entity.new,
    Entity.collidesWith, Vector2D.distance, Vector2D.length, Vector2D.sub,
    Asteroid.getRadiusForSize, evalLibm_sqrt_zero]

/-- With one projectile, the first pass of `checkCollisions` is its turn of the loop. -/
theorem firstKill_step :
    (Game.projectilePhase evalLibm firstKill).asteroids =
      (Game.projectileStep evalLibm risingShot firstKill).2.asteroids := by
  unfold Game.projectilePhase
  rw [firstKill_projectiles]
  rfl

theorem evalLibm_full_eight : evalLibm.full 8 = true := by decide

/-- The vector of eight asteroids is full: the second iteration of the split loop reads
released storage. -/
theorem reread_fallingRock :
    (Game.rereadAsteroid evalLibm 8 (fallingRock.setActive false)).position = ⟨0, 0⟩ ∧
    (Game.rereadAsteroid evalLibm 8 (fallingRock.setActive false)).velocity = ⟨0, 0⟩ :=
  (rereadAsteroid_cases evalLibm 8 (fallingRock.setActive false)).2 evalLibm_full_eight

end Fired

/-! ## The fire cooldown -/

section Cooldown

variable {α : Type} [LinearOrderedField α]

/-- A call that runs `reset` gives the state of the constructor. -/
theorem step_of_resetsOn (L : Libm α) (g : Game α) (i : Input α) (h : g.resetsOn i = true) :
    g.step L i = Game.new L g.width g.height g.rng g.crand := by
  cases i with
  | update dt => simp [Game.resetsOn] at h
  | handleInput c dt =>
    simp only [Game.resetsOn, Bool.and_eq_true, Bool.or_eq_true, beq_iff_eq] at h
    simp only [Game.step, Game.handleInput, h.1, if_true, h.2]
    rfl
  | reset => rfl

theorem reachable_alive (L : Libm α) (g : Game α) (hr : Reachable L g) : g.Alive := by
  induction hr with
  | fresh w h rng crand => exact new_alive L w h rng crand
  | call g1 i _ ih =>
    by_cases hi : g1.resetsOn i = true
    · rw [step_of_resetsOn L g1 i hi]
      exact new_alive L _ _ _ _
    · exact (step_alive L g1 i ih (by simpa using hi)).1

theorem evalLibm_fl_sixtieth : evalLibm.fl (1 / 60) = 8947849 / 536870912 := by decide!

theorem evalLibm_fl_three_tenths : evalLibm.fl (3 / 10) = Game.shootDelay := by decide!

end Cooldown

/-! ## Invariants of a session -/

section Session

variable {α : Type} [LinearOrderedField α]

omit [LinearOrderedField α] in
theorem getPoints_nonneg (a : Asteroid α) : 0 ≤ a.getPoints := by
  unfold Asteroid.getPoints
  cases a.size <;> decide

omit [LinearOrderedField α] in
theorem sum_getPoints_nonneg (l : List (Asteroid α)) :
    0 ≤ (l.map fun a => a.getPoints).sum := by
  apply List.sum_nonneg
  intro x hx
  obtain ⟨a, -, rfl⟩ := List.mem_map.mp hx
  exact getPoints_nonneg a

/-- The level after the timed spawn of a frame is the level at its start, and the frame
ends with that level or the next. -/
theorem update_level_cases (L : Libm α) (g : Game α) (dt : α) (h : g.gameOver = false) :
    (Game.update L g dt).level = g.level ∨ (Game.update L g dt).level = g.level + 1 := by
  have hl4 : (((g.moveEntities L dt).checkCollisions L).removeInactiveEntities.timedSpawn L
      dt).level = g.level := by
    rw [(timedSpawn_level L _ dt).1, (reclaimed_fields L g dt).1]
  obtain ⟨hadv, hstay⟩ := levelAdvance_cases L
    (((g.moveEntities L dt).checkCollisions L).removeInactiveEntities.timedSpawn L dt)
  rw [update_playing L g dt h, (checkGameOver_fields _).1]
  by_cases hc : (((g.moveEntities L dt).checkCollisions L).removeInactiveEntities.timedSpawn L
        dt).asteroids = [] ∧
      (((g.moveEntities L dt).checkCollisions L).removeInactiveEntities.timedSpawn L
        dt).player.active = true
  · right; rw [(hadv hc).1, hl4]
  · left; rw [hstay hc, hl4]

/-- The field size is the same after any call. -/
theorem step_size (L : Libm α) (g : Game α) (i : Input α) :
    (g.step L i).width = g.width ∧ (g.step L i).height = g.height := by
  have hnew : (Game.new L g.width g.height g.rng g.crand).width = g.width ∧
      (Game.new L g.width g.height g.rng g.crand).height = g.height :=
    ⟨(new_fields L _ _ _ _).2.2.2.2.2.1, (new_fields L _ _ _ _).2.2.2.2.2.2.1⟩
  cases i with
  | update dt =>
    by_cases h : g.gameOver = true
    · simp only [Game.step, Game.update, h, if_true, and_self]
    · have h2 : g.gameOver = false := by simpa using h
      simp only [Game.step]
      rw [update_playing L g dt h2]
      obtain ⟨b0, hb0⟩ := checkGameOver_spec
        (((((g.moveEntities L dt).checkCollisions L).removeInactiveEntities).timedSpawn L
          dt).levelAdvance L)
      obtain ⟨a1, r1, c1, l1, h1, -⟩ := levelAdvance_spec L
        ((((g.moveEntities L dt).checkCollisions L).removeInactiveEntities).timedSpawn L dt)
      obtain ⟨a2, r2, c2, t2, e2, -⟩ := timedSpawn_spec L
        (((g.moveEntities L dt).checkCollisions L).removeInactiveEntities) dt
      rw [hb0, h1, e2]
      exact ⟨(reclaimed_fields L g dt).2.1, (reclaimed_fields L g dt).2.2.1⟩
  | handleInput c dt =>
    by_cases hr : g.resetsOn (Input.handleInput c dt) = true
    · rw [step_of_resetsOn L g _ hr]
      exact hnew
    · simp only [Game.resetsOn, Bool.and_eq_true, Bool.or_eq_true, beq_iff_eq] at hr
      simp only [Game.step]
      unfold Game.handleInput
      by_cases hg : g.gameOver = true
      · have hc : ¬ (c = 'r' ∨ c = 'R') := fun hc => hr ⟨hg, hc⟩
        simp only [hg, if_true, hc, if_false, and_self]
      · have hg2 : g.gameOver = false := by simpa using hg
        simp only [hg2, Bool.false_eq_true, if_false]
        split_ifs
        · exact ⟨rfl, rfl⟩
        · exact ⟨rfl, rfl⟩
        · exact ⟨rfl, rfl⟩
        · unfold Game.shootProjectile
          split_ifs <;> exact ⟨rfl, rfl⟩
        · exact ⟨rfl, rfl⟩
        · exact ⟨rfl, rfl⟩
  | reset => exact hnew

/-- Score and level across one call: a call that runs `reset` sets them to 0 and 1, any
other call does not lower them. -/
theorem step_score_level (L : Libm α) (g : Game α) (i : Input α) :
    (g.resetsOn i = true → (g.step L i).score = 0 ∧ (g.step L i).level = 1) ∧
    (g.resetsOn i = false →
      g.score ≤ (g.step L i).score ∧ g.level ≤ (g.step L i).level) := by
  constructor
  · intro hr
    rw [step_of_resetsOn L g i hr]
    exact ⟨(new_fields L _ _ _ _).2.2.1, (new_fields L _ _ _ _).2.2.2.1⟩
  · intro hr
    cases i with
    | update dt =>
      by_cases h : g.gameOver = true
      · simp only [Game.step, Game.update, h, if_true, le_refl, and_self]
      · have h2 : g.gameOver = false := by simpa using h
        simp only [Game.step]
        constructor
        · rw [update_sum_of_points L g dt h2]
          have := sum_getPoints_nonneg
            (Game.destroyedByProjectiles L (g.moveEntities L dt).projectiles (g.moveEntities L dt))
          omega
        · rcases update_level_cases L g dt h2 with e | e <;> omega
    | handleInput c dt =>
      by_cases hg : g.gameOver = true
      · simp only [Game.resetsOn, hg, Bool.true_and, Bool.or_eq_false_iff,
          beq_eq_false_iff_ne, ne_eq] at hr
        simp only [Game.step, Game.handleInput, hg, if_true, hr.1, hr.2, or_self, if_false,
          le_refl, and_self]
      · have hg2 : g.gameOver = false := by simpa using hg
        obtain ⟨-, -, -, e1, e2⟩ := handleInput_playing L g c dt hg2
        simp only [Game.step]
        rw [e1, e2]
        exact ⟨le_refl _, le_refl _⟩
    | reset => simp [Game.resetsOn] at hr

theorem reachable_score_level (L : Libm α) (g : Game α) (hr : Reachable L g) :
    0 ≤ g.score ∧ 1 ≤ g.level := by
  induction hr with
  | fresh w h rng crand =>
    rw [(new_fields L w h rng crand).2.2.1, (new_fields L w h rng crand).2.2.2.1]
    exact ⟨le_refl _, le_refl _⟩
  | call g1 i _ ih =>
    obtain ⟨h1, h2⟩ := step_score_level L g1 i
    by_cases hi : g1.resetsOn i = true
    · rw [(h1 hi).1, (h1 hi).2]
      exact ⟨le_refl _, le_refl _⟩
    · have := h2 (by simpa using hi)
      exact ⟨le_trans ih.1 this.1, le_trans ih.2 this.2⟩

/-- C21: in every state reachable from a fresh session by `update`, `handleInput` and
`reset` (integers unbounded), the score is at least 0 and the level at least 1; no call
changes width or height; and an `update` or a `handleInput` that does not run `reset`
lowers neither score nor level. -/
theorem score_level_invariants (L : Libm α) (g : Game α) (i : Input α) (dt : α) (c : Char)
    (hr : Reachable L g) :
    0 ≤ g.score ∧ 1 ≤ g.level ∧
    (g.step L i).width = g.width ∧ (g.step L i).height = g.height ∧
    g.score ≤ (Game.update L g dt).score ∧ g.level ≤ (Game.update L g dt).level ∧
    (¬ (g.gameOver = true ∧ (c = 'r' ∨ c = 'R')) →
      g.score ≤ (Game.handleInput L g c dt).score ∧
      g.level ≤ (Game.handleInput L g c dt).level) := by
  obtain ⟨h1, h2⟩ := reachable_score_level L g hr
  obtain ⟨h3, h4⟩ := step_size L g i
  have h5 := (step_score_level L g (Input.update dt)).2 rfl
  refine ⟨h1, h2, h3, h4, h5.1, h5.2, ?_⟩
  intro hc
  have hres : g.resetsOn (Input.handleInput c dt) = false := by
    by_contra hne
    have ht : g.resetsOn (Input.handleInput c dt) = true := by simpa using hne
    simp only [Game.resetsOn, Bool.and_eq_true, Bool.or_eq_true, beq_iff_eq] at ht
    exact hc ht
  exact (step_score_level L g (Input.handleInput c dt)).2 hres

theorem score_level_invariants_witness :
    Reachable evalLibm ((freshSession.step evalLibm (Input.handleInput ' ' (1 / 60))).step
      evalLibm (Input.update (1 / 60))) ∧
    1 ≤ ((freshSession.step evalLibm (Input.handleInput ' ' (1 / 60))).step evalLibm
      (Input.update (1 / 60))).level ∧
    0 ≤ ((freshSession.step evalLibm (Input.handleInput ' ' (1 / 60))).step evalLibm
      (Input.update (1 / 60))).score :=
  have hr : Reachable evalLibm ((freshSession.step evalLibm
      (Input.handleInput ' ' (1 / 60))).step evalLibm (Input.update (1 / 60))) :=
    Reachable.call _ _ (Reachable.call _ _ (Reachable.fresh 800 600 _ _))
  ⟨hr, (score_level_invariants evalLibm _ (Input.update (1 / 60)) (1 / 60) 'a' hr).2.1,
    (score_level_invariants evalLibm _ (Input.update (1 / 60)) (1 / 60) 'a' hr).1⟩

/-- C24: in every state reachable from a fresh session by `update`, `handleInput` and
`reset`, the three conditions `gameOver`, player inactive, and health `<= 0` are equivalent;
so a fire input while Playing with the cooldown expired finds the player active (the guard
of `shootProjectile` is not taken) and appends a projectile at the ship's position. -/
theorem gameOver_iff_dead (L : Libm α) (g : Game α) (dt : α) (hr : Reachable L g) :
    (g.gameOver = true ↔ g.player.active = false) ∧
    (g.player.active = false ↔ g.player.health ≤ 0) ∧
    (g.gameOver = true ↔ g.player.health ≤ 0) ∧
    (g.gameOver = false → g.shootCooldown ≤ 0 →
      g.player.active = true ∧
      g.shootProjectile =
        { g with projectiles :=
            g.projectiles ++ [Projectile.new g.player.position ⟨0, -300⟩] } ∧
      (Game.handleInput L g ' ' dt).projectiles =
        g.projectiles ++ [Projectile.new g.player.position ⟨0, -300⟩]) := by
  have ha := reachable_alive L g hr
  rcases ha with ⟨h1, h2, h3⟩ | ⟨h1, h2, h3⟩
  · refine ⟨?_, ?_, ?_, ?_⟩
    · rw [h1, h2]
      simp
    · rw [h2]
      constructor
      · intro h; cases h
      · intro h; omega
    · rw [h1]
      constructor
      · intro h; cases h
      · intro h; omega
    · intro _ hc
      refine ⟨h2, ?_, ?_⟩
      · unfold Game.shootProjectile
        simp [h2]
      · rw [handleInput_fire L g dt h1 hc h2]
  · refine ⟨?_, ?_, ?_, ?_⟩
    · rw [h1, h2]
      simp
    · rw [h2, h3]
      exact ⟨fun _ => le_refl _, fun _ => rfl⟩
    · rw [h1, h3]
      exact ⟨fun _ => le_refl _, fun _ => rfl⟩
    · intro hp
      rw [h1] at hp
      cases hp

theorem gameOver_iff_dead_witness :
    Reachable evalLibm (freshSession.step evalLibm (Input.update (1 / 60))) ∧
    ((freshSession.step evalLibm (Input.update (1 / 60))).gameOver = true ↔
      (freshSession.step evalLibm (Input.update (1 / 60))).player.health ≤ 0) :=
  have hr : Reachable evalLibm (freshSession.step evalLibm (Input.update (1 / 60))) :=
    Reachable.call _ _ (Reachable.fresh 800 600 _ _)
  ⟨hr, (gameOver_iff_dead evalLibm _ (1 / 60) hr).2.2.1⟩

/-- A timed spawn that is due appends at least one asteroid when the level is not
negative. -/
theorem timedSpawn_due_nonempty (L : Libm α) (g : Game α) (dt : α)
    (hdue : 2 ≤ g.spawnTimer + dt) (hlev : 0 ≤ g.level) :
    (g.timedSpawn L dt).asteroids ≠ [] := by
  have hc : g.spawnTimer + dt ≥ Game.spawnInterval := hdue
  unfold Game.timedSpawn
  dsimp only
  rw [if_pos hc]
  obtain ⟨added, rng1, crand1, e1, e2, -⟩ :=
    spawnAsteroids_spec L (1 + Int.tdiv g.level 3) { g with spawnTimer := 0 }
  rw [e1]
  intro hnil
  have hlen : (g.asteroids ++ added).length = 0 := by
    have : ({ g with spawnTimer := 0 } : Game α).asteroids ++ added = [] := hnil
    exact List.length_eq_zero.mpr this
  rw [List.length_append, e2] at hlen
  have : 0 ≤ Int.tdiv g.level 3 := Int.tdiv_nonneg hlev (by norm_num)
  omega

/-- While Playing at a level of at least 1, a frame that does not end the game leaves
the asteroid collection non-empty. -/
theorem update_asteroids_nonempty (L : Libm α) (g : Game α) (dt : α)
    (hplay : g.gameOver = false) (hlev : 1 ≤ g.level)
    (hact : (Game.update L g dt).player.active = true) :
    (Game.update L g dt).asteroids ≠ [] := by
  have hl4 : (((g.moveEntities L dt).checkCollisions L).removeInactiveEntities.timedSpawn L
      dt).level = g.level := by
    rw [(timedSpawn_level L _ dt).1, (reclaimed_fields L g dt).1]
  have hp4 : (((g.moveEntities L dt).checkCollisions L).removeInactiveEntities.timedSpawn L
      dt).player = (Game.update L g dt).player := by
    rw [(timedSpawn_level L _ dt).2.1, (update_score_player L g dt hplay).2.1]
    rfl
  obtain ⟨hadv, hstay⟩ := levelAdvance_cases L
    (((g.moveEntities L dt).checkCollisions L).removeInactiveEntities.timedSpawn L dt)
  rw [update_playing L g dt hplay, (checkGameOver_fields _).2.1]
  by_cases hc : (((g.moveEntities L dt).checkCollisions L).removeInactiveEntities.timedSpawn L
      dt).asteroids = []
  · obtain ⟨-, e2, -⟩ := hadv ⟨hc, by rw [hp4]; exact hact⟩
    rw [hl4] at e2
    intro hnil
    rw [hnil] at e2
    simp only [List.length_nil] at e2
    omega
  · rw [hstay (fun h => hc h.1)]
    exact hc

theorem step_asteroids_nonempty (L : Libm α) (g : Game α) (i : Input α)
    (hr : Reachable L g) (hinv : g.gameOver = false → g.asteroids ≠ [])
    (hplay : (g.step L i).gameOver = false) : (g.step L i).asteroids ≠ [] := by
  by_cases hres : g.resetsOn i = true
  · rw [step_of_resetsOn L g i hres]
    intro hnil
    have := (new_asteroids L g.width g.height g.rng g.crand).1
    rw [hnil] at this
    cases this
  · have hres2 : g.resetsOn i = false := by simpa using hres
    cases i with
    | update dt =>
      by_cases hg : g.gameOver = true
      · have hs : g.step L (Input.update dt) = g := by simp [Game.step, Game.update, hg]
        rw [hs] at hplay ⊢
        exact hinv hplay
      · have hg2 : g.gameOver = false := by simpa using hg
        have ha := reachable_alive L _ (Reachable.call g (Input.update dt) hr)
        have hact : (Game.update L g dt).player.active = true := by
          rcases ha with ⟨-, h2, -⟩ | ⟨h1, -, -⟩
          · exact h2
          · rw [hplay] at h1; cases h1
        exact update_asteroids_nonempty L g dt hg2 (reachable_score_level L g hr).2 hact
    | handleInput c dt =>
      by_cases hg : g.gameOver = true
      · simp only [Game.resetsOn, hg, Bool.true_and, Bool.or_eq_false_iff,
          beq_eq_false_iff_ne, ne_eq] at hres2
        have hs : g.step L (Input.handleInput c dt) = g := by
          simp [Game.step, Game.handleInput, hg, hres2.1, hres2.2]
        rw [hs] at hplay ⊢
        exact hinv hplay
      · have hg2 : g.gameOver = false := by simpa using hg
        show (Game.handleInput L g c dt).asteroids ≠ []
        rw [(handleInput_collections L g c dt hg2).1]
        exact hinv hg2
    | reset => simp [Game.resetsOn] at hres2

theorem reachable_asteroids_nonempty (L : Libm α) (g : Game α) (hr : Reachable L g) :
    g.gameOver = false → g.asteroids ≠ [] := by
  induction hr with
  | fresh w h rng crand =>
    intro _ hnil
    have := (new_asteroids L w h rng crand).1
    rw [hnil] at this
    cases this
  | call g1 i hr1 ih => exact step_asteroids_nonempty L g1 i hr1 ih

/-- C25: in every state reachable from a fresh session by `update`, `handleInput` and
`reset` in which `gameOver` is false, the asteroid collection is non-empty; and no
`update(dt)` of a reachable state performs both a timed spawn and a level advance: when the
timed spawn is due (while Playing, `spawnTimer + dt >= 2`) it appends at least one asteroid
and the level stays, and when the level rises the timed spawn was not due. -/
theorem playing_has_asteroids (L : Libm α) (g : Game α) (dt : α) (hr : Reachable L g) :
    (g.gameOver = false → g.asteroids ≠ []) ∧
    (g.gameOver = false → 2 ≤ g.spawnTimer + dt →
      (((g.moveEntities L dt).checkCollisions L).removeInactiveEntities.timedSpawn L
        dt).asteroids ≠ [] ∧
      (Game.update L g dt).level = g.level) ∧
    ((Game.update L g dt).level = g.level + 1 →
      g.gameOver = false ∧ ¬ 2 ≤ g.spawnTimer + dt) ∧
    ¬ (g.gameOver = false ∧ 2 ≤ g.spawnTimer + dt ∧
      (Game.update L g dt).level = g.level + 1) := by
  have hlev := (reachable_score_level L g hr).2
  have hdue : g.gameOver = false → 2 ≤ g.spawnTimer + dt →
      (((g.moveEntities L dt).checkCollisions L).removeInactiveEntities.timedSpawn L
        dt).asteroids ≠ [] ∧
      (Game.update L g dt).level = g.level := by
    intro hplay hd
    have hne := timedSpawn_due_nonempty L
      ((g.moveEntities L dt).checkCollisions L).removeInactiveEntities dt
      (by rw [(reclaimed_fields L g dt).2.2.2.1]; exact hd)
      (by rw [(reclaimed_fields L g dt).1]; omega)
    refine ⟨hne, ?_⟩
    have hl4 : (((g.moveEntities L dt).checkCollisions L).removeInactiveEntities.timedSpawn L
        dt).level = g.level := by
      rw [(timedSpawn_level L _ dt).1, (reclaimed_fields L g dt).1]
    rw [update_playing L g dt hplay, (checkGameOver_fields _).1,
      (levelAdvance_cases L _).2 (fun h => hne h.1), hl4]
  refine ⟨reachable_asteroids_nonempty L g hr, hdue, ?_, ?_⟩
  · intro hup
    have hplay : g.gameOver = false := by
      by_contra hg
      have hg2 : g.gameOver = true := by simpa using hg
      have : Game.update L g dt = g := by simp [Game.update, hg2]
      rw [this] at hup
      omega
    refine ⟨hplay, fun hd => ?_⟩
    have := (hdue hplay hd).2
    omega
  · rintro ⟨hplay, hd, hup⟩
    have := (hdue hplay hd).2
    omega

theorem playing_has_asteroids_witness :
    Reachable evalLibm (freshSession.step evalLibm (Input.handleInput 'a' (1 / 60))) ∧
    (freshSession.step evalLibm (Input.handleInput 'a' (1 / 60))).gameOver = false ∧
    (freshSession.step evalLibm (Input.handleInput 'a' (1 / 60))).asteroids ≠ [] := by
  have hr : Reachable evalLibm (freshSession.step evalLibm (Input.handleInput 'a' (1 / 60))) :=
    Reachable.call _ _ (Reachable.fresh 800 600 _ _)
  have hg : (freshSession.step evalLibm (Input.handleInput 'a' (1 / 60))).gameOver = false :=
    (handleInput_playing evalLibm freshSession 'a' (1 / 60)
      (new_fields evalLibm 800 600 _ _).2.1).2.2.1
  exact ⟨hr, hg, (playing_has_asteroids evalLibm _ (1 / 60) hr).1 hg⟩

/-- The ship that `applyBoundaries` leaves, for a field at least two radii wide. -/
theorem applyBoundaries_track (s : Starship α) (width height : α)
    (hw : 2 * s.radius ≤ width) :
    s.radius ≤ (s.applyBoundaries width height).position.x ∧
    (s.applyBoundaries width height).position.x ≤ width - s.radius ∧
    (s.applyBoundaries width height).position.y = height - 30 ∧
    (s.applyBoundaries width height).velocity.y = 0 := by
  have hr : s.radius ≤ width - s.radius := by linarith
  refine ⟨?_, ?_, rfl, rfl⟩
  · unfold Starship.applyBoundaries
    dsimp only
    split_ifs with h1 h2 h2
    · exact hr
    · exact le_refl _
    · exact hr
    · exact not_lt.mp h1
  · unfold Starship.applyBoundaries
    dsimp only
    split_ifs with h1 h2 h2
    · exact le_refl _
    · exact not_lt.mp h2
    · exact le_refl _
    · exact not_lt.mp h2

set_option maxHeartbeats 1000000 in
/-- C22, as stated, fails: on the 800 x 600 field with the ship on its track at (400, 570)
and a Large asteroid at rest on it, `update(1/60)` finds the contact, the ship keeps 2 lives,
is still active, and is respawned at the field centre: its y is 300, not 600 - 30. -/
theorem respawn_leaves_track :
    overlapOnTrack.gameOver = false ∧ (2 : ℚ) ≤ overlapOnTrack.width ∧
    (Game.update evalLibm overlapOnTrack (1 / 60)).player.active = true ∧
    (Game.update evalLibm overlapOnTrack (1 / 60)).player.position.y = 300 ∧
    (Game.update evalLibm overlapOnTrack (1 / 60)).player.position.y ≠
      overlapOnTrack.height - 30 := by
  have hy : (Game.update evalLibm overlapOnTrack (1 / 60)).player.position.y = 300 := by
    norm_num [Game.update, overlapOnTrack, overlapAtCentre, Game.moveEntities,
      Game.checkCollisions, Game.projectilePhase, Game.projectilePass, Game.playerPass, hitScan,
      Game.removeInactiveEntities, Game.timedSpawn, Game.levelAdvance, Game.checkGameOver,
      Game.updateAsteroid, Starship.update, Starship.applyDrag, Starship.applyBoundaries,
      Starship.takeDamage, Starship.respawn, Asteroid.update, Entity.update,
      Entity.collidesWith, Vector2D.distance, Vector2D.length, Vector2D.sub, Vector2D.add,
      Vector2D.smul, Starship.new, Asteroid.new, Entity.new, Asteroid.getRadiusForSize,
      Asteroid.setActive, Game.spawnInterval, Game.spawnAsteroids, Game.spawnAsteroidsLoop,
      Game.spawnAsteroidsBody, Game.spawnAsteroid, uniformReal, evalLibm_sqrt_zero]
  have ha : (Game.update evalLibm overlapOnTrack (1 / 60)).player.active = true := by
    norm_num [Game.update, overlapOnTrack, overlapAtCentre, Game.moveEntities,
      Game.checkCollisions, Game.projectilePhase, Game.projectilePass, Game.playerPass, hitScan,
      Game.removeInactiveEntities, Game.timedSpawn, Game.levelAdvance, Game.checkGameOver,
      Game.updateAsteroid, Starship.update, Starship.applyDrag, Starship.applyBoundaries,
      Starship.takeDamage, Starship.respawn, Asteroid.update, Entity.update,
      Entity.collidesWith, Vector2D.distance, Vector2D.length, Vector2D.sub, Vector2D.add,
      Vector2D.smul, Starship.new, Asteroid.new, Entity.new, Asteroid.getRadiusForSize,
      Asteroid.setActive, Game.spawnInterval, Game.spawnAsteroids, Game.spawnAsteroidsLoop,
      Game.spawnAsteroidsBody, Game.spawnAsteroid, uniformReal, evalLibm_sqrt_zero]
  refine ⟨rfl, by norm_num [overlapOnTrack, overlapAtCentre], ha, hy, ?_⟩
  rw [hy]
  norm_num [overlapOnTrack, overlapAtCentre]

theorem moveEntities_player_of_active (L : Libm α) (g : Game α) (dt : α) (h : g.player.active = true) :
    (g.moveEntities L dt).player =
      ((g.player.update dt).applyDrag dt).applyBoundaries g.width g.height := by
  unfold Game.moveEntities
  simp only [h, if_true]

omit [LinearOrderedField α] in
theorem takeDamage_radius (s : Starship α) : s.takeDamage.radius = s.radius := by
  unfold Starship.takeDamage
  dsimp only
  split_ifs <;> rfl

/-- C22, amended: while Playing on a field of width at least 2 (the ship's radius being 1,
as the constructor sets it), after an `update(dt)` at whose end the player is still active,
the ship's x lies in `[radius, width - radius]` and its vertical velocity is 0; its y equals
`height - 30` when it was not hit in that frame (its health is unchanged); when it was hit,
it has one life less and stands at the field centre `(width/2, height/2)` with zero velocity,
where the respawn put it. -/
theorem ship_on_track_unless_hit (L : Libm α) (g : Game α) (dt : α)
    (hplay : g.gameOver = false) (hrad : g.player.radius = 1) (hw : 2 ≤ g.width)
    (hend : (Game.update L g dt).player.active = true) :
    (Game.update L g dt).player.radius ≤ (Game.update L g dt).player.position.x ∧
    (Game.update L g dt).player.position.x ≤ g.width - (Game.update L g dt).player.radius ∧
    (Game.update L g dt).player.velocity.y = 0 ∧
    ((Game.update L g dt).player.health = g.player.health →
      (Game.update L g dt).player.position.y = g.height - 30) ∧
    ((Game.update L g dt).player.health ≠ g.player.health →
      (Game.update L g dt).player.health = g.player.health - 1 ∧
      (Game.update L g dt).player.position = ⟨g.width / 2, g.height / 2⟩ ∧
      (Game.update L g dt).player.velocity = ⟨0, 0⟩) := by
  have hpl := (update_score_player L g dt hplay).2.1
  rw [hpl] at hend ⊢
  obtain ⟨asts4, rng4, h4⟩ := projectilePhase_spec L (g.moveEntities L dt)
  have hP : ((g.moveEntities L dt).projectilePhase L).player = (g.moveEntities L dt).player := by
    rw [h4]
  have hPw : ((g.moveEntities L dt).projectilePhase L).width = g.width := by rw [h4]; rfl
  have hPh : ((g.moveEntities L dt).projectilePhase L).height = g.height := by rw [h4]; rfl
  unfold Game.checkCollisions at hend ⊢
  rcases playerPass_cases L ((g.moveEntities L dt).projectilePhase L) with
    hsame | ⟨hact, a, asts, -, hhit⟩
  · rw [hsame, hP] at hend ⊢
    have hga : g.player.active = true := by rw [← moveEntities_player_active L g dt]; exact hend
    have hhealth := moveEntities_player_health L g dt
    rw [moveEntities_player_of_active L g dt hga] at hhealth ⊢
    have hr : (((g.player.update dt).applyDrag dt).applyBoundaries g.width g.height).radius =
        1 := hrad
    have hw2 : 2 * ((g.player.update dt).applyDrag dt).radius ≤ g.width := by
      rw [show ((g.player.update dt).applyDrag dt).radius = 1 from hrad]; linarith
    obtain ⟨t1, t2, t3, t4⟩ := applyBoundaries_track ((g.player.update dt).applyDrag dt)
      g.width g.height hw2
    rw [show ((g.player.update dt).applyDrag dt).radius = 1 from hrad] at t1 t2
    rw [hr]
    exact ⟨t1, t2, t4, fun _ => t3, fun hne => absurd hhealth hne⟩
  · rw [hhit] at hend ⊢
    have hh := hitPlayer_health ((g.moveEntities L dt).projectilePhase L).player
      (⟨((g.moveEntities L dt).projectilePhase L).width / 2,
        ((g.moveEntities L dt).projectilePhase L).height / 2⟩ : Vector2D α)
    have hend2 : (if 0 < ((g.moveEntities L dt).projectilePhase L).player.takeDamage.health then
        ((g.moveEntities L dt).projectilePhase L).player.takeDamage.respawn
          ⟨((g.moveEntities L dt).projectilePhase L).width / 2,
            ((g.moveEntities L dt).projectilePhase L).height / 2⟩
        else ((g.moveEntities L dt).projectilePhase L).player.takeDamage).active = true := hend
    rw [hh.2] at hend2
    have hpos : 0 < ((g.moveEntities L dt).projectilePhase L).player.health - 1 := by
      simpa using hend2
    have htd : 0 < ((g.moveEntities L dt).projectilePhase L).player.takeDamage.health := by
      rw [takeDamage_health]; exact hpos
    have hres : (if 0 < ((g.moveEntities L dt).projectilePhase L).player.takeDamage.health then
        ((g.moveEntities L dt).projectilePhase L).player.takeDamage.respawn
          ⟨((g.moveEntities L dt).projectilePhase L).width / 2,
            ((g.moveEntities L dt).projectilePhase L).height / 2⟩
        else ((g.moveEntities L dt).projectilePhase L).player.takeDamage) =
        ((g.moveEntities L dt).projectilePhase L).player.takeDamage.respawn
          ⟨g.width / 2, g.height / 2⟩ := by
      rw [if_pos htd, hPw, hPh]
    have hrad2 : (((g.moveEntities L dt).projectilePhase L).player.takeDamage.respawn
        (⟨g.width / 2, g.height / 2⟩ : Vector2D α)).radius = 1 := by
      show ((g.moveEntities L dt).projectilePhase L).player.takeDamage.radius = 1
      rw [takeDamage_radius, hP]
      by_cases hga : g.player.active = true
      · rw [moveEntities_player_of_active L g dt hga]; exact hrad
      · unfold Game.moveEntities
        simp only [hga]
        exact hrad
    have hhealth : (((g.moveEntities L dt).projectilePhase L).player.takeDamage.respawn
        (⟨g.width / 2, g.height / 2⟩ : Vector2D α)).health = g.player.health - 1 := by
      show ((g.moveEntities L dt).projectilePhase L).player.takeDamage.health = _
      rw [takeDamage_health, hP, moveEntities_player_health]
    show ((if 0 < ((g.moveEntities L dt).projectilePhase L).player.takeDamage.health then _
        else _ : Starship α).radius ≤ _) ∧ _
    rw [hres, hrad2, hhealth]
    refine ⟨?_, ?_, rfl, fun h => ?_, fun _ => ⟨rfl, rfl, rfl⟩⟩
    · show (1 : α) ≤ g.width / 2
      linarith
    · show g.width / 2 ≤ g.width - 1
      linarith
    · omega

theorem ship_on_track_unless_hit_witness :
    overlapAtCentre.gameOver = false ∧ overlapAtCentre.player.radius = 1 ∧
    (2 : ℚ) ≤ overlapAtCentre.width ∧
    (Game.update evalLibm overlapAtCentre (1 / 60)).player.active = true ∧
    (Game.update evalLibm overlapAtCentre (1 / 60)).player.position.y = 570 := by
  have hrad : overlapAtCentre.player.radius = 1 := rfl
  have hw : (2 : ℚ) ≤ overlapAtCentre.width := by norm_num [overlapAtCentre]
  have hh : (Game.update evalLibm overlapAtCentre (1 / 60)).player.health = 3 := by
    norm_num [Game.update, overlapAtCentre, Game.moveEntities, Game.checkCollisions,
      Game.projectilePhase, Game.projectilePass, Game.playerPass, hitScan,
      Game.removeInactiveEntities, Game.timedSpawn, Game.levelAdvance, Game.checkGameOver,
      Game.updateAsteroid, Starship.update, Starship.applyDrag, Starship.applyBoundaries,
      Asteroid.update, Entity.update, Entity.collidesWith, Vector2D.distance, Vector2D.length,
      Vector2D.sub, Vector2D.add, Vector2D.smul, Starship.new, Asteroid.new, Entity.new,
      Asteroid.getRadiusForSize, Asteroid.setActive, Game.spawnInterval, evalLibm_sqrt_72900]
  have ha : (Game.update evalLibm overlapAtCentre (1 / 60)).player.active = true := by
    norm_num [Game.update, overlapAtCentre, Game.moveEntities, Game.checkCollisions,
      Game.projectilePhase, Game.projectilePass, Game.playerPass, hitScan,
      Game.removeInactiveEntities, Game.timedSpawn, Game.levelAdvance, Game.checkGameOver,
      Game.updateAsteroid, Starship.update, Starship.applyDrag, Starship.applyBoundaries,
      Asteroid.update, Entity.update, Entity.collidesWith, Vector2D.distance, Vector2D.length,
      Vector2D.sub, Vector2D.add, Vector2D.smul, Starship.new, Asteroid.new, Entity.new,
      Asteroid.getRadiusForSize, Asteroid.setActive, Game.spawnInterval, evalLibm_sqrt_72900]
  refine ⟨rfl, hrad, hw, ha, ?_⟩
  rw [(ship_on_track_unless_hit evalLibm overlapAtCentre (1 / 60) rfl hrad hw ha).2.2.2.1
    (by rw [hh]; rfl)]
  norm_num [overlapAtCentre]

end Session

/-! ## Fragments over the reals -/

section Fragments

/-- The velocity built from the polar angle `arg (vx + i vy) + o` and 1.2 times the length
of `(vx, vy)`: its length, and its components as a rotation of `(vx, vy)`. -/
theorem polar_velocity (vx vy o : ℝ) :
    Real.sqrt ((Real.cos (Complex.arg ⟨vx, vy⟩ + o) * (Real.sqrt (vx * vx + vy * vy) * 1.2)) ^ 2 +
        (Real.sin (Complex.arg ⟨vx, vy⟩ + o) * (Real.sqrt (vx * vx + vy * vy) * 1.2)) ^ 2) =
      1.2 * Real.sqrt (vx ^ 2 + vy ^ 2) ∧
    Real.cos (Complex.arg ⟨vx, vy⟩ + o) * (Real.sqrt (vx * vx + vy * vy) * 1.2) =
      1.2 * (vx * Real.cos o - vy * Real.sin o) ∧
    Real.sin (Complex.arg ⟨vx, vy⟩ + o) * (Real.sqrt (vx * vx + vy * vy) * 1.2) =
      1.2 * (vx * Real.sin o + vy * Real.cos o) := by
  have habs : Complex.abs ⟨vx, vy⟩ = Real.sqrt (vx * vx + vy * vy) := by
    rw [Complex.abs_apply, Complex.normSq_apply]
  have hc := Complex.abs_mul_cos_arg ⟨vx, vy⟩
  have hs := Complex.abs_mul_sin_arg ⟨vx, vy⟩
  rw [habs] at hc hs
  simp only at hc hs
  have hnn : 0 ≤ Real.sqrt (vx * vx + vy * vy) * 1.2 :=
    mul_nonneg (Real.sqrt_nonneg _) (by norm_num)
  refine ⟨?_, ?_, ?_⟩
  · have e : (Real.cos (Complex.arg ⟨vx, vy⟩ + o) * (Real.sqrt (vx * vx + vy * vy) * 1.2)) ^ 2 +
        (Real.sin (Complex.arg ⟨vx, vy⟩ + o) * (Real.sqrt (vx * vx + vy * vy) * 1.2)) ^ 2 =
        (Real.sqrt (vx * vx + vy * vy) * 1.2) ^ 2 := by
      nlinarith [Real.cos_sq_add_sin_sq (Complex.arg ⟨vx, vy⟩ + o)]
    rw [e, Real.sqrt_sq hnn, pow_two, pow_two]
    ring
  · rw [Real.cos_add]
    linear_combination (1.2 * Real.cos o) * hc - (1.2 * Real.sin o) * hs
  · rw [Real.sin_add]
    linear_combination (1.2 * Real.sin o) * hc + (1.2 * Real.cos o) * hs

/-- What the split computes, over the reals with the real `sqrt`, `cos`, `sin` and `atan2`:
when an active projectile destroys the asteroid `a` (the first active one it overlaps) and
`a` can split, two fragments are appended; with `o1`, `o2` the angle offsets drawn for
them, which lie in `[-0.5, 0.5]` for canonical variates, the first fragment has speed
exactly 1.2 times the speed of `a`, its velocity has the polar angle
`atan2(vy, vx) + o1`, and it is the velocity of `a` turned by `o1` and scaled by 1.2.  The
second fragment stands in the same relation, with `o2`, to the velocity `v2` read through
the reference after the first `emplace_back`: the velocity of `a` when the vector had room,
what the released storage holds when it was full. -/
theorem fragments_from_reference (L : Libm ℝ) (g : Game ℝ) (p : Projectile ℝ)
    (pre post : List (Asteroid ℝ)) (a : Asteroid ℝ)
    (hsqrt : L.sqrt = Real.sqrt) (hcos : L.cos = Real.cos) (hsin : L.sin = Real.sin)
    (hatan : ∀ y x : ℝ, L.atan2 y x = Complex.arg ⟨x, y⟩)
    (hp : p.active = true) (hg : g.asteroids = pre ++ a :: post)
    (hfirst : FirstHit L p.toEntity pre a) (hsplit : a.canSplit = true)
    (hrng : InUnit g.rng) :
    ∃ (f1 f2 : Asteroid ℝ) (o1 o2 : ℝ) (v2 : Vector2D ℝ),
      (Game.projectileStep L p g).2.asteroids = pre ++ a.setActive false :: post ++ [f1, f2] ∧
      o1 = uniformReal (-0.5) 0.5 (g.rng 0) ∧ o2 = uniformReal (-0.5) 0.5 (g.rng 1) ∧
      (-0.5 ≤ o1 ∧ o1 ≤ 0.5) ∧ (-0.5 ≤ o2 ∧ o2 ≤ 0.5) ∧
      (L.full g.asteroids.length = false → v2 = a.velocity) ∧
      (L.full g.asteroids.length = true →
        v2 = (L.freed g.asteroids.length (a.position, a.velocity)).2) ∧
      (Real.sqrt (f1.velocity.x ^ 2 + f1.velocity.y ^ 2) =
          1.2 * Real.sqrt (a.velocity.x ^ 2 + a.velocity.y ^ 2) ∧
        f1.velocity =
          ⟨Real.cos (L.atan2 a.velocity.y a.velocity.x + o1) *
              (Real.sqrt (a.velocity.x * a.velocity.x + a.velocity.y * a.velocity.y) * 1.2),
            Real.sin (L.atan2 a.velocity.y a.velocity.x + o1) *
              (Real.sqrt (a.velocity.x * a.velocity.x + a.velocity.y * a.velocity.y) * 1.2)⟩ ∧
        f1.velocity.x = 1.2 * (a.velocity.x * Real.cos o1 - a.velocity.y * Real.sin o1) ∧
        f1.velocity.y = 1.2 * (a.velocity.x * Real.sin o1 + a.velocity.y * Real.cos o1)) ∧
      (Real.sqrt (f2.velocity.x ^ 2 + f2.velocity.y ^ 2) =
          1.2 * Real.sqrt (v2.x ^ 2 + v2.y ^ 2) ∧
        f2.velocity =
          ⟨Real.cos (L.atan2 v2.y v2.x + o2) * (Real.sqrt (v2.x * v2.x + v2.y * v2.y) * 1.2),
            Real.sin (L.atan2 v2.y v2.x + o2) *
              (Real.sqrt (v2.x * v2.x + v2.y * v2.y) * 1.2)⟩ ∧
        f2.velocity.x = 1.2 * (v2.x * Real.cos o2 - v2.y * Real.sin o2) ∧
        f2.velocity.y = 1.2 * (v2.x * Real.sin o2 + v2.y * Real.cos o2)) := by
  have hstep := projectileStep_of_firstHit L g p pre post a hp hg hfirst
  have hsplit2 : (a.setActive false).canSplit = true := hsplit
  have hfr := onProjectileHit_fragments L
    { g with asteroids := pre ++ a.setActive false :: post } (a.setActive false) hsplit2
  have hlen : (pre ++ a.setActive false :: post).length = g.asteroids.length := by
    rw [hg]; simp
  have hrange : ∀ u : ℝ, 0 ≤ u ∧ u < 1 →
      -0.5 ≤ uniformReal (-0.5) 0.5 u ∧ uniformReal (-0.5) 0.5 u ≤ 0.5 := by
    intro u hu
    unfold uniformReal
    constructor <;> nlinarith [hu.1, hu.2]
  obtain ⟨hroom, hfull⟩ := rereadAsteroid_cases L g.asteroids.length (a.setActive false)
  refine ⟨Asteroid.new (a.setActive false).position
      ⟨L.cos (L.atan2 (a.setActive false).velocity.y (a.setActive false).velocity.x +
          uniformReal (-0.5) 0.5 (g.rng 0)) * ((a.setActive false).velocity.length L * 1.2),
        L.sin (L.atan2 (a.setActive false).velocity.y (a.setActive false).velocity.x +
          uniformReal (-0.5) 0.5 (g.rng 0)) * ((a.setActive false).velocity.length L * 1.2)⟩
      (a.setActive false).getNextSize,
    Asteroid.new (Game.rereadAsteroid L g.asteroids.length (a.setActive false)).position
      ⟨L.cos (L.atan2 (Game.rereadAsteroid L g.asteroids.length (a.setActive false)).velocity.y
            (Game.rereadAsteroid L g.asteroids.length (a.setActive false)).velocity.x +
          uniformReal (-0.5) 0.5 (g.rng 1)) *
          ((Game.rereadAsteroid L g.asteroids.length (a.setActive false)).velocity.length L * 1.2),
        L.sin (L.atan2 (Game.rereadAsteroid L g.asteroids.length (a.setActive false)).velocity.y
            (Game.rereadAsteroid L g.asteroids.length (a.setActive false)).velocity.x +
          uniformReal (-0.5) 0.5 (g.rng 1)) *
          ((Game.rereadAsteroid L g.asteroids.length (a.setActive false)).velocity.length L * 1.2)⟩
      (a.setActive false).getNextSize,
    uniformReal (-0.5) 0.5 (g.rng 0), uniformReal (-0.5) 0.5 (g.rng 1),
    (Game.rereadAsteroid L g.asteroids.length (a.setActive false)).velocity, ?_, rfl, rfl,
    hrange _ (hrng 0), hrange _ (hrng 1), ?_, ?_, ?_, ?_⟩
  · rw [hstep, hfr]
    show _ ++ [_, Asteroid.new
      (Game.rereadAsteroid L (pre ++ a.setActive false :: post).length _).position _ _] = _
    rw [hlen]
  · intro h
    rw [hroom h]; rfl
  · intro h
    rw [(hfull h).2]; rfl
  · have h := polar_velocity a.velocity.x a.velocity.y (uniformReal (-0.5) 0.5 (g.rng 0))
    simp only [Asteroid.new, Entity.new, Asteroid.setActive, Vector2D.length, hsqrt, hcos, hsin,
      hatan]
    exact ⟨h.1, trivial, h.2.1, h.2.2⟩
  · have h := polar_velocity
      (Game.rereadAsteroid L g.asteroids.length (a.setActive false)).velocity.x
      (Game.rereadAsteroid L g.asteroids.length (a.setActive false)).velocity.y
      (uniformReal (-0.5) 0.5 (g.rng 1))
    simp only [Asteroid.new, Entity.new, Vector2D.length, hsqrt, hcos, hsin, hatan]
    exact ⟨h.1, trivial, h.2.1, h.2.2⟩

/-- On `driftField`, with room in the vector, the first fragment of the rock moving with
velocity (3, 4) has speed 6. -/
theorem fragments_from_reference_example :
    FirstHit (⟨Real.sqrt, Real.sin, Real.cos, fun y x => Complex.arg ⟨x, y⟩, id, fun _ => false, fun _ => id⟩ : Libm ℝ)
      (shotAtRock : Projectile ℝ).toEntity [] driftingRock ∧
    InUnit (driftField : Game ℝ).rng ∧
    (driftingRock : Asteroid ℝ).canSplit = true ∧
    ∃ f1 f2 : Asteroid ℝ,
      (Game.projectileStep (⟨Real.sqrt, Real.sin, Real.cos, fun y x => Complex.arg ⟨x, y⟩, id, fun _ => false, fun _ => id⟩ : Libm ℝ)
        shotAtRock driftField).2.asteroids = [driftingRock.setActive false, f1, f2] ∧
      Real.sqrt (f1.velocity.x ^ 2 + f1.velocity.y ^ 2) = 1.2 * Real.sqrt (3 ^ 2 + 4 ^ 2) ∧
      f1.velocity.x = 1.2 * (3 * Real.cos 0 - 4 * Real.sin 0) := by
  have hfirst : FirstHit (⟨Real.sqrt, Real.sin, Real.cos, fun y x => Complex.arg ⟨x, y⟩, id, fun _ => false, fun _ => id⟩ : Libm ℝ)
      (shotAtRock : Projectile ℝ).toEntity [] driftingRock := by
    refine ⟨by simp, rfl, ?_⟩
    simp [Entity.collidesWith, Vector2D.distance, Vector2D.length, Vector2D.sub, shotAtRock,
      driftingRock, Projectile.new, Asteroid.new, Entity.new, Asteroid.getRadiusForSize]
    norm_num
  have hrng : InUnit (driftField : Game ℝ).rng := by
    intro n
    norm_num [driftField]
  have hsplit : (driftingRock : Asteroid ℝ).canSplit = true := rfl
  obtain ⟨f1, f2, o1, o2, v2, h1, ho1, -, -, -, -, -, hf1, -⟩ :=
    fragments_from_reference ⟨Real.sqrt, Real.sin, Real.cos, fun y x => Complex.arg ⟨x, y⟩, id, fun _ => false, fun _ => id⟩
      driftField shotAtRock [] [] driftingRock rfl rfl rfl (fun _ _ => rfl) rfl rfl hfirst
      hsplit hrng
  have ho : o1 = 0 := by
    rw [ho1]
    norm_num [uniformReal, driftField]
  rw [ho] at hf1
  exact ⟨hfirst, hrng, hsplit, f1, f2, h1, hf1.1, hf1.2.2.1⟩

end Fragments

/-! ## The reference into released storage -/

section Released

/-- C1, at the failing input: a fresh 800 x 600 session, a fire input, then `update(1)`.
`checkCollisions` finds eight Large asteroids, the vector full as the constructor left
it, and the projectile on the first of them (`firstKill`).  The projectile destroys that
asteroid, and two active Medium fragments are appended; the first is at the position of
the asteroid, (400, 0), but the second, built from what the reference shows after the
first `emplace_back` has moved the vector, is where the released storage says, here
(0, 0). -/
theorem second_fragment_misplaced :
    firstKill.projectiles = [risingShot] ∧ firstKill.asteroids = List.replicate 8 fallingRock ∧
    risingShot.active = true ∧ FirstHit evalLibm risingShot.toEntity [] fallingRock ∧
    fallingRock.position = ⟨400, 0⟩ ∧
    evalLibm.full firstKill.asteroids.length = true ∧
    ((Game.projectilePhase evalLibm firstKill).asteroids.map fun a =>
        (a.size, a.active, a.position)) =
      (Size.LARGE, false, (⟨400, 0⟩ : Vector2D ℚ)) ::
        List.replicate 7 (Size.LARGE, true, (⟨400, 0⟩ : Vector2D ℚ)) ++
        [(Size.MEDIUM, true, ⟨400, 0⟩), (Size.MEDIUM, true, ⟨0, 0⟩)] := by
  have hlen : firstKill.asteroids.length = 8 := by rw [firstKill_asteroids]; rfl
  refine ⟨firstKill_projectiles, firstKill_asteroids, rfl, risingShot_hits, rfl,
    by rw [hlen]; decide, ?_⟩
  rw [firstKill_step,
    projectileStep_of_firstHit evalLibm firstKill risingShot [] (List.replicate 7 fallingRock)
      fallingRock rfl (by rw [firstKill_asteroids]; rfl) risingShot_hits,
    onProjectileHit_fragments evalLibm _ (fallingRock.setActive false) rfl]
  show List.map _ (_ ++ [_, Asteroid.new
    (Game.rereadAsteroid evalLibm 8 (fallingRock.setActive false)).position _ _]) = _
  rw [reread_fallingRock.1]
  simp [Asteroid.new, Entity.new, fallingRock, Asteroid.setActive, Asteroid.getNextSize,
    List.replicate]

/-- C23, at the failing input: a fresh 800 x 600 session, a fire input, then `update(1)`.
The asteroid the projectile destroys moves with velocity (0, 20), so each fragment
should have speed 24.  The second fragment takes its velocity from what the reference
shows after the first `emplace_back` has moved the full vector: here the released storage
reads as zero, and the fragment is at rest. -/
theorem second_fragment_at_rest :
    risingShot.active = true ∧ FirstHit evalLibm risingShot.toEntity [] fallingRock ∧
    firstKill.asteroids = [] ++ fallingRock :: List.replicate 7 fallingRock ∧
    evalLibm.full firstKill.asteroids.length = true ∧
    fallingRock.canSplit = true ∧ fallingRock.velocity = ⟨0, 20⟩ ∧
    1.2 * fallingRock.velocity.length evalLibm = 24 ∧
    ∃ f1 f2 : Asteroid ℚ,
      (Game.projectilePhase evalLibm firstKill).asteroids =
        fallingRock.setActive false :: List.replicate 7 fallingRock ++ [f1, f2] ∧
      f2.velocity = ⟨0, 0⟩ ∧ f2.velocity.length evalLibm = 0 := by
  have hlen : firstKill.asteroids.length = 8 := by rw [firstKill_asteroids]; rfl
  refine ⟨rfl, risingShot_hits, by rw [firstKill_asteroids]; rfl, by rw [hlen]; decide,
    rfl, rfl, ?_, ?_⟩
  · norm_num [fallingRock, Asteroid.new, Entity.new, Vector2D.length, evalLibm_sqrt_400]
  · rw [firstKill_step,
      projectileStep_of_firstHit evalLibm firstKill risingShot [] (List.replicate 7 fallingRock)
        fallingRock rfl (by rw [firstKill_asteroids]; rfl) risingShot_hits,
      onProjectileHit_fragments evalLibm _ (fallingRock.setActive false) rfl]
    have hv := reread_fallingRock.2
    refine ⟨_, _, rfl, ?_, ?_⟩
    · simp [Asteroid.new, Entity.new, hv, Vector2D.length, evalLibm_sqrt_zero]
    · simp [Asteroid.new, Entity.new, hv, Vector2D.length, evalLibm_sqrt_zero]

end Released

end starship
